import Mathlib

/-!
# Hesai Pandar packet decoders: shallow embedding

Embedding of `pandar40_decoder.cpp` and `pandar_xtm_decoder.cpp`.

Conventions of the embedding.

* A decoder object is a record; every member function takes the record and
  returns the updated record (explicit state passing).
* The constants of `pandar40.hpp` and `pandar_xtm.hpp` are not part of the
  sources at hand, so they are collected in a record `Consts` that every
  function takes as its first argument.
* C arrays (`packet_.blocks`, `block.units`) are lists read with a default
  element and written with `writeAt`, which grows the list when the index is
  past the end; an overrun of the C array is therefore visible as a list
  that became longer than the declared bound.
* A finite `double` is the rational number it denotes. An arithmetic
  operation on `double` operands is the exact operation followed by
  `roundDouble`, the IEEE 754 binary64 rounding (to nearest, ties to even),
  and a decimal literal such as `0.1` is `roundDouble (1 / 10)`. Comparisons
  and `abs` are exact. Infinities, NaN and the sign of zero are not
  represented; `roundDouble` is the binary64 result whenever that result is
  finite.
* The float-valued point fields (`x`, `y`, `z`, `time_stamp` and the
  calibration term of `azimuth`) are functions of the block, the unit, the
  calibration tables and the packet time; a point records the indices that
  determine them instead.
-/

set_option autoImplicit false

namespace pandar_pointcloud

/-! ## Shared data -/

/-- Raw message `pandar_msgs::PandarPacket`: the byte array `data` and the
separate field `size`. -/
structure PandarPacket where
  data : List (Fin 256)
  size : Nat
deriving DecidableEq, Repr

/-- Byte `buf[i]` of the raw message, as a natural number below 256.
Reading past the end of `data` yields 0 in the model. -/
def PandarPacket.byte (raw : PandarPacket) (i : Nat) : Nat :=
  (raw.data.getD i 0).val

/-- The fields of `struct tm` the parsers assign. -/
structure Tm where
  tm_year : Int
  tm_mon : Int
  tm_mday : Int
  tm_hour : Int
  tm_min : Int
  tm_sec : Int
  tm_isdst : Int
deriving DecidableEq, Repr, Inhabited

/-- Return type tags of `ReturnType` used by the decoders. -/
inductive ReturnType where
  | SINGLE_STRONGEST
  | SINGLE_LAST
  | DUAL_ONLY
  | DUAL_WEAK_FIRST
  | DUAL_STRONGEST_LAST
  | DUAL_STRONGEST_FIRST
  | DUAL_WEAK_LAST
deriving DecidableEq, Repr

/-- Point `PointXYZIRADT`. The fields `intensity`, `distance`, `ring` and
`return_type` are the assigned values (`return_type` is `none` where the
code leaves it unassigned). `block` is the index of the block the point is
built from and `block_azimuth` its azimuth; `time_block` is the index used
in the block offset table. Together with `ring` they determine the float
fields `x`, `y`, `z`, `azimuth` and `time_stamp`. -/
structure PointXYZIRADT where
  block : Nat
  ring : Nat
  distance : ℚ
  intensity : Nat
  block_azimuth : Nat
  return_type : Option ReturnType
  time_block : Nat
deriving DecidableEq, Repr

/-- Number of halvings that bring `n` below 2, at most `fuel` of them. -/
def log2Fuel : Nat → Nat → Nat
  | 0, _ => 0
  | fuel + 1, n => if n < 2 then 0 else log2Fuel fuel (n / 2) + 1

/-- Floor of the binary logarithm of `n` (0 for `n = 0`). -/
def floorLog2 (n : Nat) : Nat := log2Fuel n n

/-- Magnitude part of `roundDouble`: the binary64 value nearest to `n / d`
for `d > 0`, ties to the even significand. `l` is the floor of the binary
logarithm of `n / d`, `e` the exponent of the unit in the last place (at
least `-1074`, the subnormal range) and `m` the integer significand. -/
def roundDoubleAbs (n d : Nat) : ℚ :=
  if n = 0 then 0
  else
    let k : Int := (floorLog2 n : Int) - (floorLog2 d : Int)
    let ge : Bool := decide (d * 2 ^ k.toNat ≤ n * 2 ^ (-k).toNat)
    let l : Int := if ge then k else k - 1
    let e : Int := max (l - 52) (-1074)
    let num : Nat := n * 2 ^ (-e).toNat
    let den : Nat := d * 2 ^ e.toNat
    let q := num / den
    let r := num % den
    let m := if 2 * r < den then q else if den < 2 * r then q + 1
      else if q % 2 = 0 then q else q + 1
    ((m * 2 ^ e.toNat : Nat) : ℚ) / ((2 ^ (-e).toNat : Nat) : ℚ)

/-- Rounding of a rational to `double` (IEEE 754 binary64, round to
nearest, ties to even). -/
def roundDouble (x : ℚ) : ℚ :=
  if x < 0 then - roundDoubleAbs x.num.natAbs x.den else roundDoubleAbs x.num.natAbs x.den

/-- Array store `xs[i] = v`; the list grows, filled with `dflt`, when `i` is
past its end. -/
def writeAt {α : Type} (dflt : α) : List α → Nat → α → List α
  | [], 0, v => [v]
  | [], i + 1, v => dflt :: writeAt dflt [] i v
  | _ :: xs, 0, v => v :: xs
  | x :: xs, i + 1, v => x :: writeAt dflt xs i v

/-- Indices visited by `for (id = 0; id < n; id += step)`. -/
def blockIds (n step : Nat) : List Nat :=
  (List.range n).filter (fun i => i % step = 0)

/-- The scan segmenter variables common to both decoders. -/
structure ScanState where
  scan_pc_ : List PointXYZIRADT
  overflow_pc_ : List PointXYZIRADT
  last_phase_ : Int
  has_scanned_ : Bool
deriving DecidableEq, Repr

/-- Phase of a block:
`(static_cast<int>(azimuth) - scan_phase_ + 36000) % 36000` with the
truncating remainder of C++. -/
def currentPhase (azimuth scan_phase_ : Nat) : Int :=
  ((azimuth : Int) - (scan_phase_ : Int) + 36000).tmod 36000

/-- The segmenter statements at the end of the block loop of `unpack`
(identical in both decoders), on the segmenter variables alone. -/
def ScanState.step (scan_phase_ : Nat) (s : ScanState)
    (b : Nat × List PointXYZIRADT) : ScanState :=
  let current_phase := currentPhase b.1 scan_phase_
  if current_phase > s.last_phase_ ∧ s.has_scanned_ = false then
    { s with scan_pc_ := s.scan_pc_ ++ b.2, last_phase_ := current_phase }
  else
    { s with overflow_pc_ := s.overflow_pc_ ++ b.2, has_scanned_ := true,
             last_phase_ := current_phase }

/-- The statements at the start of `unpack` after a successful parse:
`if (has_scanned_) { scan_pc_ = overflow_pc_; overflow_pc_.reset(...);
has_scanned_ = false; }`. -/
def ScanState.enter (s : ScanState) : ScanState :=
  if s.has_scanned_ then
    { s with scan_pc_ := s.overflow_pc_, overflow_pc_ := [], has_scanned_ := false }
  else s

/-- The block loop on the segmenter variables: `ScanState.step` over the
blocks in order. -/
def ScanState.run (scan_phase_ : Nat) (s : ScanState)
    (bs : List (Nat × List PointXYZIRADT)) : ScanState :=
  bs.foldl (ScanState.step scan_phase_) s

/-! ## Pandar40 -/

namespace pandar40

/-- Constants of `pandar40.hpp` used by the decoder. -/
structure Consts where
  SOB_ANGLE_SIZE : Nat
  RAW_MEASURE_SIZE : Nat
  LASER_COUNT : Nat
  BLOCKS_PER_PACKET : Nat
  TIMESTAMP_SIZE : Nat
  FACTORY_INFO_SIZE : Nat
  RETURN_SIZE : Nat
  RESERVE_SIZE : Nat
  REVOLUTION_SIZE : Nat
  PACKET_SIZE : Nat
  SEQ_NUM_SIZE : Nat
  LASER_RETURN_TO_DISTANCE_RATE : ℚ
  STRONGEST_RETURN : Nat
  LAST_RETURN : Nat
  DUAL_RETURN : Nat
deriving DecidableEq, Repr

/-- One instantiation of the constants: the published Pandar40P layout
(10 blocks of 40 lasers, 1262 bytes, 4 mm range unit; the rate is the
`double` constant `0.004`). -/
def layout : Consts where
  SOB_ANGLE_SIZE := 4
  RAW_MEASURE_SIZE := 3
  LASER_COUNT := 40
  BLOCKS_PER_PACKET := 10
  TIMESTAMP_SIZE := 4
  FACTORY_INFO_SIZE := 1
  RETURN_SIZE := 1
  RESERVE_SIZE := 8
  REVOLUTION_SIZE := 2
  PACKET_SIZE := 1262
  SEQ_NUM_SIZE := 4
  LASER_RETURN_TO_DISTANCE_RATE := roundDouble (4 / 1000)
  STRONGEST_RETURN := 0x37
  LAST_RETURN := 0x38
  DUAL_RETURN := 0x39

/-- Configured return mode `Pandar40Decoder::ReturnMode`. -/
inductive ReturnMode where
  | DUAL
  | STRONGEST
  | LAST
deriving DecidableEq, Repr

structure Unit where
  distance : ℚ
  intensity : Nat
deriving DecidableEq, Repr

instance : Inhabited Unit := ⟨{ distance := 0, intensity := 0 }⟩

structure Block where
  sob : Nat
  azimuth : Nat
  units : List Unit
deriving DecidableEq, Repr

instance : Inhabited Block := ⟨{ sob := 0, azimuth := 0, units := [] }⟩

structure Packet where
  blocks : List Block
  t : Tm
  usec : Nat
  return_mode : Nat
deriving DecidableEq, Repr

/-- Members of `Pandar40Decoder` (the float calibration and timing tables
are left out, see the header comment). -/
structure Pandar40Decoder where
  return_mode_ : ReturnMode
  dual_return_distance_threshold_ : ℚ
  packet_ : Packet
  scan_pc_ : List PointXYZIRADT
  overflow_pc_ : List PointXYZIRADT
  scan_phase_ : Nat
  last_phase_ : Int
  has_scanned_ : Bool
deriving DecidableEq, Repr

/-- Table `firing_order_` of the constructor. -/
def firing_order_ : List Nat :=
  [7, 19, 14, 26, 6, 18, 4, 32, 36, 0, 10, 22, 17, 29, 9, 21, 5, 33, 37, 1,
   13, 25, 20, 30, 12, 8, 24, 34, 38, 2, 16, 28, 23, 31, 15, 11, 27, 35, 39, 3]

namespace Pandar40Decoder

/-- Constructor. `scan_phase_` is the value after the conversion
`static_cast<uint16_t>(scan_phase * 100.0f)`; `packet_` is not initialised
by the constructor, so its initial content is an argument. -/
def init (scan_phase_ : Nat) (dual_return_distance_threshold : ℚ)
    (return_mode : ReturnMode) (packet_ : Packet) : Pandar40Decoder where
  return_mode_ := return_mode
  dual_return_distance_threshold_ := dual_return_distance_threshold
  packet_ := packet_
  scan_pc_ := []
  overflow_pc_ := []
  scan_phase_ := scan_phase_
  last_phase_ := 0
  has_scanned_ := false

def hasScanned (d : Pandar40Decoder) : Bool := d.has_scanned_

def getPointcloud (d : Pandar40Decoder) : List PointXYZIRADT := d.scan_pc_

/-- The segmenter variables of the decoder. -/
def toScanState (d : Pandar40Decoder) : ScanState where
  scan_pc_ := d.scan_pc_
  overflow_pc_ := d.overflow_pc_
  last_phase_ := d.last_phase_
  has_scanned_ := d.has_scanned_

def build_point (c : Consts) (d : Pandar40Decoder) (block_id unit_id : Nat)
    (return_type : ReturnType) : PointXYZIRADT :=
  let block := d.packet_.blocks.getD block_id default
  let unit := block.units.getD unit_id default
  let _dual_return := d.packet_.return_mode = c.DUAL_RETURN
  { block := block_id
    ring := unit_id
    distance := unit.distance
    intensity := unit.intensity
    block_azimuth := block.azimuth
    return_type := some return_type
    time_block := block_id }

def convert (c : Consts) (d : Pandar40Decoder) (block_id : Nat) : List PointXYZIRADT :=
  firing_order_.map (fun unit_id =>
    build_point c d block_id unit_id
      (if d.packet_.return_mode = c.STRONGEST_RETURN then ReturnType.SINGLE_STRONGEST
       else ReturnType.SINGLE_LAST))

/-- Body of the loop over `firing_order_` in `convert_dual`: the points
pushed for one `unit_id`. -/
def convert_dual_unit (c : Consts) (d : Pandar40Decoder) (block_id unit_id : Nat) :
    List PointXYZIRADT :=
  let even_block_id := block_id
  let odd_block_id := block_id + 1
  let even_block := d.packet_.blocks.getD even_block_id default
  let odd_block := d.packet_.blocks.getD odd_block_id default
  let even_unit := even_block.units.getD unit_id default
  let odd_unit := odd_block.units.getD unit_id default
  let even_usable : Bool :=
    if even_unit.distance ≤ roundDouble (1 / 10) ∨ even_unit.distance > 200 then false
    else true
  let odd_usable : Bool :=
    if odd_unit.distance ≤ roundDouble (1 / 10) ∨ odd_unit.distance > 200 then false
    else true
  if d.return_mode_ = ReturnMode.STRONGEST then
    if even_unit.intensity ≥ odd_unit.intensity ∧ even_usable = true then
      [build_point c d even_block_id unit_id ReturnType.SINGLE_STRONGEST]
    else if even_unit.intensity < odd_unit.intensity ∧ odd_usable = true then
      [build_point c d odd_block_id unit_id ReturnType.SINGLE_STRONGEST]
    else []
  else if d.return_mode_ = ReturnMode.LAST ∧ even_usable = true then
    [build_point c d even_block_id unit_id ReturnType.SINGLE_LAST]
  else if d.return_mode_ = ReturnMode.DUAL then
    if |roundDouble (even_unit.distance - odd_unit.distance)|
          < d.dual_return_distance_threshold_
        ∧ even_usable = true then
      [build_point c d even_block_id unit_id ReturnType.DUAL_ONLY]
    else if even_unit.intensity ≥ odd_unit.intensity then
      (if odd_usable then [build_point c d odd_block_id unit_id ReturnType.DUAL_WEAK_FIRST]
       else []) ++
      (if even_usable then
         [build_point c d even_block_id unit_id ReturnType.DUAL_STRONGEST_LAST]
       else [])
    else
      (if odd_usable then
         [build_point c d odd_block_id unit_id ReturnType.DUAL_STRONGEST_FIRST]
       else []) ++
      (if even_usable then [build_point c d even_block_id unit_id ReturnType.DUAL_WEAK_LAST]
       else [])
  else []

def convert_dual (c : Consts) (d : Pandar40Decoder) (block_id : Nat) : List PointXYZIRADT :=
  firing_order_.flatMap (fun unit_id => convert_dual_unit c d block_id unit_id)

/-- Body of the inner loop of `parsePacket`: the unit read at `index`. -/
def parseUnit (c : Consts) (raw : PandarPacket) (index : Nat) : Unit :=
  let range : Nat := (raw.byte index &&& 0xff) ||| ((raw.byte (index + 1) &&& 0xff) <<< 8)
  let distance : ℚ := roundDouble ((range : ℚ) * c.LASER_RETURN_TO_DISTANCE_RATE)
  let intensity : Nat := raw.byte (index + 2) &&& 0xff
  if (distance = 0x010101 ∧ intensity = 0x0101) ∨ distance > ((200 * 1000 / 2 : Nat) : ℚ) then
    { distance := 0, intensity := 0 }
  else
    { distance := distance, intensity := intensity }

/-- One pass of `for (int j = 0; j < LASER_COUNT; j++)`; the state is
`(index, block.units)`. -/
def parseUnitStep (c : Consts) (raw : PandarPacket) (st : Nat × List Unit) (j : Nat) :
    Nat × List Unit :=
  (st.1 + c.RAW_MEASURE_SIZE, writeAt default st.2 j (parseUnit c raw st.1))

/-- One pass of `for (int i = 0; i < BLOCKS_PER_PACKET; i++)`; the state is
`(index, packet_.blocks)`. -/
def parseBlockStep (c : Consts) (raw : PandarPacket) (st : Nat × List Block) (i : Nat) :
    Nat × List Block :=
  let index := st.1
  let block := st.2.getD i default
  let sob := (raw.byte index &&& 0xff) ||| ((raw.byte (index + 1) &&& 0xff) <<< 8)
  let azimuth := (raw.byte (index + 2) &&& 0xff) ||| ((raw.byte (index + 3) &&& 0xff) <<< 8)
  let index := index + c.SOB_ANGLE_SIZE
  let r := (List.range c.LASER_COUNT).foldl (parseUnitStep c raw) (index, block.units)
  (r.1, writeAt default st.2 i { sob := sob, azimuth := azimuth, units := r.2 })

/-- The part of `parsePacket` after the size check: the new `packet_`. -/
def parseFields (c : Consts) (raw : PandarPacket) (packet_ : Packet) : Packet :=
  let r := (List.range c.BLOCKS_PER_PACKET).foldl (parseBlockStep c raw) (0, packet_.blocks)
  let index := r.1
  let index := index + c.RESERVE_SIZE
  let index := index + c.REVOLUTION_SIZE
  let usec : Nat :=
    ((raw.byte index &&& 0xff) ||| ((raw.byte (index + 1) &&& 0xff) <<< 8)
      ||| ((raw.byte (index + 2) &&& 0xff) <<< 16)
      ||| ((raw.byte (index + 3) &&& 0xff) <<< 24)) % 2 ^ 32
  let usec := usec % 1000000
  let index := index + c.TIMESTAMP_SIZE
  let return_mode := raw.byte index &&& 0xff
  let index := index + (c.FACTORY_INFO_SIZE + c.RETURN_SIZE)
  let tm_year : Int := ((raw.byte (index + 0) &&& 0xff : Nat) : Int) + 100
  let tm_year : Int := if tm_year ≥ 200 then tm_year - 100 else tm_year
  { blocks := r.2
    t := { tm_year := tm_year
           tm_mon := ((raw.byte (index + 1) &&& 0xff : Nat) : Int) - 1
           tm_mday := ((raw.byte (index + 2) &&& 0xff : Nat) : Int)
           tm_hour := ((raw.byte (index + 3) &&& 0xff : Nat) : Int)
           tm_min := ((raw.byte (index + 4) &&& 0xff : Nat) : Int)
           tm_sec := ((raw.byte (index + 5) &&& 0xff : Nat) : Int)
           tm_isdst := 0 }
    usec := usec
    return_mode := return_mode }

/-- Function `parsePacket`: the returned flag and the decoder afterwards. -/
def parsePacket (c : Consts) (d : Pandar40Decoder) (raw : PandarPacket) :
    Bool × Pandar40Decoder :=
  if raw.size ≠ c.PACKET_SIZE ∧ raw.size ≠ c.PACKET_SIZE + c.SEQ_NUM_SIZE then
    (false, d)
  else
    (true, { d with packet_ := parseFields c raw d.packet_ })

/-- Body of the block loop of `unpack`. -/
def unpackBlock (c : Consts) (dual_return : Bool) (d : Pandar40Decoder) (block_id : Nat) :
    Pandar40Decoder :=
  let block_pc := if dual_return then convert_dual c d block_id else convert c d block_id
  let current_phase : Int :=
    (((d.packet_.blocks.getD block_id default).azimuth : Int) - (d.scan_phase_ : Int)
      + 36000).tmod 36000
  if current_phase > d.last_phase_ ∧ ¬ d.has_scanned_ = true then
    { d with scan_pc_ := d.scan_pc_ ++ block_pc, last_phase_ := current_phase }
  else
    { d with overflow_pc_ := d.overflow_pc_ ++ block_pc, has_scanned_ := true,
             last_phase_ := current_phase }

/-- The part of `unpack` after a successful parse. The `ROS_WARN` on a
return mode mismatch changes no variable and is left out. -/
def unpackParsed (c : Consts) (d : Pandar40Decoder) : Pandar40Decoder :=
  let d :=
    if d.has_scanned_ then
      { d with scan_pc_ := d.overflow_pc_, overflow_pc_ := [], has_scanned_ := false }
    else d
  let dual_return : Bool := decide (d.packet_.return_mode = c.DUAL_RETURN)
  let step := if dual_return then 2 else 1
  (blockIds c.BLOCKS_PER_PACKET step).foldl (unpackBlock c dual_return) d

def unpack (c : Consts) (d : Pandar40Decoder) (raw : PandarPacket) : Pandar40Decoder :=
  let r := parsePacket c d raw
  if ¬ r.1 = true then r.2 else unpackParsed c r.2

/-- The decoder with its segmenter variables replaced. -/
def withScanState (d : Pandar40Decoder) (s : ScanState) : Pandar40Decoder :=
  { d with scan_pc_ := s.scan_pc_, overflow_pc_ := s.overflow_pc_,
           last_phase_ := s.last_phase_, has_scanned_ := s.has_scanned_ }

/-- Value of `block_pc` in the block loop of `unpack`. -/
def blockPc (c : Consts) (dual_return : Bool) (d : Pandar40Decoder) (block_id : Nat) :
    List PointXYZIRADT :=
  if dual_return then convert_dual c d block_id else convert c d block_id

/-- Azimuth and points of block `block_id`, as the block loop uses them. -/
def blockInput (c : Consts) (dual_return : Bool) (d : Pandar40Decoder) (block_id : Nat) :
    Nat × List PointXYZIRADT :=
  ((d.packet_.blocks.getD block_id default).azimuth, blockPc c dual_return d block_id)

/-- The block ids the loop of `unpack` visits for the stored packet. -/
def loopIds (c : Consts) (d : Pandar40Decoder) : List Nat :=
  blockIds c.BLOCKS_PER_PACKET (if d.packet_.return_mode = c.DUAL_RETURN then 2 else 1)

/-- Azimuth and points of the blocks the loop of `unpack` visits. -/
def loopInputs (c : Consts) (d : Pandar40Decoder) : List (Nat × List PointXYZIRADT) :=
  (loopIds c d).map (blockInput c (decide (d.packet_.return_mode = c.DUAL_RETURN)) d)

end Pandar40Decoder

end pandar40

/-! ## PandarXTM -/

namespace pandar_xtm

/-- Constants of `pandar_xtm.hpp` used by the decoder. -/
structure Consts where
  HEAD_SIZE : Nat
  BLOCK_NUM : Nat
  BLOCK_HEADER_AZIMUTH : Nat
  UNIT_NUM : Nat
  UNIT_SIZE : Nat
  RESERVED_SIZE : Nat
  ENGINE_VELOCITY : Nat
  TIMESTAMP_SIZE : Nat
  RETURN_SIZE : Nat
  FACTORY_SIZE : Nat
  UTC_SIZE : Nat
  PACKET_SIZE : Nat
  FIRST_RETURN : Nat
  STRONGEST_RETURN : Nat
  LAST_RETURN : Nat
  DUAL_RETURN : Nat
  TRIPLE_RETURN : Nat
deriving DecidableEq, Repr

/-- One instantiation of the constants: a 12 byte header, 8 blocks of 32
units of 4 bytes and a 28 byte tail, 1080 bytes in all. -/
def layout : Consts where
  HEAD_SIZE := 12
  BLOCK_NUM := 8
  BLOCK_HEADER_AZIMUTH := 2
  UNIT_NUM := 32
  UNIT_SIZE := 4
  RESERVED_SIZE := 10
  ENGINE_VELOCITY := 2
  TIMESTAMP_SIZE := 4
  RETURN_SIZE := 1
  FACTORY_SIZE := 1
  UTC_SIZE := 6
  PACKET_SIZE := 1080
  FIRST_RETURN := 0x33
  STRONGEST_RETURN := 0x37
  LAST_RETURN := 0x38
  DUAL_RETURN := 0x3B
  TRIPLE_RETURN := 0x3D

/-- Configured return mode `PandarXTMDecoder::ReturnMode`. -/
inductive ReturnMode where
  | DUAL
  | FIRST
  | STRONGEST
  | LAST
  | TRIPLE
deriving DecidableEq, Repr

/-- The header fields `parsePacket` assigns. -/
structure Header where
  sob : Nat
  chProtocolMajor : Nat
  chProtocolMinor : Nat
  chLaserNumber : Nat
  chBlockNumber : Nat
  chReturnType : Nat
  chDisUnit : Nat
deriving DecidableEq, Repr

structure Unit where
  distance : ℚ
  intensity : Nat
  confidence : Nat
deriving DecidableEq, Repr

instance : Inhabited Unit := ⟨{ distance := 0, intensity := 0, confidence := 0 }⟩

structure Block where
  azimuth : Nat
  units : List Unit
deriving DecidableEq, Repr

instance : Inhabited Block := ⟨{ azimuth := 0, units := [] }⟩

structure Packet where
  header : Header
  blocks : List Block
  t : Tm
  usec : Nat
  return_mode : Nat
deriving DecidableEq, Repr

/-- Members of `PandarXTMDecoder` (the float calibration and timing tables
are left out, see the header comment). -/
structure PandarXTMDecoder where
  return_mode_ : ReturnMode
  packet_ : Packet
  scan_pc_ : List PointXYZIRADT
  overflow_pc_ : List PointXYZIRADT
  scan_phase_ : Nat
  last_phase_ : Int
  has_scanned_ : Bool
deriving DecidableEq, Repr

namespace PandarXTMDecoder

/-- Constructor. `scan_phase_` is the value after the conversion
`static_cast<uint16_t>(scan_phase * 100.0f)`; `packet_` is not initialised
by the constructor, so its initial content is an argument. -/
def init (scan_phase_ : Nat) (return_mode : ReturnMode) (packet_ : Packet) :
    PandarXTMDecoder where
  return_mode_ := return_mode
  packet_ := packet_
  scan_pc_ := []
  overflow_pc_ := []
  scan_phase_ := scan_phase_
  last_phase_ := 0
  has_scanned_ := false

def hasScanned (d : PandarXTMDecoder) : Bool := d.has_scanned_

def getPointcloud (d : PandarXTMDecoder) : List PointXYZIRADT := d.scan_pc_

/-- The segmenter variables of the decoder. -/
def toScanState (d : PandarXTMDecoder) : ScanState where
  scan_pc_ := d.scan_pc_
  overflow_pc_ := d.overflow_pc_
  last_phase_ := d.last_phase_
  has_scanned_ := d.has_scanned_

/-- Body of the unit loops of `convert`, `convert_dual` and
`convert_triple` for block `i` and unit `unit_id`: nothing for an invalid
distance, else the point; `block_id` selects the block offset. -/
def convertUnit (d : PandarXTMDecoder) (block_id i unit_id : Nat) : Option PointXYZIRADT :=
  let block := d.packet_.blocks.getD i default
  let unit := block.units.getD unit_id default
  if unit.distance ≤ roundDouble (1 / 10) ∨ unit.distance > 200 then none
  else some
    { block := i
      ring := unit_id
      distance := unit.distance
      intensity := unit.intensity
      block_azimuth := block.azimuth
      return_type := none
      time_block := block_id }

def convert (c : Consts) (d : PandarXTMDecoder) (block_id : Nat) : List PointXYZIRADT :=
  (List.range c.UNIT_NUM).filterMap (fun unit_id => convertUnit d block_id block_id unit_id)

def convert_dual (c : Consts) (d : PandarXTMDecoder) (block_id : Nat) : List PointXYZIRADT :=
  let head := block_id + (if d.return_mode_ = ReturnMode.FIRST then 1 else 0)
  let tail := block_id + (if d.return_mode_ = ReturnMode.LAST then 1 else 2)
  (List.range c.UNIT_NUM).flatMap (fun unit_id =>
    (List.range' head (tail - head)).filterMap (fun i => convertUnit d block_id i unit_id))

def convert_triple (c : Consts) (d : PandarXTMDecoder) (block_id : Nat) : List PointXYZIRADT :=
  let head := block_id + (if d.return_mode_ = ReturnMode.FIRST then 1 else 0)
  let tail := block_id + (if d.return_mode_ = ReturnMode.LAST then 1 else 2)
  (List.range c.UNIT_NUM).flatMap (fun unit_id =>
    (List.range' head (tail - head)).filterMap (fun i => convertUnit d block_id i unit_id))

/-- The header assignments at the start of `parsePacket`. -/
def parseHeader (raw : PandarPacket) : Header where
  sob := (((raw.byte 0 &&& 0xff) <<< 8) ||| (raw.byte 1 &&& 0xff)) % 2 ^ 16
  chProtocolMajor := raw.byte 2 &&& 0xff
  chProtocolMinor := raw.byte 3 &&& 0xff
  chLaserNumber := raw.byte 6 &&& 0xff
  chBlockNumber := raw.byte 7 &&& 0xff
  chReturnType := raw.byte 8 &&& 0xff
  chDisUnit := raw.byte 9 &&& 0xff

/-- One pass of `for (int unit = 0; unit < chLaserNumber; unit++)`; the
state is `(index, blocks[block].units)`. -/
def parseUnitStep (c : Consts) (raw : PandarPacket) (header : Header)
    (st : Nat × List Unit) (unit : Nat) : Nat × List Unit :=
  let index := st.1
  let unRange : Nat := (raw.byte index &&& 0xff) ||| ((raw.byte (index + 1) &&& 0xff) <<< 8)
  let u : Unit :=
    { distance := roundDouble ((((unRange * header.chDisUnit) % 2 ^ 32 : Nat) : ℚ) / 1000)
      intensity := raw.byte (index + 2) &&& 0xff
      confidence := raw.byte (index + 3) &&& 0xff }
  (index + c.UNIT_SIZE, writeAt default st.2 unit u)

/-- One pass of `for (size_t block = 0; block < chBlockNumber; block++)`;
the state is `(index, packet_.blocks)`. -/
def parseBlockStep (c : Consts) (raw : PandarPacket) (header : Header)
    (st : Nat × List Block) (block : Nat) : Nat × List Block :=
  let index := st.1
  let old := st.2.getD block default
  let azimuth := (raw.byte index &&& 0xff) ||| ((raw.byte (index + 1) &&& 0xff) <<< 8)
  let index := index + c.BLOCK_HEADER_AZIMUTH
  let r := (List.range header.chLaserNumber).foldl (parseUnitStep c raw header) (index, old.units)
  (r.1, writeAt default st.2 block { azimuth := azimuth, units := r.2 })

/-- The two block loops of `parsePacket`, started at `index = HEAD_SIZE`:
the index after the loops and the new `packet_.blocks`. -/
def parseBody (c : Consts) (raw : PandarPacket) (header : Header) (blocks : List Block) :
    Nat × List Block :=
  (List.range header.chBlockNumber).foldl (parseBlockStep c raw header) (c.HEAD_SIZE, blocks)

/-- The part of `parsePacket` after the start-of-packet check. -/
def parseFields (c : Consts) (raw : PandarPacket) (packet_ : Packet) : Packet :=
  let r := parseBody c raw packet_.header packet_.blocks
  let index := r.1
  let index := index + c.RESERVED_SIZE
  let return_mode := raw.byte index &&& 0xff
  let index := index + c.RETURN_SIZE
  let index := index + c.ENGINE_VELOCITY
  let tm_year : Int := ((raw.byte (index + 0) &&& 0xff : Nat) : Int) + 100
  let tm_year : Int := if tm_year ≥ 200 then tm_year - 100 else tm_year
  let t : Tm :=
    { tm_year := tm_year
      tm_mon := ((raw.byte (index + 1) &&& 0xff : Nat) : Int) - 1
      tm_mday := ((raw.byte (index + 2) &&& 0xff : Nat) : Int)
      tm_hour := ((raw.byte (index + 3) &&& 0xff : Nat) : Int)
      tm_min := ((raw.byte (index + 4) &&& 0xff : Nat) : Int)
      tm_sec := ((raw.byte (index + 5) &&& 0xff : Nat) : Int)
      tm_isdst := 0 }
  let index := index + c.UTC_SIZE
  let usec : Nat :=
    ((raw.byte index &&& 0xff) ||| ((raw.byte (index + 1) &&& 0xff) <<< 8)
      ||| ((raw.byte (index + 2) &&& 0xff) <<< 16)
      ||| ((raw.byte (index + 3) &&& 0xff) <<< 24)) % 2 ^ 32
  { header := packet_.header
    blocks := r.2
    t := t
    usec := usec
    return_mode := return_mode }

/-- Function `parsePacket`: the returned flag and the decoder afterwards. -/
def parsePacket (c : Consts) (d : PandarXTMDecoder) (raw : PandarPacket) :
    Bool × PandarXTMDecoder :=
  if raw.size ≠ c.PACKET_SIZE then
    (false, d)
  else
    let d := { d with packet_ := { d.packet_ with header := parseHeader raw } }
    if d.packet_.header.sob ≠ 0xEEFF then
      (false, d)
    else
      (true, { d with packet_ := parseFields c raw d.packet_ })

/-- Value of `step` chosen by the `switch` of `unpack` (the case labels of
a `switch` are pairwise distinct). -/
def stepOf (c : Consts) (return_mode : Nat) : Nat :=
  if return_mode = c.FIRST_RETURN ∨ return_mode = c.STRONGEST_RETURN
      ∨ return_mode = c.LAST_RETURN then 1
  else if return_mode = c.DUAL_RETURN then 2
  else if return_mode = c.TRIPLE_RETURN then 3
  else 1

/-- Body of the block loop of `unpack`. -/
def unpackBlock (c : Consts) (step : Nat) (d : PandarXTMDecoder) (block_id : Nat) :
    PandarXTMDecoder :=
  let block_pc : List PointXYZIRADT :=
    if step = 1 then convert c d block_id
    else if step = 2 then convert_dual c d block_id
    else if step = 3 then convert_triple c d block_id
    else []
  let current_phase : Int :=
    (((d.packet_.blocks.getD block_id default).azimuth : Int) - (d.scan_phase_ : Int)
      + 36000).tmod 36000
  if current_phase > d.last_phase_ ∧ ¬ d.has_scanned_ = true then
    { d with scan_pc_ := d.scan_pc_ ++ block_pc, last_phase_ := current_phase }
  else
    { d with overflow_pc_ := d.overflow_pc_ ++ block_pc, has_scanned_ := true,
             last_phase_ := current_phase }

/-- The part of `unpack` after a successful parse. -/
def unpackParsed (c : Consts) (d : PandarXTMDecoder) : PandarXTMDecoder :=
  let d :=
    if d.has_scanned_ then
      { d with scan_pc_ := d.overflow_pc_, overflow_pc_ := [], has_scanned_ := false }
    else d
  let step := stepOf c d.packet_.return_mode
  (blockIds c.BLOCK_NUM step).foldl (unpackBlock c step) d

def unpack (c : Consts) (d : PandarXTMDecoder) (raw : PandarPacket) : PandarXTMDecoder :=
  let r := parsePacket c d raw
  if ¬ r.1 = true then r.2 else unpackParsed c r.2

/-- The decoder with its segmenter variables replaced. -/
def withScanState (d : PandarXTMDecoder) (s : ScanState) : PandarXTMDecoder :=
  { d with scan_pc_ := s.scan_pc_, overflow_pc_ := s.overflow_pc_,
           last_phase_ := s.last_phase_, has_scanned_ := s.has_scanned_ }

/-- Value of `block_pc` in the block loop of `unpack`. -/
def blockPc (c : Consts) (step : Nat) (d : PandarXTMDecoder) (block_id : Nat) :
    List PointXYZIRADT :=
  if step = 1 then convert c d block_id
  else if step = 2 then convert_dual c d block_id
  else if step = 3 then convert_triple c d block_id
  else []

/-- Azimuth and points of block `block_id`, as the block loop uses them. -/
def blockInput (c : Consts) (step : Nat) (d : PandarXTMDecoder) (block_id : Nat) :
    Nat × List PointXYZIRADT :=
  ((d.packet_.blocks.getD block_id default).azimuth, blockPc c step d block_id)

/-- The block ids the loop of `unpack` visits for the stored packet. -/
def loopIds (c : Consts) (d : PandarXTMDecoder) : List Nat :=
  blockIds c.BLOCK_NUM (stepOf c d.packet_.return_mode)

/-- Azimuth and points of the blocks the loop of `unpack` visits. -/
def loopInputs (c : Consts) (d : PandarXTMDecoder) : List (Nat × List PointXYZIRADT) :=
  (loopIds c d).map (blockInput c (stepOf c d.packet_.return_mode) d)

end PandarXTMDecoder

end pandar_xtm

end pandar_pointcloud

/-! ## Inputs used for evaluation -/

namespace pandar_pointcloud

/-- Azimuths 100, 200, ..., 35900. -/
def risingAzimuths : List Nat := (List.range 359).map (fun k => 100 * (k + 1))

/-- The synthetic azimuth sequence 0, 100, 200, ..., 35900, 50, 150. -/
def specAzimuths : List Nat := 0 :: (risingAzimuths ++ [50, 150])

/-- A stored Pandar40 packet whose blocks carry the synthetic azimuth
sequence (every unit at 1 m with intensity 1, strongest return). -/
def specPacket : pandar40.Packet where
  blocks := specAzimuths.map (fun a =>
    { sob := 0, azimuth := a, units := List.replicate 40 { distance := 1, intensity := 1 } })
  t := default
  usec := 0
  return_mode := 0x37

/-- A Pandar40 decoder as constructed (scan phase 0, threshold 0.1, mode
STRONGEST) holding `specPacket`. -/
def specDecoder : pandar40.Pandar40Decoder :=
  pandar40.Pandar40Decoder.init 0 (roundDouble (1 / 10)) pandar40.ReturnMode.STRONGEST
    specPacket

/-- Segmenter variables after construction of a decoder. -/
def ScanState.init : ScanState where
  scan_pc_ := []
  overflow_pc_ := []
  last_phase_ := 0
  has_scanned_ := false

/-- A point used to fill buffers of example states. -/
def samplePoint (ring : Nat) : PointXYZIRADT where
  block := 0
  ring := ring
  distance := 5
  intensity := 9
  block_azimuth := 35900
  return_type := some ReturnType.SINGLE_STRONGEST
  time_block := 0

namespace pandar40

/-- A raw Pandar40 message of `layout.PACKET_SIZE` zero bytes. -/
def zeroRaw : PandarPacket where
  data := List.replicate 1262 0
  size := 1262

/-- A raw message whose size no layout constant matches. -/
def shortRaw : PandarPacket where
  data := List.replicate 100 0
  size := 100

/-- A decoder state with the ready flag set: one point in the current
buffer, one in overflow. -/
def readyDecoder : Pandar40Decoder where
  return_mode_ := ReturnMode.STRONGEST
  dual_return_distance_threshold_ := roundDouble (1 / 10)
  packet_ := specPacket
  scan_pc_ := [samplePoint 1]
  overflow_pc_ := [samplePoint 2]
  scan_phase_ := 0
  last_phase_ := 150
  has_scanned_ := true

end pandar40

namespace pandar_xtm

/-- A stored packet of `layout.BLOCK_NUM` blocks of `layout.UNIT_NUM` zero
units. -/
def zeroPacket : Packet where
  header :=
    { sob := 0, chProtocolMajor := 0, chProtocolMinor := 0, chLaserNumber := 0,
      chBlockNumber := 0, chReturnType := 0, chDisUnit := 0 }
  blocks := List.replicate 8 { azimuth := 0, units := List.replicate 32 default }
  t := default
  usec := 0
  return_mode := 0

/-- A raw message of `layout.PACKET_SIZE` bytes with the start marker
`0xEE 0xFF`, 32 lasers, 8 blocks, distance unit 4, all other bytes zero. -/
def goodRaw : PandarPacket where
  data := [0xEE, 0xFF, 1, 1, 0, 0, 32, 8, 0x37, 4] ++ List.replicate 1070 0
  size := 1080

/-- As `goodRaw`, but the first two bytes are `0x12 0x34`. -/
def badMagicRaw : PandarPacket where
  data := [0x12, 0x34, 1, 1, 0, 0, 32, 8, 0x37, 4] ++ List.replicate 1070 0
  size := 1080

/-- As `goodRaw`, but the header declares 255 lasers and 255 blocks. -/
def overrunRaw : PandarPacket where
  data := [0xEE, 0xFF, 1, 1, 0, 0, 255, 255, 0x37, 4] ++ List.replicate 1070 0
  size := 1080

/-- A raw message of the wrong size. -/
def shortRaw : PandarPacket where
  data := List.replicate 100 0
  size := 100

/-- A decoder state with the ready flag set: one point in the current
buffer, one in overflow. -/
def readyDecoder : PandarXTMDecoder where
  return_mode_ := ReturnMode.DUAL
  packet_ := zeroPacket
  scan_pc_ := [samplePoint 1]
  overflow_pc_ := [samplePoint 2]
  scan_phase_ := 0
  last_phase_ := 150
  has_scanned_ := true

end pandar_xtm

end pandar_pointcloud

/-! ## Notions used in the statements -/

namespace pandar_pointcloud

/-- A distance reading is valid when it lies in the interval (0.1, 200.0]
(metres), `0.1` and `200.0` being the `double` literals of the source. -/
def validDistance (d : ℚ) : Prop := roundDouble (1 / 10) < d ∧ d ≤ 200

instance validDistance.instDecidable (d : ℚ) : Decidable (validDistance d) := by
  unfold validDistance
  exact inferInstance

/-- The points of a block point cloud that belong to channel `unit_id`. -/
def channelPoints (pc : List PointXYZIRADT) (unit_id : Nat) : List PointXYZIRADT :=
  pc.filter (fun p => decide (p.ring = unit_id))

namespace pandar40

/-- A stored dual-return packet of one even and one odd block in which only
channel 0 is filled, with the units `even` and `odd`; their distances are
stored as `double` values, that is rounded to binary64. -/
def pairPacket (even odd : Unit) : Packet where
  blocks := [{ sob := 0, azimuth := 100,
               units := [{ even with distance := roundDouble even.distance }] },
             { sob := 0, azimuth := 100,
               units := [{ odd with distance := roundDouble odd.distance }] }]
  t := default
  usec := 0
  return_mode := 0x39

/-- A decoder as constructed (scan phase 0, threshold 0.1) with the given
configured mode, holding `pairPacket even odd`. -/
def pairDecoder (mode : ReturnMode) (even odd : Unit) : Pandar40Decoder :=
  Pandar40Decoder.init 0 (roundDouble (1 / 10)) mode (pairPacket even odd)

end pandar40

end pandar_pointcloud

namespace pandar_pointcloud

namespace pandar40

/-- A raw message of `layout.PACKET_SIZE` bytes, all zero except unit 0 of
block 0: raw range bytes `0x60 0xEA` (60000, that is 240 m at 4 mm per
count) and intensity 7. -/
def farRaw : PandarPacket where
  data := [0, 0, 0, 0, 0x60, 0xEA, 7] ++ List.replicate 1255 0
  size := 1262

/-- A raw message of `layout.PACKET_SIZE` bytes, all zero except the year
byte (offset 1256), which is 250. -/
def lateYearRaw : PandarPacket where
  data := List.replicate 1256 0 ++ [250] ++ List.replicate 5 0
  size := 1262

end pandar40

end pandar_pointcloud

namespace pandar_pointcloud

namespace pandar_xtm

/-- The unit the parser builds from the four bytes at `index` (the
assignments in the body of the unit loop of `parsePacket`). -/
def PandarXTMDecoder.unitAt (raw : PandarPacket) (header : Header) (index : Nat) : Unit where
  distance :=
    roundDouble ((((((raw.byte index &&& 0xff) ||| ((raw.byte (index + 1) &&& 0xff) <<< 8))
      * header.chDisUnit) % 2 ^ 32 : Nat) : ℚ) / 1000)
  intensity := raw.byte (index + 2) &&& 0xff
  confidence := raw.byte (index + 3) &&& 0xff

/-- As `goodRaw`, but the header declares 6 blocks. -/
def sixBlockRaw : PandarPacket where
  data := [0xEE, 0xFF, 1, 1, 0, 0, 32, 6, 0x37, 4] ++ List.replicate 1070 0
  size := 1080

/-- A stored packet of `layout.BLOCK_NUM` blocks of `layout.UNIT_NUM` zero
units, every block with azimuth 77. -/
def stalePacket : Packet where
  header :=
    { sob := 0, chProtocolMajor := 0, chProtocolMinor := 0, chLaserNumber := 0,
      chBlockNumber := 0, chReturnType := 0, chDisUnit := 0 }
  blocks := List.replicate 8 { azimuth := 77, units := List.replicate 32 default }
  t := default
  usec := 0
  return_mode := 0

/-- A decoder as constructed (scan phase 0, mode DUAL) holding
`stalePacket`. -/
def staleDecoder : PandarXTMDecoder :=
  PandarXTMDecoder.init 0 ReturnMode.DUAL stalePacket

/-- A decoder as constructed (scan phase 0, mode DUAL) holding
`zeroPacket`. -/
def freshDecoder : PandarXTMDecoder :=
  PandarXTMDecoder.init 0 ReturnMode.DUAL zeroPacket

/-- A raw message of `layout.PACKET_SIZE` bytes with the start marker, 32
lasers and 8 blocks, all other bytes zero except the year byte (offset
1065), which is 250. -/
def lateYearRaw : PandarPacket where
  data := [0xEE, 0xFF, 1, 1, 0, 0, 32, 8, 0x37, 4] ++ List.replicate 1055 0 ++ [250]
    ++ List.replicate 14 0
  size := 1080

end pandar_xtm

end pandar_pointcloud

namespace pandar_pointcloud

namespace pandar40

/-- A raw dual-return message of `layout.PACKET_SIZE` bytes, all zero except
unit 0 of block 0 (raw range 75, intensity 10), unit 0 of block 1 (raw range
50, intensity 20) and the return mode byte (offset 1254), which is `0x39`. -/
def nearRaw : PandarPacket where
  data := [0, 0, 0, 0, 75, 0, 10] ++ List.replicate 121 0 ++ [50, 0, 20]
    ++ List.replicate 1123 0 ++ [0x39] ++ List.replicate 7 0
  size := 1262

/-- A decoder configured for DUAL (threshold 0.1) after parsing `nearRaw`:
the two readings of channel 0 are 25 counts apart. -/
def nearDecoder : Pandar40Decoder :=
  (Pandar40Decoder.parsePacket layout (pairDecoder ReturnMode.DUAL default default) nearRaw).2

/-- As `nearRaw`, but unit 0 of block 1 has raw range 49. -/
def apartRaw : PandarPacket where
  data := [0, 0, 0, 0, 75, 0, 10] ++ List.replicate 121 0 ++ [49, 0, 20]
    ++ List.replicate 1123 0 ++ [0x39] ++ List.replicate 7 0
  size := 1262

/-- A decoder configured for DUAL (threshold 0.1) after parsing `apartRaw`:
the two readings of channel 0 are 26 counts apart. -/
def apartDecoder : Pandar40Decoder :=
  (Pandar40Decoder.parsePacket layout (pairDecoder ReturnMode.DUAL default default) apartRaw).2

end pandar40

end pandar_pointcloud

/-! ## Geometry of a point, over the reals -/

namespace pandar_pointcloud

noncomputable section

end

end pandar_pointcloud

namespace pandar_pointcloud

/-- Azimuth of the `n`-th block of the synthetic sequence 0, 100, ...,
35900, 50, 150, continued after its 362 entries by 250, 350, ... to fill the
last message. -/
def specAzimuthAt (n : Nat) : Nat := if n < 360 then 100 * n else 100 * (n - 360) + 50

namespace pandar40

/-- Byte `k` of message `p` of the synthetic sequence, ten blocks per
message: block `i` carries the azimuth `specAzimuthAt (10 * p + i)`
(little-endian, at offset `124 * i + 2`), the return mode byte (offset 1254)
is `0x37` and every other byte is zero. -/
def specRawByte (p k : Nat) : Fin 256 :=
  if k < 1240 ∧ k % 124 = 2 then Fin.ofNat (specAzimuthAt (10 * p + k / 124) % 256)
  else if k < 1240 ∧ k % 124 = 3 then Fin.ofNat (specAzimuthAt (10 * p + k / 124) / 256)
  else if k = 1254 then 0x37
  else 0

/-- Message `p` of the synthetic sequence: a raw message of
`layout.PACKET_SIZE` bytes. -/
def specRaw (p : Nat) : PandarPacket where
  data := (List.range 1262).map (specRawByte p)
  size := 1262

end pandar40

end pandar_pointcloud

/-! # Theorems -/

namespace pandar_pointcloud

/-! ## Rounding to `double` -/

/-- Values of `roundDouble`: the literals `0.1` and `0.004` (bit patterns
`0x3FB999999999999A` and `0x3F70624DD2F1A9FC`), integers that are
representable, a tie (rounded to the even significand) and a subnormal. -/
theorem roundDouble_values :
    roundDouble (1 / 10) = 3602879701896397 / 2 ^ 55 ∧
    roundDouble (4 / 1000) = 1152921504606847 / 2 ^ 58 ∧
    roundDouble 0 = 0 ∧ roundDouble 200 = 200 ∧ roundDouble 100000 = 100000 ∧
    roundDouble (-(1 / 10)) = -(3602879701896397 / 2 ^ 55) ∧
    roundDouble (2 ^ 53 + 1) = 2 ^ 53 ∧ roundDouble (2 ^ 53 + 3) = 2 ^ 53 + 4 ∧
    roundDouble (3 / 2 ^ 1075) = 2 / 2 ^ 1074 := by
  refine ⟨by decide!, by decide!, by decide!, by decide!, by decide!, by decide!, by decide!,
    by decide!, by decide!⟩

/-! ## Bytes and array stores -/

theorem PandarPacket.byte_lt (raw : PandarPacket) (i : Nat) : raw.byte i < 256 :=
  (raw.data.getD i 0).isLt

theorem PandarPacket.byte_and (raw : PandarPacket) (i : Nat) : raw.byte i &&& 0xff = raw.byte i :=
  Nat.and_pow_two_sub_one_of_lt_two_pow (n := 8) (raw.byte_lt i)

/-- A big-endian pair of bytes, as assembled with shift and or. -/
theorem be16_eq (a b : Nat) (ha : a < 256) (hb : b < 256) :
    ((a &&& 0xff) <<< 8) ||| (b &&& 0xff) = 256 * a + b := by
  rw [Nat.and_pow_two_sub_one_of_lt_two_pow (n := 8) ha,
    Nat.and_pow_two_sub_one_of_lt_two_pow (n := 8) hb, Nat.shiftLeft_eq, Nat.mul_comm a]
  exact (Nat.mul_add_lt_is_or (i := 8) hb a).symm

/-- A little-endian pair of bytes, as assembled with shift and or. -/
theorem le16_eq (a b : Nat) (ha : a < 256) (hb : b < 256) :
    (a &&& 0xff) ||| ((b &&& 0xff) <<< 8) = a + 256 * b := by
  rw [Nat.lor_comm, be16_eq b a hb ha, Nat.add_comm]

theorem writeAt_length {α : Type} (dflt : α) (xs : List α) (i : Nat) (v : α) :
    (writeAt dflt xs i v).length = max xs.length (i + 1) := by
  induction xs generalizing i with
  | nil =>
    induction i with
    | zero => simp [writeAt]
    | succ i ih => simp [writeAt, ih]
  | cons x xs ih =>
    cases i with
    | zero => simp [writeAt]
    | succ i => simp [writeAt, ih i]; omega

theorem writeAt_getD_self {α : Type} (dflt : α) (xs : List α) (i : Nat) (v : α) :
    (writeAt dflt xs i v).getD i dflt = v := by
  induction xs generalizing i with
  | nil =>
    induction i with
    | zero => simp [writeAt]
    | succ i ih => simpa [writeAt] using ih
  | cons x xs ih =>
    cases i with
    | zero => simp [writeAt]
    | succ i => simpa [writeAt] using ih i

theorem writeAt_getD_ne {α : Type} (dflt : α) (xs : List α) (i j : Nat) (v : α) (h : j ≠ i) :
    (writeAt dflt xs i v).getD j dflt = xs.getD j dflt := by
  induction xs generalizing i j with
  | nil =>
    induction i generalizing j with
    | zero =>
      cases j with
      | zero => exact absurd rfl h
      | succ j => simp [writeAt]
    | succ i ih =>
      cases j with
      | zero => simp [writeAt]
      | succ j =>
        have := ih j (by omega)
        simpa [writeAt] using this
  | cons x xs ih =>
    cases i with
    | zero =>
      cases j with
      | zero => exact absurd rfl h
      | succ j => simp [writeAt]
    | succ i =>
      cases j with
      | zero => simp [writeAt]
      | succ j =>
        have := ih i j (by omega)
        simpa [writeAt] using this

/-! ## The segmenter variables -/

theorem ScanState.run_nil (φ : Nat) (s : ScanState) : ScanState.run φ s [] = s := rfl

theorem ScanState.run_cons (φ : Nat) (s : ScanState) (b : Nat × List PointXYZIRADT)
    (bs : List (Nat × List PointXYZIRADT)) :
    ScanState.run φ s (b :: bs) = ScanState.run φ (ScanState.step φ s b) bs := rfl

theorem ScanState.run_append (φ : Nat) (s : ScanState)
    (bs cs : List (Nat × List PointXYZIRADT)) :
    ScanState.run φ s (bs ++ cs) = ScanState.run φ (ScanState.run φ s bs) cs := by
  simp [ScanState.run, List.foldl_append]

/-- A block processed while the ready flag is set goes to overflow. -/
theorem ScanState.step_of_ready (φ : Nat) (s : ScanState) (b : Nat × List PointXYZIRADT)
    (h : s.has_scanned_ = true) :
    (ScanState.step φ s b).scan_pc_ = s.scan_pc_ ∧
    (ScanState.step φ s b).overflow_pc_ = s.overflow_pc_ ++ b.2 ∧
    (ScanState.step φ s b).has_scanned_ = true := by
  simp [ScanState.step, h]

/-- Once the ready flag is set, the rest of the loop appends to overflow. -/
theorem ScanState.run_of_ready (φ : Nat) (bs : List (Nat × List PointXYZIRADT)) :
    ∀ s : ScanState, s.has_scanned_ = true →
      (ScanState.run φ s bs).scan_pc_ = s.scan_pc_ ∧
      (ScanState.run φ s bs).overflow_pc_ = s.overflow_pc_ ++ (bs.map Prod.snd).flatten ∧
      (ScanState.run φ s bs).has_scanned_ = true := by
  induction bs with
  | nil => intro s h; simp [ScanState.run_nil, h]
  | cons b bs ih =>
    intro s h
    obtain ⟨h1, h2, h3⟩ := ScanState.step_of_ready φ s b h
    obtain ⟨g1, g2, g3⟩ := ih _ h3
    rw [ScanState.run_cons]
    refine ⟨by rw [g1, h1], ?_, g3⟩
    rw [g2, h2]
    simp

/-- The ready flag is never cleared by the block loop. -/
theorem ScanState.run_ready_mono (φ : Nat) (s : ScanState)
    (bs : List (Nat × List PointXYZIRADT)) (h : s.has_scanned_ = true) :
    (ScanState.run φ s bs).has_scanned_ = true :=
  (ScanState.run_of_ready φ bs s h).2.2

/-- Routing of a block loop: the blocks before the first boundary block go to
the current buffer, the boundary block and all later blocks to overflow. -/
theorem ScanState.run_split (φ : Nat) (bs : List (Nat × List PointXYZIRADT)) :
    ∀ s : ScanState, ∃ k, k ≤ bs.length ∧
      (ScanState.run φ s bs).scan_pc_ = s.scan_pc_ ++ ((bs.take k).map Prod.snd).flatten ∧
      (ScanState.run φ s bs).overflow_pc_
        = s.overflow_pc_ ++ ((bs.drop k).map Prod.snd).flatten ∧
      (ScanState.run φ s (bs.take k)).has_scanned_ = s.has_scanned_ ∧
      (k < bs.length → (ScanState.run φ s (bs.take (k + 1))).has_scanned_ = true) ∧
      ((ScanState.run φ s bs).has_scanned_ = true → s.has_scanned_ = false → k < bs.length) := by
  induction bs with
  | nil => intro s; exact ⟨0, by simp [ScanState.run_nil]⟩
  | cons b bs ih =>
    intro s
    by_cases hc : currentPhase b.1 φ > s.last_phase_ ∧ s.has_scanned_ = false
    · have e1 : (ScanState.step φ s b).scan_pc_ = s.scan_pc_ ++ b.2 := by
        simp [ScanState.step, hc]
      have e2 : (ScanState.step φ s b).overflow_pc_ = s.overflow_pc_ := by
        simp [ScanState.step, hc]
      have e3 : (ScanState.step φ s b).has_scanned_ = s.has_scanned_ := by
        simp [ScanState.step, hc]
      obtain ⟨k, hk, g1, g2, g3, g4, g5⟩ := ih (ScanState.step φ s b)
      refine ⟨k + 1, by simpa using hk, ?_, ?_, ?_, ?_, ?_⟩
      · rw [ScanState.run_cons, g1, e1]; simp
      · rw [ScanState.run_cons, g2, e2]; simp
      · rw [List.take_succ_cons, ScanState.run_cons, g3, e3]
      · intro hlt
        rw [List.take_succ_cons, ScanState.run_cons]
        exact g4 (by simpa using hlt)
      · intro hr hs
        rw [ScanState.run_cons] at hr
        have := g5 hr (by rw [e3]; exact hs)
        simpa using this
    · have e1 : (ScanState.step φ s b).scan_pc_ = s.scan_pc_ := by
        simp only [ScanState.step, if_neg hc]
      have e2 : (ScanState.step φ s b).overflow_pc_ = s.overflow_pc_ ++ b.2 := by
        simp only [ScanState.step, if_neg hc]
      have e3 : (ScanState.step φ s b).has_scanned_ = true := by
        simp only [ScanState.step, if_neg hc]
      obtain ⟨g1, g2, g3⟩ := ScanState.run_of_ready φ bs _ e3
      refine ⟨0, by simp, ?_, ?_, ?_, ?_, ?_⟩
      · rw [ScanState.run_cons, g1, e1]; simp
      · rw [ScanState.run_cons, g2, e2]; simp
      · simp [ScanState.run_nil]
      · intro _
        simpa [ScanState.run_cons, ScanState.run_nil] using e3
      · intro _ _; simp

/-! ## The block loops of the two decoders -/

namespace pandar40.Pandar40Decoder

theorem p40_withScanState_toScanState (d : Pandar40Decoder) :
    d.withScanState d.toScanState = d := rfl

theorem p40_toScanState_withScanState (d : Pandar40Decoder) (s : ScanState) :
    (d.withScanState s).toScanState = s := rfl

theorem p40_withScanState_scan_pc (d : Pandar40Decoder) (s : ScanState) :
    (d.withScanState s).scan_pc_ = s.scan_pc_ := rfl

theorem p40_withScanState_overflow_pc (d : Pandar40Decoder) (s : ScanState) :
    (d.withScanState s).overflow_pc_ = s.overflow_pc_ := rfl

theorem p40_withScanState_has_scanned (d : Pandar40Decoder) (s : ScanState) :
    (d.withScanState s).has_scanned_ = s.has_scanned_ := rfl

theorem p40_blockInput_withScanState (c : Consts) (dual_return : Bool) (d : Pandar40Decoder)
    (s : ScanState) (block_id : Nat) :
    blockInput c dual_return (d.withScanState s) block_id = blockInput c dual_return d block_id :=
  rfl

/-- The loop body acts on the segmenter variables as `ScanState.step` and
leaves the rest of the decoder alone. -/
theorem p40_unpackBlock_withScanState (c : Consts) (dual_return : Bool) (d : Pandar40Decoder)
    (s : ScanState) (block_id : Nat) :
    unpackBlock c dual_return (d.withScanState s) block_id
      = d.withScanState (s.step d.scan_phase_ (blockInput c dual_return d block_id)) := by
  by_cases hc : currentPhase (d.packet_.blocks.getD block_id default).azimuth d.scan_phase_
      > s.last_phase_ ∧ s.has_scanned_ = false
  · have hc2 : (((d.packet_.blocks.getD block_id default).azimuth : Int)
        - (d.scan_phase_ : Int) + 36000).tmod 36000 > s.last_phase_ ∧ ¬ s.has_scanned_ = true := by
      simpa [currentPhase] using hc
    simp only [unpackBlock, withScanState, ScanState.step, blockInput, blockPc, if_pos hc,
      if_pos hc2]
    rfl
  · have hc2 : ¬ ((((d.packet_.blocks.getD block_id default).azimuth : Int)
        - (d.scan_phase_ : Int) + 36000).tmod 36000 > s.last_phase_
        ∧ ¬ s.has_scanned_ = true) := by
      simpa [currentPhase] using hc
    simp only [unpackBlock, withScanState, ScanState.step, blockInput, blockPc, if_neg hc,
      if_neg hc2]
    rfl

theorem p40_foldl_unpackBlock (c : Consts) (dual_return : Bool) (d : Pandar40Decoder)
    (ids : List Nat) :
    ∀ s : ScanState,
      ids.foldl (unpackBlock c dual_return) (d.withScanState s)
        = d.withScanState (ScanState.run d.scan_phase_ s (ids.map (blockInput c dual_return d))) := by
  induction ids with
  | nil => intro s; rfl
  | cons i ids ih =>
    intro s
    rw [List.foldl_cons, p40_unpackBlock_withScanState, ih, List.map_cons, ScanState.run_cons]

/-- The part of `unpack` after a successful parse, on the segmenter
variables: the lazy swap followed by the block loop. -/
theorem p40_unpackParsed_eq (c : Consts) (d : Pandar40Decoder) :
    unpackParsed c d
      = d.withScanState (ScanState.run d.scan_phase_ d.toScanState.enter (loopInputs c d)) := by
  have h : unpackParsed c d
      = (loopIds c d).foldl (unpackBlock c (decide (d.packet_.return_mode = c.DUAL_RETURN)))
          (d.withScanState d.toScanState.enter) := by
    obtain ⟨rm, thr, pk, sc, ov, ph, lp, hs⟩ := d
    cases hs <;>
      by_cases hd : pk.return_mode = c.DUAL_RETURN <;>
      simp [unpackParsed, loopIds, ScanState.enter, toScanState, withScanState, hd]
  rw [h, p40_foldl_unpackBlock]
  rfl

end pandar40.Pandar40Decoder

namespace pandar_xtm.PandarXTMDecoder

theorem xtm_withScanState_toScanState (d : PandarXTMDecoder) :
    d.withScanState d.toScanState = d := rfl

theorem xtm_toScanState_withScanState (d : PandarXTMDecoder) (s : ScanState) :
    (d.withScanState s).toScanState = s := rfl

/-- The loop body acts on the segmenter variables as `ScanState.step` and
leaves the rest of the decoder alone. -/
theorem xtm_unpackBlock_withScanState (c : Consts) (step : Nat) (d : PandarXTMDecoder)
    (s : ScanState) (block_id : Nat) :
    unpackBlock c step (d.withScanState s) block_id
      = d.withScanState (s.step d.scan_phase_ (blockInput c step d block_id)) := by
  by_cases hc : currentPhase (d.packet_.blocks.getD block_id default).azimuth d.scan_phase_
      > s.last_phase_ ∧ s.has_scanned_ = false
  · have hc2 : (((d.packet_.blocks.getD block_id default).azimuth : Int)
        - (d.scan_phase_ : Int) + 36000).tmod 36000 > s.last_phase_ ∧ ¬ s.has_scanned_ = true := by
      simpa [currentPhase] using hc
    simp only [unpackBlock, withScanState, ScanState.step, blockInput, blockPc, if_pos hc,
      if_pos hc2]
    rfl
  · have hc2 : ¬ ((((d.packet_.blocks.getD block_id default).azimuth : Int)
        - (d.scan_phase_ : Int) + 36000).tmod 36000 > s.last_phase_
        ∧ ¬ s.has_scanned_ = true) := by
      simpa [currentPhase] using hc
    simp only [unpackBlock, withScanState, ScanState.step, blockInput, blockPc, if_neg hc,
      if_neg hc2]
    rfl

theorem xtm_foldl_unpackBlock (c : Consts) (step : Nat) (d : PandarXTMDecoder) (ids : List Nat) :
    ∀ s : ScanState,
      ids.foldl (unpackBlock c step) (d.withScanState s)
        = d.withScanState (ScanState.run d.scan_phase_ s (ids.map (blockInput c step d))) := by
  induction ids with
  | nil => intro s; rfl
  | cons i ids ih =>
    intro s
    rw [List.foldl_cons, xtm_unpackBlock_withScanState, ih, List.map_cons, ScanState.run_cons]

/-- The part of `unpack` after a successful parse, on the segmenter
variables: the lazy swap followed by the block loop. -/
theorem xtm_unpackParsed_eq (c : Consts) (d : PandarXTMDecoder) :
    unpackParsed c d
      = d.withScanState (ScanState.run d.scan_phase_ d.toScanState.enter (loopInputs c d)) := by
  have h : unpackParsed c d
      = (loopIds c d).foldl (unpackBlock c (stepOf c d.packet_.return_mode))
          (d.withScanState d.toScanState.enter) := by
    obtain ⟨rm, pk, sc, ov, ph, lp, hs⟩ := d
    cases hs <;>
      simp [unpackParsed, loopIds, ScanState.enter, toScanState, withScanState]
  rw [h, xtm_foldl_unpackBlock]
  rfl

end pandar_xtm.PandarXTMDecoder

/-! ## The synthetic azimuth sequence -/

theorem currentPhase_zero_of_lt (a : Nat) (h : a < 36000) : currentPhase a 0 = (a : Int) := by
  unfold currentPhase
  rw [Int.tmod_eq_emod (by omega) (by omega)]
  omega

/-- The last processed block fixes `last_phase_`, whichever branch is taken. -/
theorem ScanState.step_last_phase (φ : Nat) (s : ScanState) (b : Nat × List PointXYZIRADT) :
    (ScanState.step φ s b).last_phase_ = currentPhase b.1 φ := by
  simp only [ScanState.step]
  split_ifs <;> rfl

theorem risingAzimuths_getD (i : Nat) (h : i < 359) :
    (risingAzimuths ++ [50, 150]).getD i 0 = 100 * (i + 1) := by
  have hl : risingAzimuths.length = 359 := by simp [risingAzimuths]
  rw [List.getD_eq_getElem?_getD, List.getElem?_append_left (by omega)]
  simp [risingAzimuths, h]

theorem risingAzimuths_getD_359 : (risingAzimuths ++ [50, 150]).getD 359 0 = 50 := by
  have hl : risingAzimuths.length = 359 := by simp [risingAzimuths]
  rw [List.getD_eq_getElem?_getD, List.getElem?_append_right (by omega)]
  simp [hl]

theorem risingAzimuths_getD_360 : (risingAzimuths ++ [50, 150]).getD 360 0 = 150 := by
  have hl : risingAzimuths.length = 359 := by simp [risingAzimuths]
  rw [List.getD_eq_getElem?_getD, List.getElem?_append_right (by omega)]
  simp [hl]


/-! ## Parsing and the segmenter variables -/

namespace pandar40.Pandar40Decoder

theorem p40_parsePacket_reject (c : Consts) (d : Pandar40Decoder) (raw : PandarPacket)
    (h : (parsePacket c d raw).1 = false) : (parsePacket c d raw).2 = d := by
  unfold parsePacket at h ⊢
  by_cases hc : raw.size ≠ c.PACKET_SIZE ∧ raw.size ≠ c.PACKET_SIZE + c.SEQ_NUM_SIZE
  · rw [if_pos hc]
  · rw [if_neg hc] at h
    simp at h

theorem p40_parsePacket_accept (c : Consts) (d : Pandar40Decoder) (raw : PandarPacket)
    (h : (parsePacket c d raw).1 = true) :
    (parsePacket c d raw).2 = { d with packet_ := parseFields c raw d.packet_ } := by
  unfold parsePacket at h ⊢
  by_cases hc : raw.size ≠ c.PACKET_SIZE ∧ raw.size ≠ c.PACKET_SIZE + c.SEQ_NUM_SIZE
  · rw [if_pos hc] at h
    simp at h
  · rw [if_neg hc]

/-- The returned flag depends on the size of the message alone. -/
theorem p40_parsePacket_fst (c : Consts) (d : Pandar40Decoder) (raw : PandarPacket) :
    (parsePacket c d raw).1
      = decide (raw.size = c.PACKET_SIZE ∨ raw.size = c.PACKET_SIZE + c.SEQ_NUM_SIZE) := by
  unfold parsePacket
  by_cases hc : raw.size ≠ c.PACKET_SIZE ∧ raw.size ≠ c.PACKET_SIZE + c.SEQ_NUM_SIZE
  · rw [if_pos hc]
    have : ¬ (raw.size = c.PACKET_SIZE ∨ raw.size = c.PACKET_SIZE + c.SEQ_NUM_SIZE) := by
      rintro (h | h)
      · exact hc.1 h
      · exact hc.2 h
    simp [this]
  · rw [if_neg hc]
    have : raw.size = c.PACKET_SIZE ∨ raw.size = c.PACKET_SIZE + c.SEQ_NUM_SIZE := by
      by_contra hn
      exact hc ⟨fun h => hn (Or.inl h), fun h => hn (Or.inr h)⟩
    simp [this]

/-- Parsing never touches the segmenter variables or the scan phase. -/
theorem p40_parsePacket_scan (c : Consts) (d : Pandar40Decoder) (raw : PandarPacket) :
    (parsePacket c d raw).2.toScanState = d.toScanState ∧
    (parsePacket c d raw).2.scan_phase_ = d.scan_phase_ := by
  unfold parsePacket
  split_ifs <;> exact ⟨rfl, rfl⟩

/-- A successful `unpack`: lazy swap, then the block loop over the parsed
packet. -/
theorem p40_unpack_accept (c : Consts) (d : Pandar40Decoder) (raw : PandarPacket)
    (h : (parsePacket c d raw).1 = true) :
    unpack c d raw = (parsePacket c d raw).2.withScanState
      (ScanState.run d.scan_phase_ d.toScanState.enter
        (loopInputs c (parsePacket c d raw).2)) := by
  have hs := p40_parsePacket_scan c d raw
  unfold unpack
  simp only [h, not_true_eq_false, if_false]
  rw [p40_unpackParsed_eq, hs.1, hs.2]

theorem p40_unpack_reject (c : Consts) (d : Pandar40Decoder) (raw : PandarPacket)
    (h : (parsePacket c d raw).1 = false) : unpack c d raw = d := by
  unfold unpack
  simp only [h, Bool.false_eq_true, not_false_eq_true, if_true]
  exact p40_parsePacket_reject c d raw h

end pandar40.Pandar40Decoder

namespace pandar_xtm.PandarXTMDecoder

theorem xtm_withScanState_scan_pc (d : PandarXTMDecoder) (s : ScanState) :
    (d.withScanState s).scan_pc_ = s.scan_pc_ := rfl

theorem xtm_withScanState_overflow_pc (d : PandarXTMDecoder) (s : ScanState) :
    (d.withScanState s).overflow_pc_ = s.overflow_pc_ := rfl

theorem xtm_withScanState_has_scanned (d : PandarXTMDecoder) (s : ScanState) :
    (d.withScanState s).has_scanned_ = s.has_scanned_ := rfl

/-- The three outcomes of `parsePacket`. -/
theorem xtm_parsePacket_cases (c : Consts) (d : PandarXTMDecoder) (raw : PandarPacket) :
    parsePacket c d raw =
      if raw.size ≠ c.PACKET_SIZE then (false, d)
      else if (parseHeader raw).sob ≠ 0xEEFF then
        (false, { d with packet_ := { d.packet_ with header := parseHeader raw } })
      else
        (true,
          { d with packet_ := parseFields c raw { d.packet_ with header := parseHeader raw } })
      := by
  unfold parsePacket
  by_cases h1 : raw.size ≠ c.PACKET_SIZE
  · simp only [if_pos h1]
  · simp only [if_neg h1]

/-- The returned flag depends on the message alone. -/
theorem xtm_parsePacket_fst (c : Consts) (d : PandarXTMDecoder) (raw : PandarPacket) :
    (parsePacket c d raw).1
      = decide (raw.size = c.PACKET_SIZE ∧ (parseHeader raw).sob = 0xEEFF) := by
  rw [xtm_parsePacket_cases]
  by_cases h1 : raw.size = c.PACKET_SIZE <;> by_cases h2 : (parseHeader raw).sob = 0xEEFF <;>
    simp [h1, h2]

theorem xtm_parsePacket_accept (c : Consts) (d : PandarXTMDecoder) (raw : PandarPacket)
    (h : (parsePacket c d raw).1 = true) :
    (parsePacket c d raw).2
      = { d with packet_ := parseFields c raw { d.packet_ with header := parseHeader raw } } := by
  rw [xtm_parsePacket_fst] at h
  have h' := of_decide_eq_true h
  rw [xtm_parsePacket_cases]
  simp [h'.1, h'.2]

/-- The blocks stored by an accepted parse are those of the two block loops. -/
theorem xtm_parsePacket_blocks (c : Consts) (d : PandarXTMDecoder) (raw : PandarPacket)
    (h : (parsePacket c d raw).1 = true) :
    (parsePacket c d raw).2.packet_.blocks
      = (parseBody c raw (parseHeader raw) d.packet_.blocks).2 := by
  rw [xtm_parsePacket_accept c d raw h]
  rfl

/-- Parsing never touches the segmenter variables or the scan phase. -/
theorem xtm_parsePacket_scan (c : Consts) (d : PandarXTMDecoder) (raw : PandarPacket) :
    (parsePacket c d raw).2.toScanState = d.toScanState ∧
    (parsePacket c d raw).2.scan_phase_ = d.scan_phase_ := by
  rw [xtm_parsePacket_cases]
  split_ifs <;> exact ⟨rfl, rfl⟩

/-- A successful `unpack`: lazy swap, then the block loop over the parsed
packet. -/
theorem xtm_unpack_accept (c : Consts) (d : PandarXTMDecoder) (raw : PandarPacket)
    (h : (parsePacket c d raw).1 = true) :
    unpack c d raw = (parsePacket c d raw).2.withScanState
      (ScanState.run d.scan_phase_ d.toScanState.enter
        (loopInputs c (parsePacket c d raw).2)) := by
  have hs := xtm_parsePacket_scan c d raw
  unfold unpack
  simp only [h, not_true_eq_false, if_false]
  rw [xtm_unpackParsed_eq, hs.1, hs.2]

theorem xtm_unpack_reject (c : Consts) (d : PandarXTMDecoder) (raw : PandarPacket)
    (h : (parsePacket c d raw).1 = false) : unpack c d raw = (parsePacket c d raw).2 := by
  unfold unpack
  simp only [h, Bool.false_eq_true, not_false_eq_true, if_true]

end pandar_xtm.PandarXTMDecoder

/-! ## Rejected packets -/

theorem ScanState.enter_has_scanned (s : ScanState) : s.enter.has_scanned_ = false := by
  obtain ⟨sc, ov, lp, hs⟩ := s
  cases hs <;> rfl

namespace pandar40.Pandar40Decoder

/-- A run of rejected packets leaves the decoder as it was. -/
theorem p40_foldl_unpack_reject (c : Consts) (raws : List PandarPacket) :
    ∀ d : Pandar40Decoder, (∀ raw ∈ raws, (parsePacket c d raw).1 = false) →
      raws.foldl (unpack c) d = d := by
  induction raws with
  | nil => intro d _; rfl
  | cons raw raws ih =>
    intro d h
    rw [List.foldl_cons, p40_unpack_reject c d raw (h raw (List.mem_cons_self _ _))]
    exact ih d (fun r hr => h r (List.mem_cons_of_mem _ hr))

end pandar40.Pandar40Decoder

namespace pandar_xtm.PandarXTMDecoder

/-- A run of rejected packets leaves the segmenter variables as they were. -/
theorem xtm_foldl_unpack_reject (c : Consts) (raws : List PandarPacket) :
    ∀ d : PandarXTMDecoder, (∀ raw ∈ raws, (parsePacket c d raw).1 = false) →
      (raws.foldl (unpack c) d).toScanState = d.toScanState := by
  induction raws with
  | nil => intro d _; rfl
  | cons raw raws ih =>
    intro d h
    have h0 := h raw (List.mem_cons_self _ _)
    rw [List.foldl_cons, xtm_unpack_reject c d raw h0]
    rw [ih (parsePacket c d raw).2, (xtm_parsePacket_scan c d raw).1]
    intro r hr
    have := h r (List.mem_cons_of_mem _ hr)
    rw [xtm_parsePacket_fst] at this ⊢
    exact this

end pandar_xtm.PandarXTMDecoder

/-! ## The block loops of the PandarXTM parser -/

namespace pandar_xtm.PandarXTMDecoder

theorem xtm_parseHeader_sob (raw : PandarPacket) :
    (parseHeader raw).sob = 256 * raw.byte 0 + raw.byte 1 := by
  have h0 := raw.byte_lt 0
  have h1 := raw.byte_lt 1
  show (((raw.byte 0 &&& 0xff) <<< 8) ||| (raw.byte 1 &&& 0xff)) % 2 ^ 16 = _
  rw [be16_eq _ _ h0 h1]
  omega

theorem xtm_parseHeader_counts (raw : PandarPacket) :
    (parseHeader raw).chLaserNumber = raw.byte 6 ∧ (parseHeader raw).chBlockNumber = raw.byte 7 :=
  ⟨raw.byte_and 6, raw.byte_and 7⟩

/-- The unit loop run for `n` units: the index advances by `n * UNIT_SIZE`
and the units `0 .. n - 1` are stored. -/
theorem xtm_unit_loop (c : Consts) (raw : PandarPacket) (header : Header) (index : Nat)
    (units : List Unit) (n : Nat) :
    ((List.range n).foldl (parseUnitStep c raw header) (index, units)).1
      = index + n * c.UNIT_SIZE ∧
    ((List.range n).foldl (parseUnitStep c raw header) (index, units)).2.length
      = max units.length n := by
  induction n with
  | zero => simp
  | succ n ih =>
    rw [List.range_succ, List.foldl_append, List.foldl_cons, List.foldl_nil]
    constructor
    · show _ + c.UNIT_SIZE = _
      rw [ih.1]; ring
    · show (writeAt default _ n _).length = _
      rw [writeAt_length, ih.2]; omega

/-- The block loop run for `n` blocks: the index advances by the size of
`n` blocks of `chLaserNumber` units, the blocks `0 .. n - 1` are stored with
`chLaserNumber` units written in each, and later blocks are untouched. -/
theorem xtm_block_loop (c : Consts) (raw : PandarPacket) (header : Header) (index : Nat)
    (blocks : List Block) (n : Nat) :
    ((List.range n).foldl (parseBlockStep c raw header) (index, blocks)).1
      = index + n * (c.BLOCK_HEADER_AZIMUTH + header.chLaserNumber * c.UNIT_SIZE) ∧
    ((List.range n).foldl (parseBlockStep c raw header) (index, blocks)).2.length
      = max blocks.length n ∧
    (∀ b, b < n →
      (((List.range n).foldl (parseBlockStep c raw header) (index, blocks)).2.getD b
        default).units.length
        = max (blocks.getD b default).units.length header.chLaserNumber) ∧
    (∀ b, n ≤ b →
      ((List.range n).foldl (parseBlockStep c raw header) (index, blocks)).2.getD b default
        = blocks.getD b default) := by
  induction n with
  | zero => simp
  | succ n ih =>
    obtain ⟨i1, i2, i3, i4⟩ := ih
    rw [List.range_succ, List.foldl_append, List.foldl_cons, List.foldl_nil]
    generalize hst : (List.range n).foldl (parseBlockStep c raw header) (index, blocks) = st
      at i1 i2 i3 i4
    have hu := xtm_unit_loop c raw header (st.1 + c.BLOCK_HEADER_AZIMUTH)
      (st.2.getD n default).units header.chLaserNumber
    refine ⟨?_, ?_, ?_, ?_⟩
    · show ((List.range header.chLaserNumber).foldl (parseUnitStep c raw header)
        (st.1 + c.BLOCK_HEADER_AZIMUTH, (st.2.getD n default).units)).1 = _
      rw [hu.1, i1]; ring
    · show (writeAt default st.2 n _).length = _
      rw [writeAt_length, i2]; omega
    · intro b hb
      show ((writeAt default st.2 n _).getD b default).units.length = _
      by_cases hbn : b = n
      · subst hbn
        rw [writeAt_getD_self]
        show ((List.range header.chLaserNumber).foldl (parseUnitStep c raw header)
          (st.1 + c.BLOCK_HEADER_AZIMUTH, (st.2.getD b default).units)).2.length = _
        rw [hu.2, i4 b (le_refl b)]
      · rw [writeAt_getD_ne _ _ _ _ _ hbn]
        exact i3 b (by omega)
    · intro b hb
      show (writeAt default st.2 n _).getD b default = _
      rw [writeAt_getD_ne _ _ _ _ _ (by omega)]
      exact i4 b (by omega)

end pandar_xtm.PandarXTMDecoder

/-! ## Channels of the Pandar40 dual-return conversion -/

theorem usable_eq_true_iff (x : ℚ) :
    (if x ≤ roundDouble (1 / 10) ∨ x > 200 then false else true) = true
      ↔ validDistance x := by
  unfold validDistance
  by_cases h : x ≤ roundDouble (1 / 10) ∨ x > 200
  · simp only [if_pos h, Bool.false_eq_true, false_iff]
    rintro ⟨h1, h2⟩
    rcases h with h | h
    · exact absurd h1 (not_lt.mpr h)
    · exact absurd h (not_lt.mpr h2)
  · simp only [if_neg h, true_iff]
    push_neg at h
    exact h

/-- Selecting one channel from a loop over distinct channels. -/
theorem flatMap_channelPoints (f : Nat → List PointXYZIRADT)
    (hf : ∀ v, ∀ p ∈ f v, p.ring = v) (u : Nat) :
    ∀ l : List Nat, l.Nodup →
      channelPoints (l.flatMap f) u = if u ∈ l then f u else [] := by
  have hsame : channelPoints (f u) u = f u := by
    unfold channelPoints
    rw [List.filter_eq_self]
    intro p hp
    simp [hf u p hp]
  have hother : ∀ v, v ≠ u → channelPoints (f v) u = [] := by
    intro v hv
    unfold channelPoints
    rw [List.filter_eq_nil_iff]
    intro p hp
    simp only [decide_eq_true_eq]
    rw [hf v p hp]
    exact hv
  intro l
  induction l with
  | nil => intro _; rfl
  | cons v l ih =>
    intro hnd
    have hnd' := List.nodup_cons.mp hnd
    have hsplit : channelPoints ((v :: l).flatMap f) u
        = channelPoints (f v) u ++ channelPoints (l.flatMap f) u := by
      unfold channelPoints
      rw [List.flatMap_cons, List.filter_append]
    rw [hsplit, ih hnd'.2]
    by_cases hvu : v = u
    · subst hvu
      rw [hsame, if_neg hnd'.1, if_pos (List.mem_cons_self _ _), List.append_nil]
    · rw [hother v hvu, List.nil_append]
      have : u ∈ v :: l ↔ u ∈ l := by
        rw [List.mem_cons]
        constructor
        · rintro (h | h)
          · exact absurd h.symm hvu
          · exact h
        · exact Or.inr
      simp only [this]

namespace pandar40.Pandar40Decoder

theorem p40_firing_order_nodup : firing_order_.Nodup := by decide

/-- The points pushed for one channel, with the usable flags written as
validity of the two distances. -/
theorem p40_convert_dual_unit_eq (c : Consts) (d : Pandar40Decoder) (block_id unit_id : Nat) :
    convert_dual_unit c d block_id unit_id =
      (let even_unit := (d.packet_.blocks.getD block_id default).units.getD unit_id default
       let odd_unit := (d.packet_.blocks.getD (block_id + 1) default).units.getD unit_id default
       if d.return_mode_ = ReturnMode.STRONGEST then
         if even_unit.intensity ≥ odd_unit.intensity then
           if validDistance even_unit.distance then
             [build_point c d block_id unit_id ReturnType.SINGLE_STRONGEST]
           else []
         else
           if validDistance odd_unit.distance then
             [build_point c d (block_id + 1) unit_id ReturnType.SINGLE_STRONGEST]
           else []
       else if d.return_mode_ = ReturnMode.LAST then
         if validDistance even_unit.distance then
           [build_point c d block_id unit_id ReturnType.SINGLE_LAST]
         else []
       else
         if |roundDouble (even_unit.distance - odd_unit.distance)|
               < d.dual_return_distance_threshold_
             ∧ validDistance even_unit.distance then
           [build_point c d block_id unit_id ReturnType.DUAL_ONLY]
         else if even_unit.intensity ≥ odd_unit.intensity then
           (if validDistance odd_unit.distance then
              [build_point c d (block_id + 1) unit_id ReturnType.DUAL_WEAK_FIRST]
            else []) ++
           (if validDistance even_unit.distance then
              [build_point c d block_id unit_id ReturnType.DUAL_STRONGEST_LAST]
            else [])
         else
           (if validDistance odd_unit.distance then
              [build_point c d (block_id + 1) unit_id ReturnType.DUAL_STRONGEST_FIRST]
            else []) ++
           (if validDistance even_unit.distance then
              [build_point c d block_id unit_id ReturnType.DUAL_WEAK_LAST]
            else [])) := by
  have he := usable_eq_true_iff
    ((d.packet_.blocks.getD block_id default).units.getD unit_id default).distance
  have ho := usable_eq_true_iff
    ((d.packet_.blocks.getD (block_id + 1) default).units.getD unit_id default).distance
  unfold convert_dual_unit
  simp only [he, ho]
  generalize (d.packet_.blocks.getD block_id default).units.getD unit_id default = e
  generalize (d.packet_.blocks.getD (block_id + 1) default).units.getD unit_id default = o
  cases hm : d.return_mode_ <;>
    by_cases hv : validDistance e.distance <;>
    by_cases hw : validDistance o.distance <;>
    by_cases hi : e.intensity ≥ o.intensity <;>
    simp [hv, hw, hi, not_lt.mpr, lt_of_not_ge]

theorem p40_convert_dual_unit_ring (c : Consts) (d : Pandar40Decoder) (block_id unit_id : Nat) :
    ∀ p ∈ convert_dual_unit c d block_id unit_id, p.ring = unit_id := by
  intro p hp
  rw [p40_convert_dual_unit_eq] at hp
  simp only at hp
  split_ifs at hp <;> simp [build_point] at hp <;> (rcases hp with rfl | rfl <;> rfl)

/-- The points of channel `unit_id` in the output of `convert_dual` are the
points pushed in the pass of the loop for that channel. -/
theorem p40_convert_dual_channel (c : Consts) (d : Pandar40Decoder) (block_id unit_id : Nat)
    (hu : unit_id ∈ firing_order_) :
    channelPoints (convert_dual c d block_id) unit_id
      = convert_dual_unit c d block_id unit_id := by
  unfold convert_dual
  rw [flatMap_channelPoints _ (fun v => p40_convert_dual_unit_ring c d block_id v) unit_id
    firing_order_ p40_firing_order_nodup, if_pos hu]

end pandar40.Pandar40Decoder

/-! ## The block loops of the Pandar40 parser -/

/-- Appending a shifted field above a value that fits below the shift. -/
theorem lor_shiftLeft_eq (x y k : Nat) (hx : x < 2 ^ k) : x ||| (y <<< k) = x + 2 ^ k * y := by
  rw [Nat.lor_comm, Nat.shiftLeft_eq, Nat.mul_comm y, ← Nat.mul_add_lt_is_or hx y, Nat.add_comm]

/-- A little-endian group of four bytes, as assembled with shift and or. -/
theorem le32_eq (a b c d : Nat) (ha : a < 256) (hb : b < 256) (hc : c < 256) (hd : d < 256) :
    ((a &&& 0xff) ||| ((b &&& 0xff) <<< 8) ||| ((c &&& 0xff) <<< 16)
      ||| ((d &&& 0xff) <<< 24)) = a + 256 * b + 65536 * c + 16777216 * d := by
  rw [Nat.and_pow_two_sub_one_of_lt_two_pow (n := 8) ha,
    Nat.and_pow_two_sub_one_of_lt_two_pow (n := 8) hb,
    Nat.and_pow_two_sub_one_of_lt_two_pow (n := 8) hc,
    Nat.and_pow_two_sub_one_of_lt_two_pow (n := 8) hd]
  have h1 : a ||| (b <<< 8) = a + 2 ^ 8 * b := lor_shiftLeft_eq a b 8 (by omega)
  rw [h1]
  have h2 : (a + 2 ^ 8 * b) ||| (c <<< 16) = (a + 2 ^ 8 * b) + 2 ^ 16 * c :=
    lor_shiftLeft_eq _ c 16 (by omega)
  rw [h2]
  have h3 : (a + 2 ^ 8 * b + 2 ^ 16 * c) ||| (d <<< 24) = (a + 2 ^ 8 * b + 2 ^ 16 * c) + 2 ^ 24 * d :=
    lor_shiftLeft_eq _ d 24 (by omega)
  rw [h3]
  norm_num

namespace pandar40.Pandar40Decoder

/-- The unit read at `index`: the range is the little-endian pair at `index`,
the intensity the byte after it, and the reading is replaced by zeros exactly
when the converted distance exceeds 100000 (the test on the pattern
`0x010101` / `0x0101` can never hold for an intensity byte). -/
theorem p40_parseUnit_eq (c : Consts) (raw : PandarPacket) (index : Nat) :
    parseUnit c raw index =
      if roundDouble (((raw.byte index + 256 * raw.byte (index + 1) : Nat) : ℚ)
          * c.LASER_RETURN_TO_DISTANCE_RATE) > 100000 then
        { distance := 0, intensity := 0 }
      else
        { distance := roundDouble (((raw.byte index + 256 * raw.byte (index + 1) : Nat) : ℚ)
            * c.LASER_RETURN_TO_DISTANCE_RATE)
          intensity := raw.byte (index + 2) } := by
  have h0 := raw.byte_lt index
  have h1 := raw.byte_lt (index + 1)
  have h2 := raw.byte_lt (index + 2)
  unfold parseUnit
  simp only [le16_eq _ _ h0 h1, raw.byte_and (index + 2)]
  have hk : ((200 * 1000 / 2 : Nat) : ℚ) = 100000 := by norm_num
  have hi : ¬ raw.byte (index + 2) = 0x0101 := by omega
  rw [hk]
  simp only [hi, and_false, false_or]

/-- The unit loop run for `n` units from `index`. -/
theorem p40_unit_loop (c : Consts) (raw : PandarPacket) (index : Nat) (units : List Unit)
    (n : Nat) :
    ((List.range n).foldl (parseUnitStep c raw) (index, units)).1
      = index + n * c.RAW_MEASURE_SIZE ∧
    (∀ j, j < n →
      ((List.range n).foldl (parseUnitStep c raw) (index, units)).2.getD j default
        = parseUnit c raw (index + j * c.RAW_MEASURE_SIZE)) ∧
    (∀ j, n ≤ j →
      ((List.range n).foldl (parseUnitStep c raw) (index, units)).2.getD j default
        = units.getD j default) := by
  induction n with
  | zero => simp
  | succ n ih =>
    obtain ⟨i1, i2, i3⟩ := ih
    rw [List.range_succ, List.foldl_append, List.foldl_cons, List.foldl_nil]
    generalize (List.range n).foldl (parseUnitStep c raw) (index, units) = st at i1 i2 i3
    refine ⟨?_, ?_, ?_⟩
    · show st.1 + c.RAW_MEASURE_SIZE = _
      rw [i1]; ring
    · intro j hj
      show (writeAt default st.2 n (parseUnit c raw st.1)).getD j default = _
      by_cases hjn : j = n
      · subst hjn
        rw [writeAt_getD_self, i1]
      · rw [writeAt_getD_ne _ _ _ _ _ hjn]
        exact i2 j (by omega)
    · intro j hj
      show (writeAt default st.2 n (parseUnit c raw st.1)).getD j default = _
      rw [writeAt_getD_ne _ _ _ _ _ (by omega)]
      exact i3 j (by omega)

/-- The block loop run for `n` blocks from `index`. -/
theorem p40_block_loop (c : Consts) (raw : PandarPacket) (index : Nat) (blocks : List Block)
    (n : Nat) :
    ((List.range n).foldl (parseBlockStep c raw) (index, blocks)).1
      = index + n * (c.SOB_ANGLE_SIZE + c.LASER_COUNT * c.RAW_MEASURE_SIZE) ∧
    (∀ i, i < n →
      (((List.range n).foldl (parseBlockStep c raw) (index, blocks)).2.getD i default).azimuth
        = raw.byte (index + i * (c.SOB_ANGLE_SIZE + c.LASER_COUNT * c.RAW_MEASURE_SIZE) + 2)
          + 256 * raw.byte
            (index + i * (c.SOB_ANGLE_SIZE + c.LASER_COUNT * c.RAW_MEASURE_SIZE) + 3) ∧
      ∀ j, j < c.LASER_COUNT →
        (((List.range n).foldl (parseBlockStep c raw) (index, blocks)).2.getD i
          default).units.getD j default
          = parseUnit c raw
              (index + i * (c.SOB_ANGLE_SIZE + c.LASER_COUNT * c.RAW_MEASURE_SIZE)
                + c.SOB_ANGLE_SIZE + j * c.RAW_MEASURE_SIZE)) ∧
    (∀ i, n ≤ i →
      ((List.range n).foldl (parseBlockStep c raw) (index, blocks)).2.getD i default
        = blocks.getD i default) := by
  induction n with
  | zero => simp
  | succ n ih =>
    obtain ⟨i1, i2, i3⟩ := ih
    rw [List.range_succ, List.foldl_append, List.foldl_cons, List.foldl_nil]
    generalize (List.range n).foldl (parseBlockStep c raw) (index, blocks) = st at i1 i2 i3
    have hu := p40_unit_loop c raw (st.1 + c.SOB_ANGLE_SIZE) (st.2.getD n default).units
      c.LASER_COUNT
    have hstep : parseBlockStep c raw st n
        = (((List.range c.LASER_COUNT).foldl (parseUnitStep c raw)
              (st.1 + c.SOB_ANGLE_SIZE, (st.2.getD n default).units)).1,
            writeAt default st.2 n
              { sob := (raw.byte st.1 &&& 0xff) ||| ((raw.byte (st.1 + 1) &&& 0xff) <<< 8)
                azimuth := (raw.byte (st.1 + 2) &&& 0xff)
                  ||| ((raw.byte (st.1 + 3) &&& 0xff) <<< 8)
                units := ((List.range c.LASER_COUNT).foldl (parseUnitStep c raw)
                  (st.1 + c.SOB_ANGLE_SIZE, (st.2.getD n default).units)).2 }) := rfl
    rw [hstep]
    refine ⟨?_, ?_, ?_⟩
    · show ((List.range c.LASER_COUNT).foldl (parseUnitStep c raw)
        (st.1 + c.SOB_ANGLE_SIZE, (st.2.getD n default).units)).1 = _
      rw [hu.1, i1]; ring
    · intro i hi
      by_cases hin : i = n
      · subst hin
        simp only [writeAt_getD_self]
        refine ⟨?_, ?_⟩
        · rw [le16_eq _ _ (raw.byte_lt _) (raw.byte_lt _), i1]
        · intro j hj
          rw [hu.2.1 j hj, i1]
      · simp only [writeAt_getD_ne _ _ _ _ _ hin]
        exact i2 i (by omega)
    · intro i hi
      simp only [writeAt_getD_ne default st.2 n i _ (by omega : i ≠ n)]
      exact i3 i (by omega)

/-- The packet stored by an accepted parse. -/
theorem p40_parsePacket_packet (c : Consts) (d : Pandar40Decoder) (raw : PandarPacket)
    (h : (parsePacket c d raw).1 = true) :
    (parsePacket c d raw).2.packet_ = parseFields c raw d.packet_ := by
  rw [p40_parsePacket_accept c d raw h]

end pandar40.Pandar40Decoder

namespace pandar40.Pandar40Decoder

/-- The blocks stored by the parser are those of the block loop. -/
theorem p40_parseFields_blocks (c : Consts) (raw : PandarPacket) (packet_ : Packet) :
    (parseFields c raw packet_).blocks
      = ((List.range c.BLOCKS_PER_PACKET).foldl (parseBlockStep c raw) (0, packet_.blocks)).2 :=
  rfl

theorem p40_parseFields_usec (c : Consts) (raw : PandarPacket) (packet_ : Packet) :
    (parseFields c raw packet_).usec
      = (raw.byte (c.BLOCKS_PER_PACKET * (c.SOB_ANGLE_SIZE + c.LASER_COUNT * c.RAW_MEASURE_SIZE)
            + c.RESERVE_SIZE + c.REVOLUTION_SIZE)
          + 256 * raw.byte
            (c.BLOCKS_PER_PACKET * (c.SOB_ANGLE_SIZE + c.LASER_COUNT * c.RAW_MEASURE_SIZE)
              + c.RESERVE_SIZE + c.REVOLUTION_SIZE + 1)
          + 65536 * raw.byte
            (c.BLOCKS_PER_PACKET * (c.SOB_ANGLE_SIZE + c.LASER_COUNT * c.RAW_MEASURE_SIZE)
              + c.RESERVE_SIZE + c.REVOLUTION_SIZE + 2)
          + 16777216 * raw.byte
            (c.BLOCKS_PER_PACKET * (c.SOB_ANGLE_SIZE + c.LASER_COUNT * c.RAW_MEASURE_SIZE)
              + c.RESERVE_SIZE + c.REVOLUTION_SIZE + 3)) % 1000000 := by
  have hidx := (p40_block_loop c raw 0 packet_.blocks c.BLOCKS_PER_PACKET).1
  rw [Nat.zero_add] at hidx
  generalize hs : c.BLOCKS_PER_PACKET * (c.SOB_ANGLE_SIZE + c.LASER_COUNT * c.RAW_MEASURE_SIZE)
    + c.RESERVE_SIZE + c.REVOLUTION_SIZE = s
  have hu : (parseFields c raw packet_).usec
      = (((raw.byte s &&& 0xff) ||| ((raw.byte (s + 1) &&& 0xff) <<< 8)
          ||| ((raw.byte (s + 2) &&& 0xff) <<< 16)
          ||| ((raw.byte (s + 3) &&& 0xff) <<< 24)) % 2 ^ 32) % 1000000 := by
    rw [← hs, ← hidx]
    rfl
  have h0 := raw.byte_lt s
  have h1 := raw.byte_lt (s + 1)
  have h2 := raw.byte_lt (s + 2)
  have h3 := raw.byte_lt (s + 3)
  have hlt : raw.byte s + 256 * raw.byte (s + 1) + 65536 * raw.byte (s + 2)
      + 16777216 * raw.byte (s + 3) < 2 ^ 32 := by omega
  rw [hu, le32_eq _ _ _ _ h0 h1 h2 h3, Nat.mod_eq_of_lt hlt]

theorem p40_parseFields_tm_year (c : Consts) (raw : PandarPacket) (packet_ : Packet) :
    (parseFields c raw packet_).t.tm_year
      = if (raw.byte (c.BLOCKS_PER_PACKET * (c.SOB_ANGLE_SIZE + c.LASER_COUNT * c.RAW_MEASURE_SIZE)
              + c.RESERVE_SIZE + c.REVOLUTION_SIZE + c.TIMESTAMP_SIZE
              + (c.FACTORY_INFO_SIZE + c.RETURN_SIZE)) : Int) + 100 ≥ 200 then
          (raw.byte (c.BLOCKS_PER_PACKET * (c.SOB_ANGLE_SIZE + c.LASER_COUNT * c.RAW_MEASURE_SIZE)
              + c.RESERVE_SIZE + c.REVOLUTION_SIZE + c.TIMESTAMP_SIZE
              + (c.FACTORY_INFO_SIZE + c.RETURN_SIZE)) : Int) + 100 - 100
        else
          (raw.byte (c.BLOCKS_PER_PACKET * (c.SOB_ANGLE_SIZE + c.LASER_COUNT * c.RAW_MEASURE_SIZE)
              + c.RESERVE_SIZE + c.REVOLUTION_SIZE + c.TIMESTAMP_SIZE
              + (c.FACTORY_INFO_SIZE + c.RETURN_SIZE)) : Int) + 100 := by
  have hidx := (p40_block_loop c raw 0 packet_.blocks c.BLOCKS_PER_PACKET).1
  rw [Nat.zero_add] at hidx
  generalize hs : c.BLOCKS_PER_PACKET * (c.SOB_ANGLE_SIZE + c.LASER_COUNT * c.RAW_MEASURE_SIZE)
    + c.RESERVE_SIZE + c.REVOLUTION_SIZE + c.TIMESTAMP_SIZE
    + (c.FACTORY_INFO_SIZE + c.RETURN_SIZE) = s
  have hy : (parseFields c raw packet_).t.tm_year
      = if ((raw.byte (s + 0) &&& 0xff : Nat) : Int) + 100 ≥ 200 then
          ((raw.byte (s + 0) &&& 0xff : Nat) : Int) + 100 - 100
        else ((raw.byte (s + 0) &&& 0xff : Nat) : Int) + 100 := by
    rw [← hs, ← hidx]
    rfl
  rw [hy, Nat.add_zero, raw.byte_and s]

end pandar40.Pandar40Decoder

/-! ## Contents stored by the PandarXTM parser -/

namespace pandar_xtm.PandarXTMDecoder

theorem xtm_parseUnitStep_eq (c : Consts) (raw : PandarPacket) (header : Header)
    (st : Nat × List Unit) (unit : Nat) :
    parseUnitStep c raw header st unit
      = (st.1 + c.UNIT_SIZE, writeAt default st.2 unit (unitAt raw header st.1)) := rfl

/-- The units stored by the unit loop run for `n` units from `index`; units
from `n` on are as before. -/
theorem xtm_unit_loop_get (c : Consts) (raw : PandarPacket) (header : Header) (index : Nat)
    (units : List Unit) (n : Nat) :
    (∀ j, j < n →
      ((List.range n).foldl (parseUnitStep c raw header) (index, units)).2.getD j default
        = unitAt raw header (index + j * c.UNIT_SIZE)) ∧
    (∀ j, n ≤ j →
      ((List.range n).foldl (parseUnitStep c raw header) (index, units)).2.getD j default
        = units.getD j default) := by
  induction n with
  | zero => simp
  | succ n ih =>
    obtain ⟨i2, i3⟩ := ih
    have i1 := (xtm_unit_loop c raw header index units n).1
    rw [List.range_succ, List.foldl_append, List.foldl_cons, List.foldl_nil]
    generalize (List.range n).foldl (parseUnitStep c raw header) (index, units) = st
      at i1 i2 i3
    rw [xtm_parseUnitStep_eq]
    refine ⟨?_, ?_⟩
    · intro j hj
      show (writeAt default st.2 n _).getD j default = _
      by_cases hjn : j = n
      · subst hjn
        rw [writeAt_getD_self, i1]
      · rw [writeAt_getD_ne _ _ _ _ _ hjn]
        exact i2 j (by omega)
    · intro j hj
      show (writeAt default st.2 n _).getD j default = _
      rw [writeAt_getD_ne _ _ _ _ _ (by omega)]
      exact i3 j (by omega)

/-- The blocks stored by the block loop run for `n` blocks from `index`: in
a block below `n` the azimuth and the units below `chLaserNumber` come from
the message and the other units are as before; blocks from `n` on are as
before. -/
theorem xtm_block_loop_get (c : Consts) (raw : PandarPacket) (header : Header) (index : Nat)
    (blocks : List Block) (n : Nat) :
    (∀ b, b < n →
      (((List.range n).foldl (parseBlockStep c raw header) (index, blocks)).2.getD b
          default).azimuth
        = raw.byte (index + b * (c.BLOCK_HEADER_AZIMUTH + header.chLaserNumber * c.UNIT_SIZE))
          + 256 * raw.byte
            (index + b * (c.BLOCK_HEADER_AZIMUTH + header.chLaserNumber * c.UNIT_SIZE) + 1) ∧
      (∀ j, j < header.chLaserNumber →
        (((List.range n).foldl (parseBlockStep c raw header) (index, blocks)).2.getD b
            default).units.getD j default
          = unitAt raw header
              (index + b * (c.BLOCK_HEADER_AZIMUTH + header.chLaserNumber * c.UNIT_SIZE)
                + c.BLOCK_HEADER_AZIMUTH + j * c.UNIT_SIZE)) ∧
      (∀ j, header.chLaserNumber ≤ j →
        (((List.range n).foldl (parseBlockStep c raw header) (index, blocks)).2.getD b
            default).units.getD j default
          = (blocks.getD b default).units.getD j default)) ∧
    (∀ b, n ≤ b →
      ((List.range n).foldl (parseBlockStep c raw header) (index, blocks)).2.getD b default
        = blocks.getD b default) := by
  induction n with
  | zero => simp
  | succ n ih =>
    obtain ⟨i2, i3⟩ := ih
    have i1 := (xtm_block_loop c raw header index blocks n).1
    rw [List.range_succ, List.foldl_append, List.foldl_cons, List.foldl_nil]
    generalize (List.range n).foldl (parseBlockStep c raw header) (index, blocks) = st
      at i1 i2 i3
    have hu := xtm_unit_loop_get c raw header (st.1 + c.BLOCK_HEADER_AZIMUTH)
      (st.2.getD n default).units header.chLaserNumber
    have hstep : parseBlockStep c raw header st n
        = (((List.range header.chLaserNumber).foldl (parseUnitStep c raw header)
              (st.1 + c.BLOCK_HEADER_AZIMUTH, (st.2.getD n default).units)).1,
            writeAt default st.2 n
              { azimuth := (raw.byte st.1 &&& 0xff) ||| ((raw.byte (st.1 + 1) &&& 0xff) <<< 8)
                units := ((List.range header.chLaserNumber).foldl (parseUnitStep c raw header)
                  (st.1 + c.BLOCK_HEADER_AZIMUTH, (st.2.getD n default).units)).2 }) := rfl
    rw [hstep]
    refine ⟨?_, ?_⟩
    · intro b hb
      by_cases hbn : b = n
      · subst hbn
        simp only [writeAt_getD_self]
        refine ⟨?_, ?_, ?_⟩
        · rw [le16_eq _ _ (raw.byte_lt _) (raw.byte_lt _), i1]
        · intro j hj
          rw [hu.1 j hj, i1]
        · intro j hj
          rw [hu.2 j hj, i3 b (le_refl b)]
      · simp only [writeAt_getD_ne _ _ _ _ _ hbn]
        exact i2 b (by omega)
    · intro b hb
      simp only [writeAt_getD_ne default st.2 n b _ (by omega : b ≠ n)]
      exact i3 b (by omega)

/-- The packet stored by an accepted parse. -/
theorem xtm_parsePacket_packet (c : Consts) (d : PandarXTMDecoder) (raw : PandarPacket)
    (h : (parsePacket c d raw).1 = true) :
    (parsePacket c d raw).2.packet_
      = parseFields c raw { d.packet_ with header := parseHeader raw } := by
  rw [xtm_parsePacket_accept c d raw h]

/-- The index after the block loops depends on the header counts alone. -/
theorem xtm_parseBody_index (c : Consts) (raw : PandarPacket) (header : Header)
    (blocks : List Block) :
    (parseBody c raw header blocks).1
      = c.HEAD_SIZE + header.chBlockNumber
          * (c.BLOCK_HEADER_AZIMUTH + header.chLaserNumber * c.UNIT_SIZE) :=
  (xtm_block_loop c raw header c.HEAD_SIZE blocks header.chBlockNumber).1

/-- The fields parsed after the blocks do not depend on the blocks stored
before the call. -/
theorem xtm_parseFields_tail (c : Consts) (raw : PandarPacket) (header : Header)
    (t1 t2 : Tm) (u1 u2 r1 r2 : Nat) (blocks1 blocks2 : List Block) :
    let p1 := parseFields c raw
      { header := header, blocks := blocks1, t := t1, usec := u1, return_mode := r1 }
    let p2 := parseFields c raw
      { header := header, blocks := blocks2, t := t2, usec := u2, return_mode := r2 }
    p1.header = p2.header ∧ p1.return_mode = p2.return_mode ∧ p1.t = p2.t ∧ p1.usec = p2.usec := by
  have e : (parseBody c raw header blocks1).1 = (parseBody c raw header blocks2).1 := by
    rw [xtm_parseBody_index, xtm_parseBody_index]
  simp only [parseFields]
  rw [e]
  exact ⟨trivial, rfl, rfl, rfl⟩

theorem xtm_parseFields_tm_year (c : Consts) (raw : PandarPacket) (packet_ : Packet) :
    (parseFields c raw packet_).t.tm_year
      = if (raw.byte (c.HEAD_SIZE + packet_.header.chBlockNumber
              * (c.BLOCK_HEADER_AZIMUTH + packet_.header.chLaserNumber * c.UNIT_SIZE)
              + c.RESERVED_SIZE + c.RETURN_SIZE + c.ENGINE_VELOCITY) : Int) + 100 ≥ 200 then
          (raw.byte (c.HEAD_SIZE + packet_.header.chBlockNumber
              * (c.BLOCK_HEADER_AZIMUTH + packet_.header.chLaserNumber * c.UNIT_SIZE)
              + c.RESERVED_SIZE + c.RETURN_SIZE + c.ENGINE_VELOCITY) : Int) + 100 - 100
        else
          (raw.byte (c.HEAD_SIZE + packet_.header.chBlockNumber
              * (c.BLOCK_HEADER_AZIMUTH + packet_.header.chLaserNumber * c.UNIT_SIZE)
              + c.RESERVED_SIZE + c.RETURN_SIZE + c.ENGINE_VELOCITY) : Int) + 100 := by
  have hidx := xtm_parseBody_index c raw packet_.header packet_.blocks
  generalize hs : c.HEAD_SIZE + packet_.header.chBlockNumber
    * (c.BLOCK_HEADER_AZIMUTH + packet_.header.chLaserNumber * c.UNIT_SIZE)
    + c.RESERVED_SIZE + c.RETURN_SIZE + c.ENGINE_VELOCITY = s
  have hy : (parseFields c raw packet_).t.tm_year
      = if ((raw.byte (s + 0) &&& 0xff : Nat) : Int) + 100 ≥ 200 then
          ((raw.byte (s + 0) &&& 0xff : Nat) : Int) + 100 - 100
        else ((raw.byte (s + 0) &&& 0xff : Nat) : Int) + 100 := by
    rw [← hs, ← hidx]
    rfl
  rw [hy, Nat.add_zero, raw.byte_and s]

end pandar_xtm.PandarXTMDecoder

/-! ## The multi-return conversions of PandarXTM -/

namespace pandar_xtm.PandarXTMDecoder

/-- The unit test of the conversions, with the filter written as validity
of the distance. -/
theorem xtm_convertUnit_eq (d : PandarXTMDecoder) (block_id i unit_id : Nat) :
    convertUnit d block_id i unit_id =
      if validDistance ((d.packet_.blocks.getD i default).units.getD unit_id default).distance
      then some
        { block := i
          ring := unit_id
          distance := ((d.packet_.blocks.getD i default).units.getD unit_id default).distance
          intensity := ((d.packet_.blocks.getD i default).units.getD unit_id default).intensity
          block_azimuth := (d.packet_.blocks.getD i default).azimuth
          return_type := none
          time_block := block_id }
      else none := by
  simp only [convertUnit, validDistance]
  generalize (d.packet_.blocks.getD i default).units.getD unit_id default = un
  by_cases h : un.distance ≤ roundDouble (1 / 10) ∨ un.distance > 200
  · have h' : ¬ (roundDouble (1 / 10) < un.distance ∧ un.distance ≤ 200) := by
      rintro ⟨h1, h2⟩
      rcases h with h | h
      · exact absurd h1 (not_lt.mpr h)
      · exact absurd h (not_lt.mpr h2)
    rw [if_pos h, if_neg h']
  · have h' : roundDouble (1 / 10) < un.distance ∧ un.distance ≤ 200 := by
      push_neg at h
      exact h
    rw [if_neg h, if_pos h']

theorem xtm_convertUnit_block (d : PandarXTMDecoder) (block_id i unit_id : Nat)
    (p : PointXYZIRADT) (h : convertUnit d block_id i unit_id = some p) : p.block = i := by
  rw [xtm_convertUnit_eq] at h
  split_ifs at h
  rw [← Option.some.inj h]

end pandar_xtm.PandarXTMDecoder

/-! ## Overflow is empty unless the ready flag is set -/

/-- While the ready flag stays cleared, the block loop leaves overflow
alone. -/
theorem ScanState.run_not_ready (φ : Nat) (bs : List (Nat × List PointXYZIRADT)) :
    ∀ s : ScanState, (ScanState.run φ s bs).has_scanned_ = false →
      (ScanState.run φ s bs).overflow_pc_ = s.overflow_pc_ ∧ s.has_scanned_ = false := by
  induction bs with
  | nil => intro s h; exact ⟨rfl, h⟩
  | cons b bs ih =>
    intro s h
    rw [ScanState.run_cons] at h ⊢
    obtain ⟨h1, h2⟩ := ih _ h
    by_cases hc : currentPhase b.1 φ > s.last_phase_ ∧ s.has_scanned_ = false
    · have e2 : (ScanState.step φ s b).overflow_pc_ = s.overflow_pc_ := by
        simp [ScanState.step, hc]
      exact ⟨by rw [h1, e2], hc.2⟩
    · have e3 : (ScanState.step φ s b).has_scanned_ = true := by
        simp only [ScanState.step, if_neg hc]
      rw [e3] at h2
      exact absurd h2 (by decide)

/-- The invariant: overflow is empty when the ready flag is cleared. -/
theorem ScanState.enter_run_invariant (φ : Nat) (s : ScanState)
    (bs : List (Nat × List PointXYZIRADT))
    (hs : s.has_scanned_ = true ∨ s.overflow_pc_ = []) :
    (ScanState.run φ s.enter bs).has_scanned_ = true
      ∨ (ScanState.run φ s.enter bs).overflow_pc_ = [] := by
  have he : s.enter.overflow_pc_ = [] := by
    obtain ⟨sc, ov, lp, fl⟩ := s
    cases fl
    · rcases hs with hs | hs
      · exact absurd hs Bool.false_ne_true
      · exact hs
    · rfl
  cases hr : (ScanState.run φ s.enter bs).has_scanned_
  · right
    rw [(ScanState.run_not_ready φ bs s.enter hr).1, he]
  · left
    rfl

namespace pandar40.Pandar40Decoder

theorem p40_unpack_invariant (c : Consts) (d : Pandar40Decoder) (raw : PandarPacket)
    (hd : d.has_scanned_ = true ∨ d.overflow_pc_ = []) :
    (unpack c d raw).has_scanned_ = true ∨ (unpack c d raw).overflow_pc_ = [] := by
  cases h : (parsePacket c d raw).1
  · rw [p40_unpack_reject c d raw h]
    exact hd
  · rw [p40_unpack_accept c d raw h]
    exact ScanState.enter_run_invariant d.scan_phase_ d.toScanState _ hd

theorem p40_foldl_unpack_invariant (c : Consts) (raws : List PandarPacket) :
    ∀ d : Pandar40Decoder, (d.has_scanned_ = true ∨ d.overflow_pc_ = []) →
      ((raws.foldl (unpack c) d).has_scanned_ = true
        ∨ (raws.foldl (unpack c) d).overflow_pc_ = []) := by
  induction raws with
  | nil => intro d hd; exact hd
  | cons raw raws ih =>
    intro d hd
    rw [List.foldl_cons]
    exact ih _ (p40_unpack_invariant c d raw hd)

end pandar40.Pandar40Decoder

namespace pandar_xtm.PandarXTMDecoder

theorem xtm_unpack_invariant (c : Consts) (d : PandarXTMDecoder) (raw : PandarPacket)
    (hd : d.has_scanned_ = true ∨ d.overflow_pc_ = []) :
    (unpack c d raw).has_scanned_ = true ∨ (unpack c d raw).overflow_pc_ = [] := by
  cases h : (parsePacket c d raw).1
  · rw [xtm_unpack_reject c d raw h]
    have hs := (xtm_parsePacket_scan c d raw).1
    have h1 : (parsePacket c d raw).2.has_scanned_ = d.has_scanned_ :=
      congrArg ScanState.has_scanned_ hs
    have h2 : (parsePacket c d raw).2.overflow_pc_ = d.overflow_pc_ :=
      congrArg ScanState.overflow_pc_ hs
    rw [h1, h2]
    exact hd
  · rw [xtm_unpack_accept c d raw h]
    exact ScanState.enter_run_invariant d.scan_phase_ d.toScanState _ hd

theorem xtm_foldl_unpack_invariant (c : Consts) (raws : List PandarPacket) :
    ∀ d : PandarXTMDecoder, (d.has_scanned_ = true ∨ d.overflow_pc_ = []) →
      ((raws.foldl (unpack c) d).has_scanned_ = true
        ∨ (raws.foldl (unpack c) d).overflow_pc_ = []) := by
  induction raws with
  | nil => intro d hd; exact hd
  | cons raw raws ih =>
    intro d hd
    rw [List.foldl_cons]
    exact ih _ (xtm_unpack_invariant c d raw hd)

end pandar_xtm.PandarXTMDecoder

/-! ## Conservation of points and range of the phase -/

/-- The buffer carried into a successful `unpack`: the old overflow buffer
when the ready flag is set, the old current buffer otherwise. -/
theorem ScanState.enter_scan_pc (s : ScanState) :
    s.enter.scan_pc_ = if s.has_scanned_ then s.overflow_pc_ else s.scan_pc_ := by
  obtain ⟨sc, ov, lp, fl⟩ := s
  cases fl <;> rfl

theorem ScanState.enter_last_phase (s : ScanState) : s.enter.last_phase_ = s.last_phase_ := by
  obtain ⟨sc, ov, lp, fl⟩ := s
  cases fl <;> rfl

theorem ScanState.enter_overflow_pc (s : ScanState)
    (hs : s.has_scanned_ = true ∨ s.overflow_pc_ = []) : s.enter.overflow_pc_ = [] := by
  obtain ⟨sc, ov, lp, fl⟩ := s
  cases fl
  · rcases hs with hs | hs
    · exact absurd hs Bool.false_ne_true
    · exact hs
  · rfl

/-- Lazy swap and block loop together: the two buffers, concatenated, are
the carried buffer followed by the points of all blocks in order, split at
one position. -/
theorem ScanState.enter_run_concat (φ : Nat) (s : ScanState)
    (bs : List (Nat × List PointXYZIRADT))
    (hs : s.has_scanned_ = true ∨ s.overflow_pc_ = []) :
    ∃ k, k ≤ bs.length ∧
      (ScanState.run φ s.enter bs).scan_pc_
        = (if s.has_scanned_ then s.overflow_pc_ else s.scan_pc_)
          ++ ((bs.take k).map Prod.snd).flatten ∧
      (ScanState.run φ s.enter bs).overflow_pc_ = ((bs.drop k).map Prod.snd).flatten ∧
      (ScanState.run φ s.enter bs).scan_pc_ ++ (ScanState.run φ s.enter bs).overflow_pc_
        = (if s.has_scanned_ then s.overflow_pc_ else s.scan_pc_)
          ++ (bs.map Prod.snd).flatten := by
  obtain ⟨k, hk, g1, g2, -, -, -⟩ := ScanState.run_split φ bs s.enter
  rw [ScanState.enter_scan_pc] at g1
  rw [ScanState.enter_overflow_pc s hs, List.nil_append] at g2
  refine ⟨k, hk, g1, g2, ?_⟩
  rw [g1, g2, List.append_assoc, ← List.flatten_append, ← List.map_append,
    List.take_append_drop]

theorem currentPhase_range (azimuth scan_phase_ : Nat) (haz : azimuth ≤ 65535)
    (hsp : scan_phase_ ≤ 36000) :
    0 ≤ currentPhase azimuth scan_phase_ ∧ currentPhase azimuth scan_phase_ < 36000 := by
  unfold currentPhase
  rw [Int.tmod_eq_emod (by omega) (by omega)]
  omega

/-- The block loop keeps `last_phase_` in 0..35999 when every processed
azimuth fits 16 bits and the scan phase is at most 36000. -/
theorem ScanState.run_last_phase_range (φ : Nat) (hφ : φ ≤ 36000)
    (bs : List (Nat × List PointXYZIRADT)) (hbs : ∀ b ∈ bs, b.1 ≤ 65535) :
    ∀ s : ScanState, (0 ≤ s.last_phase_ ∧ s.last_phase_ < 36000) →
      0 ≤ (ScanState.run φ s bs).last_phase_ ∧ (ScanState.run φ s bs).last_phase_ < 36000 := by
  induction bs with
  | nil => intro s hs; exact hs
  | cons b bs ih =>
    intro s _
    rw [ScanState.run_cons]
    apply ih (fun x hx => hbs x (List.mem_cons_of_mem _ hx))
    rw [ScanState.step_last_phase]
    exact currentPhase_range b.1 φ (hbs b (List.mem_cons_self _ _)) hφ

theorem getD_azimuth_bound {β : Type} (dflt : β) (az : β → Nat) (hd : az dflt ≤ 65535)
    (l : List β) (hl : ∀ b ∈ l, az b ≤ 65535) (i : Nat) : az (l.getD i dflt) ≤ 65535 := by
  by_cases hi : i < l.length
  · rw [List.getD_eq_getElem l dflt hi]
    exact hl _ (List.getElem_mem _)
  · rw [List.getD_eq_default l dflt (by omega)]
    exact hd

namespace pandar40.Pandar40Decoder

theorem p40_withScanState_packet (d : Pandar40Decoder) (s : ScanState) :
    (d.withScanState s).packet_ = d.packet_ := rfl

theorem p40_withScanState_scan_phase (d : Pandar40Decoder) (s : ScanState) :
    (d.withScanState s).scan_phase_ = d.scan_phase_ := rfl

theorem p40_withScanState_last_phase (d : Pandar40Decoder) (s : ScanState) :
    (d.withScanState s).last_phase_ = s.last_phase_ := rfl

/-- Parsing keeps every stored block azimuth within 16 bits. -/
theorem p40_parsePacket_azimuth_bound (c : Consts) (d : Pandar40Decoder) (raw : PandarPacket)
    (hd : ∀ i, (d.packet_.blocks.getD i default).azimuth ≤ 65535) :
    ∀ i, ((parsePacket c d raw).2.packet_.blocks.getD i default).azimuth ≤ 65535 := by
  intro i
  cases h : (parsePacket c d raw).1
  · rw [p40_parsePacket_reject c d raw h]
    exact hd i
  · rw [p40_parsePacket_packet c d raw h, p40_parseFields_blocks]
    obtain ⟨-, g2, g3⟩ := p40_block_loop c raw 0 d.packet_.blocks c.BLOCKS_PER_PACKET
    by_cases hi : i < c.BLOCKS_PER_PACKET
    · rw [(g2 i hi).1]
      have h1 := raw.byte_lt
        (0 + i * (c.SOB_ANGLE_SIZE + c.LASER_COUNT * c.RAW_MEASURE_SIZE) + 2)
      have h2 := raw.byte_lt
        (0 + i * (c.SOB_ANGLE_SIZE + c.LASER_COUNT * c.RAW_MEASURE_SIZE) + 3)
      omega
    · rw [g3 i (by omega)]
      exact hd i

/-- One `unpack` keeps the block azimuths within 16 bits, the scan phase,
and `last_phase_` in 0..35999. -/
theorem p40_unpack_phase_invariant (c : Consts) (d : Pandar40Decoder) (raw : PandarPacket)
    (hd : ∀ i, (d.packet_.blocks.getD i default).azimuth ≤ 65535)
    (hsp : d.scan_phase_ ≤ 36000) (hl : 0 ≤ d.last_phase_ ∧ d.last_phase_ < 36000) :
    (∀ i, ((unpack c d raw).packet_.blocks.getD i default).azimuth ≤ 65535) ∧
    (unpack c d raw).scan_phase_ = d.scan_phase_ ∧
    (0 ≤ (unpack c d raw).last_phase_ ∧ (unpack c d raw).last_phase_ < 36000) := by
  cases h : (parsePacket c d raw).1
  · rw [p40_unpack_reject c d raw h]
    exact ⟨hd, rfl, hl⟩
  · have hp := p40_parsePacket_azimuth_bound c d raw hd
    rw [p40_unpack_accept c d raw h]
    refine ⟨hp, (p40_parsePacket_scan c d raw).2, ?_⟩
    rw [p40_withScanState_last_phase]
    apply ScanState.run_last_phase_range d.scan_phase_ hsp
    · intro b hb
      simp only [loopInputs, List.mem_map] at hb
      obtain ⟨id, -, rfl⟩ := hb
      exact hp id
    · rw [ScanState.enter_last_phase]
      exact hl

theorem p40_foldl_unpack_phase_invariant (c : Consts) (raws : List PandarPacket) :
    ∀ d : Pandar40Decoder, (∀ i, (d.packet_.blocks.getD i default).azimuth ≤ 65535) →
      d.scan_phase_ ≤ 36000 → (0 ≤ d.last_phase_ ∧ d.last_phase_ < 36000) →
      0 ≤ (raws.foldl (unpack c) d).last_phase_
        ∧ (raws.foldl (unpack c) d).last_phase_ < 36000 := by
  induction raws with
  | nil => intro d _ _ hl; exact hl
  | cons raw raws ih =>
    intro d hd hsp hl
    obtain ⟨g1, g2, g3⟩ := p40_unpack_phase_invariant c d raw hd hsp hl
    rw [List.foldl_cons]
    exact ih _ g1 (by rw [g2]; exact hsp) g3

end pandar40.Pandar40Decoder

namespace pandar_xtm.PandarXTMDecoder

theorem xtm_withScanState_packet (d : PandarXTMDecoder) (s : ScanState) :
    (d.withScanState s).packet_ = d.packet_ := rfl

theorem xtm_withScanState_scan_phase (d : PandarXTMDecoder) (s : ScanState) :
    (d.withScanState s).scan_phase_ = d.scan_phase_ := rfl

theorem xtm_withScanState_last_phase (d : PandarXTMDecoder) (s : ScanState) :
    (d.withScanState s).last_phase_ = s.last_phase_ := rfl

/-- Parsing keeps every stored block azimuth within 16 bits. -/
theorem xtm_parsePacket_azimuth_bound (c : Consts) (d : PandarXTMDecoder) (raw : PandarPacket)
    (hd : ∀ i, (d.packet_.blocks.getD i default).azimuth ≤ 65535) :
    ∀ i, ((parsePacket c d raw).2.packet_.blocks.getD i default).azimuth ≤ 65535 := by
  intro i
  cases h : (parsePacket c d raw).1
  · have hb : (parsePacket c d raw).2.packet_.blocks = d.packet_.blocks := by
      rw [xtm_parsePacket_cases] at h ⊢
      split_ifs at h ⊢
      all_goals rfl
    rw [hb]
    exact hd i
  · rw [xtm_parsePacket_blocks c d raw h, parseBody]
    obtain ⟨g2, g3⟩ := xtm_block_loop_get c raw (parseHeader raw) c.HEAD_SIZE d.packet_.blocks
      (parseHeader raw).chBlockNumber
    by_cases hi : i < (parseHeader raw).chBlockNumber
    · rw [(g2 i hi).1]
      have h1 := raw.byte_lt (c.HEAD_SIZE
        + i * (c.BLOCK_HEADER_AZIMUTH + (parseHeader raw).chLaserNumber * c.UNIT_SIZE))
      have h2 := raw.byte_lt (c.HEAD_SIZE
        + i * (c.BLOCK_HEADER_AZIMUTH + (parseHeader raw).chLaserNumber * c.UNIT_SIZE) + 1)
      omega
    · rw [g3 i (by omega)]
      exact hd i

/-- One `unpack` keeps the block azimuths within 16 bits, the scan phase,
and `last_phase_` in 0..35999. -/
theorem xtm_unpack_phase_invariant (c : Consts) (d : PandarXTMDecoder) (raw : PandarPacket)
    (hd : ∀ i, (d.packet_.blocks.getD i default).azimuth ≤ 65535)
    (hsp : d.scan_phase_ ≤ 36000) (hl : 0 ≤ d.last_phase_ ∧ d.last_phase_ < 36000) :
    (∀ i, ((unpack c d raw).packet_.blocks.getD i default).azimuth ≤ 65535) ∧
    (unpack c d raw).scan_phase_ = d.scan_phase_ ∧
    (0 ≤ (unpack c d raw).last_phase_ ∧ (unpack c d raw).last_phase_ < 36000) := by
  have hp := xtm_parsePacket_azimuth_bound c d raw hd
  have hs := xtm_parsePacket_scan c d raw
  cases h : (parsePacket c d raw).1
  · rw [xtm_unpack_reject c d raw h]
    refine ⟨hp, hs.2, ?_⟩
    have hlp : (parsePacket c d raw).2.last_phase_ = d.last_phase_ :=
      congrArg ScanState.last_phase_ hs.1
    rw [hlp]
    exact hl
  · rw [xtm_unpack_accept c d raw h]
    refine ⟨hp, hs.2, ?_⟩
    rw [xtm_withScanState_last_phase]
    apply ScanState.run_last_phase_range d.scan_phase_ hsp
    · intro b hb
      simp only [loopInputs, List.mem_map] at hb
      obtain ⟨id, -, rfl⟩ := hb
      exact hp id
    · rw [ScanState.enter_last_phase]
      exact hl

theorem xtm_foldl_unpack_phase_invariant (c : Consts) (raws : List PandarPacket) :
    ∀ d : PandarXTMDecoder, (∀ i, (d.packet_.blocks.getD i default).azimuth ≤ 65535) →
      d.scan_phase_ ≤ 36000 → (0 ≤ d.last_phase_ ∧ d.last_phase_ < 36000) →
      0 ≤ (raws.foldl (unpack c) d).last_phase_
        ∧ (raws.foldl (unpack c) d).last_phase_ < 36000 := by
  induction raws with
  | nil => intro d _ _ hl; exact hl
  | cons raw raws ih =>
    intro d hd hsp hl
    obtain ⟨g1, g2, g3⟩ := xtm_unpack_phase_invariant c d raw hd hsp hl
    rw [List.foldl_cons]
    exact ih _ g1 (by rw [g2]; exact hsp) g3

end pandar_xtm.PandarXTMDecoder

/-! ## The synthetic sequence through `unpack` -/

/-- A block that does not raise the phase, processed while the ready flag
is clear, sets the flag; it and all later blocks of the loop go to
overflow. -/
theorem ScanState.run_boundary (φ : Nat) (s : ScanState) (b : Nat × List PointXYZIRADT)
    (bs : List (Nat × List PointXYZIRADT)) (hb : ¬ currentPhase b.1 φ > s.last_phase_) :
    (ScanState.step φ s b).has_scanned_ = true ∧
    (ScanState.run φ s (b :: bs)).has_scanned_ = true ∧
    (ScanState.run φ s (b :: bs)).scan_pc_ = s.scan_pc_ ∧
    (ScanState.run φ s (b :: bs)).overflow_pc_
      = s.overflow_pc_ ++ ((b :: bs).map Prod.snd).flatten := by
  have hc : ¬ (currentPhase b.1 φ > s.last_phase_ ∧ s.has_scanned_ = false) := fun h => hb h.1
  have e1 : (ScanState.step φ s b).has_scanned_ = true := by
    simp only [ScanState.step, if_neg hc]
  have e2 : (ScanState.step φ s b).scan_pc_ = s.scan_pc_ := by
    simp only [ScanState.step, if_neg hc]
  have e3 : (ScanState.step φ s b).overflow_pc_ = s.overflow_pc_ ++ b.2 := by
    simp only [ScanState.step, if_neg hc]
  obtain ⟨g1, g2, g3⟩ := ScanState.run_of_ready φ bs _ e1
  rw [ScanState.run_cons]
  refine ⟨e1, g3, by rw [g1, e2], ?_⟩
  rw [g2, e3]
  simp

/-- Blocks whose azimuths rise in steps of 100 from `100 * a`, processed
with scan phase 0 while the ready flag is clear and the last phase is below
`100 * a`, are all appended to the current buffer. -/
theorem ScanState.run_ramp (pc : Nat → List PointXYZIRADT) (a : Nat) (s : ScanState)
    (hs : s.has_scanned_ = false) (hl : s.last_phase_ < 100 * (a : Int)) :
    ∀ m, 0 < m → 100 * (a + m) ≤ 36000 →
      ScanState.run 0 s ((List.range m).map (fun i => (100 * (a + i), pc i)))
        = { scan_pc_ := s.scan_pc_ ++ ((List.range m).map pc).flatten
            overflow_pc_ := s.overflow_pc_
            last_phase_ := 100 * ((a : Int) + m) - 100
            has_scanned_ := false } := by
  intro m
  induction m with
  | zero => intro h; omega
  | succ m ih =>
    intro _ hb
    rw [List.range_succ, List.map_append, ScanState.run_append, List.map_cons, List.map_nil,
      ScanState.run_cons, ScanState.run_nil]
    have hph : currentPhase (100 * (a + m)) 0 = 100 * ((a : Int) + m) := by
      rw [currentPhase_zero_of_lt _ (by omega)]
      push_cast
      ring
    by_cases hm : m = 0
    · subst hm
      have hph0 : currentPhase (100 * (a + 0)) 0 = 100 * (a : Int) := by
        rw [hph]
        simp
      have hc : currentPhase (100 * (a + 0)) 0 > s.last_phase_ ∧ s.has_scanned_ = false := by
        rw [hph0]
        exact ⟨hl, hs⟩
      simp only [List.range_zero, List.map_nil, ScanState.run_nil]
      unfold ScanState.step
      rw [if_pos hc, hph0]
      simp [hs]
      ring
    · rw [ih (by omega) (by omega)]
      have hc : currentPhase (100 * (a + m)) 0 > 100 * ((a : Int) + m) - 100
          ∧ false = false := by
        rw [hph]
        exact ⟨by omega, rfl⟩
      unfold ScanState.step
      rw [if_pos hc, hph]
      simp
      ring

/-- The block azimuths of a concatenation of block point clouds. -/
theorem flatten_block_azimuth (pc : Nat → List PointXYZIRADT) (az : Nat → Nat) (m : Nat)
    (h : ∀ i, i < m → (pc i).map (fun q => q.block_azimuth) = List.replicate 40 (az i)) :
    (((List.range m).map pc).flatten).map (fun q => q.block_azimuth)
      = (List.range m).flatMap (fun i => List.replicate 40 (az i)) := by
  rw [List.map_flatten, List.map_map, List.flatMap_def]
  congr 1
  apply List.map_congr_left
  intro i hi
  exact h i (List.mem_range.mp hi)

theorem flatMap_range_add {β : Type} (g : Nat → List β) (a b : Nat) :
    (List.range (a + b)).flatMap g
      = (List.range a).flatMap g ++ (List.range b).flatMap (fun i => g (a + i)) := by
  rw [List.range_add, List.flatMap_append, List.flatMap_map]

theorem take_eq_map_range_getD {β : Type} (l : List β) (dflt : β) :
    ∀ m, m ≤ l.length → l.take m = (List.range m).map (fun k => l.getD k dflt) := by
  intro m
  induction m with
  | zero => intro _; rfl
  | succ m ih =>
    intro hm
    have hlt : m < l.length := by omega
    rw [List.range_succ, List.map_append, ← ih (by omega), List.take_succ]
    simp [List.getD_eq_getElem?_getD, List.getElem?_eq_getElem hlt]

theorem specAzimuths_getD (k : Nat) (h : k < 360) : specAzimuths.getD k 0 = 100 * k := by
  cases k with
  | zero => rfl
  | succ k =>
    show (risingAzimuths ++ [50, 150]).getD k 0 = _
    rw [risingAzimuths_getD k (by omega)]

theorem specAzimuths_getD_360 : specAzimuths.getD 360 0 = 50 := risingAzimuths_getD_359

theorem specAzimuths_getD_361 : specAzimuths.getD 361 0 = 150 := risingAzimuths_getD_360

theorem specAzimuths_length : specAzimuths.length = 362 := by
  simp [specAzimuths, risingAzimuths]

namespace pandar40.Pandar40Decoder

/-- The return mode byte of a message of the layout is at offset 1254. -/
theorem p40_layout_return_mode (raw : PandarPacket) (packet_ : Packet) :
    (parseFields layout raw packet_).return_mode = raw.byte 1254 := by
  have h := (p40_block_loop layout raw 0 packet_.blocks layout.BLOCKS_PER_PACKET).1
  simp only [parseFields, h, raw.byte_and]
  rfl

/-- The azimuth of block `i` of a message of the layout is the little-endian
pair at offset `124 * i + 2`. -/
theorem p40_layout_azimuth (raw : PandarPacket) (packet_ : Packet) (i : Nat) (hi : i < 10) :
    ((parseFields layout raw packet_).blocks.getD i default).azimuth
      = raw.byte (124 * i + 2) + 256 * raw.byte (124 * i + 3) := by
  rw [p40_parseFields_blocks]
  have h := ((p40_block_loop layout raw 0 packet_.blocks layout.BLOCKS_PER_PACKET).2.1 i hi).1
  rw [h]
  have e : layout.SOB_ANGLE_SIZE + layout.LASER_COUNT * layout.RAW_MEASURE_SIZE = 124 := rfl
  rw [e, Nat.zero_add, Nat.mul_comm i 124]

/-- Every point of `convert` carries the azimuth of its block. -/
theorem p40_convert_block_azimuth (c : Consts) (d : Pandar40Decoder) (block_id : Nat) :
    (convert c d block_id).map (fun q => q.block_azimuth)
      = List.replicate 40 (d.packet_.blocks.getD block_id default).azimuth := by
  simp only [convert, List.map_map, Function.comp_def, build_point]
  rw [List.map_const']
  rfl

/-- A call of `unpack` on a single-return message of the layout: the lazy
swap, then the loop over the ten blocks, whose azimuths are read from the
message. -/
theorem p40_unpack_single (d : Pandar40Decoder) (raw : PandarPacket)
    (hsize : raw.size = layout.PACKET_SIZE ∨ raw.size = layout.PACKET_SIZE + layout.SEQ_NUM_SIZE)
    (hmode : raw.byte 1254 ≠ layout.DUAL_RETURN) :
    (unpack layout d raw).toScanState
      = ScanState.run d.scan_phase_ d.toScanState.enter
          ((List.range 10).map (fun i =>
            (raw.byte (124 * i + 2) + 256 * raw.byte (124 * i + 3),
             convert layout (parsePacket layout d raw).2 i))) ∧
    (unpack layout d raw).scan_phase_ = d.scan_phase_ ∧
    (parsePacket layout d raw).2.packet_.return_mode ≠ layout.DUAL_RETURN ∧
    ∀ i, i < 10 →
      ((parsePacket layout d raw).2.packet_.blocks.getD i default).azimuth
        = raw.byte (124 * i + 2) + 256 * raw.byte (124 * i + 3) := by
  have hacc : (parsePacket layout d raw).1 = true := by
    rw [p40_parsePacket_fst]
    exact decide_eq_true hsize
  have hpk := p40_parsePacket_packet layout d raw hacc
  have hrm : (parsePacket layout d raw).2.packet_.return_mode ≠ layout.DUAL_RETURN := by
    rw [hpk, p40_layout_return_mode]
    exact hmode
  have haz : ∀ i, i < 10 →
      ((parsePacket layout d raw).2.packet_.blocks.getD i default).azimuth
        = raw.byte (124 * i + 2) + 256 * raw.byte (124 * i + 3) := by
    intro i hi
    rw [hpk]
    exact p40_layout_azimuth raw d.packet_ i hi
  have hin : loopInputs layout (parsePacket layout d raw).2
      = (List.range 10).map (fun i =>
          (raw.byte (124 * i + 2) + 256 * raw.byte (124 * i + 3),
           convert layout (parsePacket layout d raw).2 i)) := by
    have hids : loopIds layout (parsePacket layout d raw).2 = List.range 10 := by
      unfold loopIds
      rw [if_neg hrm]
      decide
    unfold loopInputs
    rw [hids]
    apply List.map_congr_left
    intro i hi
    have hi' := List.mem_range.mp hi
    simp only [blockInput, blockPc, decide_eq_false hrm, haz i hi']
    rfl
  refine ⟨?_, ?_, hrm, haz⟩
  · rw [p40_unpack_accept layout d raw hacc, p40_toScanState_withScanState, hin]
  · rw [p40_unpack_accept layout d raw hacc]
    exact (p40_parsePacket_scan layout d raw).2

end pandar40.Pandar40Decoder
theorem ScanState.enter_of_not_ready (s : ScanState) (h : s.has_scanned_ = false) :
    s.enter = s := by
  simp [ScanState.enter, h]

/-- The last block of a loop fixes `last_phase_`. -/
theorem ScanState.run_last_phase (φ : Nat) (s : ScanState)
    (bs : List (Nat × List PointXYZIRADT)) (b : Nat × List PointXYZIRADT) :
    (ScanState.run φ s (bs ++ [b])).last_phase_ = currentPhase b.1 φ := by
  rw [ScanState.run_append, ScanState.run_cons, ScanState.run_nil, ScanState.step_last_phase]

/-- The first 360 entries of the synthetic sequence, each repeated for the
40 points of its block. -/
theorem specAzimuths_take_flatMap (m : Nat) (h : m ≤ 362) :
    (specAzimuths.take m).flatMap (List.replicate 40)
      = (List.range m).flatMap (fun k => List.replicate 40 (specAzimuths.getD k 0)) := by
  rw [take_eq_map_range_getD specAzimuths 0 m (by rw [specAzimuths_length]; exact h),
    List.flatMap_map]

theorem p40_specRaw_byte (p k : Nat) (hk : k < 1262) :
    (pandar40.specRaw p).byte k = (pandar40.specRawByte p k).val := by
  unfold PandarPacket.byte pandar40.specRaw
  rw [List.getD_eq_getElem?_getD, List.getElem?_map, List.getElem?_range hk]
  rfl

/-- The messages `specRaw 0`, ..., `specRaw 36` are single-return messages of
the layout that carry the synthetic azimuth sequence, ten blocks each. -/
theorem p40_specRaw_spec : ∀ p, p < 37 →
    ((pandar40.specRaw p).size = pandar40.layout.PACKET_SIZE
      ∨ (pandar40.specRaw p).size
          = pandar40.layout.PACKET_SIZE + pandar40.layout.SEQ_NUM_SIZE) ∧
    (pandar40.specRaw p).byte 1254 ≠ pandar40.layout.DUAL_RETURN ∧
    ∀ i, i < 10 → 10 * p + i < 362 →
      (pandar40.specRaw p).byte (124 * i + 2) + 256 * (pandar40.specRaw p).byte (124 * i + 3)
        = specAzimuths.getD (10 * p + i) 0 := by
  intro p hp
  refine ⟨Or.inl rfl, ?_, ?_⟩
  · have hb : pandar40.specRawByte p 1254 = 0x37 := by
      unfold pandar40.specRawByte
      rw [if_neg (by omega), if_neg (by omega), if_pos rfl]
    rw [p40_specRaw_byte p 1254 (by omega), hb]
    decide
  · intro i hi hlt
    rw [p40_specRaw_byte p _ (by omega), p40_specRaw_byte p _ (by omega)]
    have e2 : (124 * i + 2) % 124 = 2 := by omega
    have e3 : (124 * i + 3) % 124 = 3 := by omega
    have d2 : (124 * i + 2) / 124 = i := by omega
    have d3 : (124 * i + 3) / 124 = i := by omega
    have b2 : 124 * i + 2 < 1240 := by omega
    have b3 : 124 * i + 3 < 1240 := by omega
    have hA : specAzimuthAt (10 * p + i) = specAzimuths.getD (10 * p + i) 0 := by
      unfold specAzimuthAt
      by_cases h : 10 * p + i < 360
      · rw [if_pos h, specAzimuths_getD _ h]
      · rw [if_neg h]
        have : 10 * p + i = 360 ∨ 10 * p + i = 361 := by omega
        rcases this with h' | h'
        · rw [h', specAzimuths_getD_360]
        · rw [h', specAzimuths_getD_361]
    have hlt' : specAzimuthAt (10 * p + i) < 65536 := by
      unfold specAzimuthAt
      split_ifs <;> omega
    unfold pandar40.specRawByte
    rw [if_pos ⟨b2, e2⟩, if_neg (by omega), if_pos ⟨b3, e3⟩, d2, d3, ← hA]
    simp only [Fin.ofNat, Nat.reduceAdd]
    omega

/-! ## The blocks a loop of `unpack` processes -/

/-- The loop `for (id = 0; id < n; id += step)` visits 0, `step`,
`2 * step`, ... below `n`. -/
theorem blockIds_eq (n step : Nat) (hs : 0 < step) :
    blockIds n step = (List.range ((n + step - 1) / step)).map (fun j => j * step) := by
  induction n with
  | zero =>
    have : (step - 1) / step = 0 := Nat.div_eq_of_lt (by omega)
    simp [blockIds, this]
  | succ n ih =>
    have hsplit : blockIds (n + 1) step
        = blockIds n step ++ (if n % step = 0 then [n] else []) := by
      unfold blockIds
      rw [List.range_succ, List.filter_append]
      congr 1
      by_cases h : n % step = 0 <;> simp [h]
    have hdm := Nat.div_add_mod n step
    have hq : (n + step - 1) / step = n / step + (n % step + step - 1) / step := by
      have : n + step - 1 = step * (n / step) + (n % step + step - 1) := by omega
      rw [this, Nat.mul_add_div hs]
    have hq' : (n + 1 + step - 1) / step = n / step + (n % step + step) / step := by
      have : n + 1 + step - 1 = step * (n / step) + (n % step + step) := by omega
      rw [this, Nat.mul_add_div hs]
    have hmod := Nat.mod_lt n hs
    rw [hsplit, ih, hq, hq']
    by_cases h : n % step = 0
    · have e1 : (n % step + step - 1) / step = 0 := Nat.div_eq_of_lt (by omega)
      have e2 : (n % step + step) / step = 1 := by
        rw [h, Nat.zero_add, Nat.div_self hs]
      have e3 : n / step * step = n := by
        rw [Nat.mul_comm]
        omega
      rw [if_pos h, e1, e2, Nat.add_zero, List.range_succ, List.map_append, List.map_cons,
        List.map_nil, e3]
    · have e1 : (n % step + step - 1) / step = 1 :=
        Nat.div_eq_of_lt_le (by omega) (by omega)
      have e2 : (n % step + step) / step = 1 :=
        Nat.div_eq_of_lt_le (by omega) (by omega)
      rw [if_neg h, e1, e2, List.append_nil]

namespace pandar40.Pandar40Decoder

/-- The point lists of the blocks the loop of `unpack` processes: block ids
0, `step`, `2 * step`, ..., converted by `convert_dual` for a dual-return
packet and by `convert` otherwise. -/
theorem p40_loopInputs_snd (c : Consts) (d : Pandar40Decoder) :
    (loopInputs c d).map Prod.snd
      = (List.range ((c.BLOCKS_PER_PACKET
            + (if d.packet_.return_mode = c.DUAL_RETURN then 2 else 1) - 1)
            / (if d.packet_.return_mode = c.DUAL_RETURN then 2 else 1))).map
          (fun j =>
            if d.packet_.return_mode = c.DUAL_RETURN then
              convert_dual c d (j * (if d.packet_.return_mode = c.DUAL_RETURN then 2 else 1))
            else convert c d (j * (if d.packet_.return_mode = c.DUAL_RETURN then 2 else 1))) := by
  unfold loopInputs loopIds
  rw [blockIds_eq _ _ (by split_ifs <;> omega), List.map_map, List.map_map]
  apply List.map_congr_left
  intro j _
  by_cases h : d.packet_.return_mode = c.DUAL_RETURN <;>
    simp [blockInput, blockPc, h]

end pandar40.Pandar40Decoder

namespace pandar_xtm.PandarXTMDecoder

theorem xtm_stepOf_cases (c : Consts) (return_mode : Nat) :
    stepOf c return_mode = 1 ∨ stepOf c return_mode = 2 ∨ stepOf c return_mode = 3 := by
  unfold stepOf
  split_ifs <;> simp

/-- The point lists of the blocks the loop of `unpack` processes: block ids
0, `step`, `2 * step`, ..., converted by `convert`, `convert_dual` or
`convert_triple` for `step` 1, 2 or 3. -/
theorem xtm_loopInputs_snd (c : Consts) (d : PandarXTMDecoder) :
    (loopInputs c d).map Prod.snd
      = (List.range ((c.BLOCK_NUM + stepOf c d.packet_.return_mode - 1)
            / stepOf c d.packet_.return_mode)).map
          (fun j =>
            if stepOf c d.packet_.return_mode = 1 then
              convert c d (j * stepOf c d.packet_.return_mode)
            else if stepOf c d.packet_.return_mode = 2 then
              convert_dual c d (j * stepOf c d.packet_.return_mode)
            else convert_triple c d (j * stepOf c d.packet_.return_mode)) := by
  have hs := xtm_stepOf_cases c d.packet_.return_mode
  unfold loopInputs loopIds
  rw [blockIds_eq _ _ (by omega), List.map_map, List.map_map]
  apply List.map_congr_left
  intro j _
  rcases hs with h | h | h <;> simp [blockInput, blockPc, h]

end pandar_xtm.PandarXTMDecoder

/-! ## Claims -/

/-- C1. Scan-segmenter step, in both decoders: with `phase` the phase of the
processed block, the points of the block are appended to the current buffer
and the ready flag stays false exactly when `phase > last_phase_` and the
ready flag was false; otherwise the points are appended to the overflow
buffer and the ready flag becomes true. In both cases `last_phase_` becomes
`phase` and the other buffer is unchanged. -/
theorem C1_segmenter_step :
    (∀ (c : pandar40.Consts) (dual_return : Bool) (d : pandar40.Pandar40Decoder)
        (block_id : Nat),
      let block_pc := if dual_return then pandar40.Pandar40Decoder.convert_dual c d block_id
        else pandar40.Pandar40Decoder.convert c d block_id
      let phase := currentPhase (d.packet_.blocks.getD block_id default).azimuth d.scan_phase_
      let accumulate : Bool := decide (phase > d.last_phase_ ∧ d.has_scanned_ = false)
      let d2 := pandar40.Pandar40Decoder.unpackBlock c dual_return d block_id
      d2.last_phase_ = phase ∧
      d2.has_scanned_ = !accumulate ∧
      d2.scan_pc_ = (if accumulate then d.scan_pc_ ++ block_pc else d.scan_pc_) ∧
      d2.overflow_pc_ = (if accumulate then d.overflow_pc_ else d.overflow_pc_ ++ block_pc)) ∧
    (∀ (c : pandar_xtm.Consts) (step : Nat) (d : pandar_xtm.PandarXTMDecoder)
        (block_id : Nat),
      let block_pc := if step = 1 then pandar_xtm.PandarXTMDecoder.convert c d block_id
        else if step = 2 then pandar_xtm.PandarXTMDecoder.convert_dual c d block_id
        else if step = 3 then pandar_xtm.PandarXTMDecoder.convert_triple c d block_id
        else []
      let phase := currentPhase (d.packet_.blocks.getD block_id default).azimuth d.scan_phase_
      let accumulate : Bool := decide (phase > d.last_phase_ ∧ d.has_scanned_ = false)
      let d2 := pandar_xtm.PandarXTMDecoder.unpackBlock c step d block_id
      d2.last_phase_ = phase ∧
      d2.has_scanned_ = !accumulate ∧
      d2.scan_pc_ = (if accumulate then d.scan_pc_ ++ block_pc else d.scan_pc_) ∧
      d2.overflow_pc_ = (if accumulate then d.overflow_pc_ else d.overflow_pc_ ++ block_pc)) := by
  constructor
  · intro c dual_return d block_id
    have h := pandar40.Pandar40Decoder.p40_unpackBlock_withScanState c dual_return d d.toScanState
      block_id
    rw [pandar40.Pandar40Decoder.p40_withScanState_toScanState] at h
    simp only [h]
    by_cases hc : currentPhase (d.packet_.blocks.getD block_id default).azimuth d.scan_phase_
        > d.last_phase_ ∧ d.has_scanned_ = false
    · simp only [pandar40.Pandar40Decoder.withScanState, ScanState.step,
        pandar40.Pandar40Decoder.toScanState, pandar40.Pandar40Decoder.blockInput,
        pandar40.Pandar40Decoder.blockPc, if_pos hc, decide_eq_true hc]
      simp [hc.2]
    · simp only [pandar40.Pandar40Decoder.withScanState, ScanState.step,
        pandar40.Pandar40Decoder.toScanState, pandar40.Pandar40Decoder.blockInput,
        pandar40.Pandar40Decoder.blockPc, if_neg hc, decide_eq_false hc]
      simp
  · intro c step d block_id
    have h := pandar_xtm.PandarXTMDecoder.xtm_unpackBlock_withScanState c step d d.toScanState
      block_id
    rw [pandar_xtm.PandarXTMDecoder.xtm_withScanState_toScanState] at h
    simp only [h]
    by_cases hc : currentPhase (d.packet_.blocks.getD block_id default).azimuth d.scan_phase_
        > d.last_phase_ ∧ d.has_scanned_ = false
    · simp only [pandar_xtm.PandarXTMDecoder.withScanState, ScanState.step,
        pandar_xtm.PandarXTMDecoder.toScanState, pandar_xtm.PandarXTMDecoder.blockInput,
        pandar_xtm.PandarXTMDecoder.blockPc, if_pos hc, decide_eq_true hc]
      simp [hc.2]
    · simp only [pandar_xtm.PandarXTMDecoder.withScanState, ScanState.step,
        pandar_xtm.PandarXTMDecoder.toScanState, pandar_xtm.PandarXTMDecoder.blockInput,
        pandar_xtm.PandarXTMDecoder.blockPc, if_neg hc, decide_eq_false hc]
      simp

/-- C2 (as amended). From the constructed state with scan start phase 0, the
blocks with azimuths 0, 100, ..., 35900, 50, 150 are processed in that order
by `unpack`, ten blocks per single-return message (`f p` is message `p`, the
azimuths being read from its bytes). The ready flag is set already by the
first block (azimuth 0), so the first message ends with the flag set, an
empty current buffer and its ten blocks in overflow; after each of the
messages 2 to 36 the flag is clear, overflow is empty and the current buffer
holds the points of all blocks so far, in order; the block with azimuth 50
sets the flag again, and at the end the current buffer holds the points of
the blocks 0..35900 and overflow starts with the points of the blocks 50 and
150. -/
theorem C2_synthetic_sequence (f : Nat → PandarPacket) (thr : ℚ) (mode : pandar40.ReturnMode)
    (pk : pandar40.Packet)
    (hf : ∀ p, p < 37 →
      ((f p).size = pandar40.layout.PACKET_SIZE
        ∨ (f p).size = pandar40.layout.PACKET_SIZE + pandar40.layout.SEQ_NUM_SIZE) ∧
      (f p).byte 1254 ≠ pandar40.layout.DUAL_RETURN ∧
      ∀ i, i < 10 → 10 * p + i < 362 →
        (f p).byte (124 * i + 2) + 256 * (f p).byte (124 * i + 3)
          = specAzimuths.getD (10 * p + i) 0) :
    let D : Nat → pandar40.Pandar40Decoder := fun n =>
      ((List.range n).map f).foldl (pandar40.Pandar40Decoder.unpack pandar40.layout)
        (pandar40.Pandar40Decoder.init 0 thr mode pk)
    let az : List PointXYZIRADT → List Nat := fun pc => pc.map (fun q => q.block_azimuth)
    (pandar40.Pandar40Decoder.unpackBlock pandar40.layout false
        (pandar40.Pandar40Decoder.parsePacket pandar40.layout (D 0) (f 0)).2 0).has_scanned_
      = true ∧
    ((D 1).has_scanned_ = true ∧ (D 1).scan_pc_ = [] ∧
      az (D 1).overflow_pc_ = (specAzimuths.take 10).flatMap (List.replicate 40)) ∧
    (∀ n, 2 ≤ n → n ≤ 36 →
      (D n).has_scanned_ = false ∧ (D n).overflow_pc_ = [] ∧
      az (D n).scan_pc_ = (specAzimuths.take (10 * n)).flatMap (List.replicate 40)) ∧
    (pandar40.Pandar40Decoder.unpackBlock pandar40.layout false
        (pandar40.Pandar40Decoder.parsePacket pandar40.layout (D 36) (f 36)).2 0).has_scanned_
      = true ∧
    ((D 37).has_scanned_ = true ∧
      az (D 37).scan_pc_ = (specAzimuths.take 360).flatMap (List.replicate 40) ∧
      (az (D 37).overflow_pc_).take 80
        = (specAzimuths.drop 360).flatMap (List.replicate 40)) := by
  intro D az
  -- one call of `unpack` per message
  have hDs : ∀ n, D (n + 1) = pandar40.Pandar40Decoder.unpack pandar40.layout (D n) (f n) := by
    intro n
    show ((List.range (n + 1)).map f).foldl _ _ = _
    rw [List.range_succ, List.map_append, List.foldl_append]
    rfl
  have hsp : ∀ n, n ≤ 37 → (D n).scan_phase_ = 0 := by
    intro n
    induction n with
    | zero => intro _; rfl
    | succ n ih =>
      intro hn
      obtain ⟨hs, hm, -⟩ := hf n (by omega)
      rw [hDs, (pandar40.Pandar40Decoder.p40_unpack_single (D n) (f n) hs hm).2.1]
      exact ih (by omega)
  let raz : Nat → Nat → Nat := fun n i =>
    (f n).byte (124 * i + 2) + 256 * (f n).byte (124 * i + 3)
  let pc : Nat → Nat → List PointXYZIRADT := fun n i =>
    pandar40.Pandar40Decoder.convert pandar40.layout
      (pandar40.Pandar40Decoder.parsePacket pandar40.layout (D n) (f n)).2 i
  let G : Nat → List Nat := fun m =>
    (List.range m).flatMap (fun k => List.replicate 40 (specAzimuths.getD k 0))
  have hrun : ∀ n, n < 37 → (D (n + 1)).toScanState
      = ScanState.run 0 (D n).toScanState.enter
          ((List.range 10).map (fun i => (raz n i, pc n i))) := by
    intro n hn
    obtain ⟨hs, hm, -⟩ := hf n hn
    rw [hDs, (pandar40.Pandar40Decoder.p40_unpack_single (D n) (f n) hs hm).1, hsp n (by omega)]
  have hpc : ∀ n, n < 37 → ∀ i, i < 10 → az (pc n i) = List.replicate 40 (raz n i) := by
    intro n hn i hi
    obtain ⟨hs, hm, -⟩ := hf n hn
    show (pandar40.Pandar40Decoder.convert _ _ i).map _ = _
    rw [pandar40.Pandar40Decoder.p40_convert_block_azimuth,
      (pandar40.Pandar40Decoder.p40_unpack_single (D n) (f n) hs hm).2.2.2 i hi]
  have hraz : ∀ n, n < 36 → ∀ i, i < 10 → raz n i = 100 * (10 * n + i) := by
    intro n hn i hi
    rw [← specAzimuths_getD (10 * n + i) (by omega)]
    exact (hf n (by omega)).2.2 i hi (by omega)
  have hramp : ∀ n, n < 36 →
      (List.range 10).map (fun i => (raz n i, pc n i))
        = (List.range 10).map (fun i => (100 * (10 * n + i), pc n i)) := by
    intro n hn
    apply List.map_congr_left
    intro i hi
    rw [hraz n hn i (List.mem_range.mp hi)]
  have hsplit : ∀ g : Nat → Nat × List PointXYZIRADT,
      (List.range 10).map g = g 0 :: (List.range' 1 9).map g := fun _ => rfl
  have hazs : ∀ n, n < 37 →
      az ((((List.range 10).map (fun i => (raz n i, pc n i))).map Prod.snd).flatten)
        = (List.range 10).flatMap (fun i => List.replicate 40 (raz n i)) := by
    intro n hn
    rw [List.map_map]
    exact flatten_block_azimuth (pc n) (raz n) 10 (hpc n hn)
  have hGstep : ∀ n, n < 36 →
      G (10 * n) ++ (List.range 10).flatMap (fun i => List.replicate 40 (raz n i))
        = G (10 * (n + 1)) := by
    intro n hn
    show _ = (List.range (10 * (n + 1))).flatMap _
    rw [show 10 * (n + 1) = 10 * n + 10 by ring, flatMap_range_add]
    congr 1
    apply List.flatMap_congr
    intro i hi
    rw [hraz n hn i (List.mem_range.mp hi), specAzimuths_getD _ (by
      have := List.mem_range.mp hi
      omega)]
  -- the first message
  have h0 : (D 0).toScanState.enter = ScanState.init := rfl
  have hb0 : ¬ currentPhase (raz 0 0) 0 > ScanState.init.last_phase_ := by
    rw [hraz 0 (by omega) 0 (by omega)]
    decide
  have hfirst := ScanState.run_boundary 0 ScanState.init (raz 0 0, pc 0 0)
    ((List.range' 1 9).map (fun i => (raz 0 i, pc 0 i))) hb0
  rw [← hsplit (fun i => (raz 0 i, pc 0 i)), ← h0, ← hrun 0 (by omega)] at hfirst
  have hlast1 : (D 1).toScanState.last_phase_ = 900 := by
    rw [hrun 0 (by omega), hramp 0 (by omega), List.range_succ, List.map_append, List.map_cons,
      List.map_nil, ScanState.run_last_phase]
    show currentPhase (100 * (10 * 0 + 9)) 0 = 900
    decide
  -- the state at the start of the loop of message `n + 1`, for `1 ≤ n ≤ 36`
  have hP : ∀ n, 1 ≤ n → n ≤ 36 →
      (D n).toScanState.enter.has_scanned_ = false ∧
      (D n).toScanState.enter.overflow_pc_ = [] ∧
      (D n).toScanState.enter.last_phase_ = 1000 * (n : Int) - 100 ∧
      az (D n).toScanState.enter.scan_pc_ = G (10 * n) ∧
      (2 ≤ n → (D n).toScanState.enter = (D n).toScanState) := by
    intro n hn
    induction n, hn using Nat.le_induction with
    | base =>
      intro _
      refine ⟨ScanState.enter_has_scanned _, ScanState.enter_overflow_pc _ (Or.inl hfirst.2.1),
        ?_, ?_, fun h => absurd h (by omega)⟩
      · rw [ScanState.enter_last_phase, hlast1]
        norm_num
      · rw [ScanState.enter_scan_pc, hfirst.2.1, if_pos rfl, hfirst.2.2.2]
        show az ([] ++ _) = _
        rw [List.nil_append, hazs 0 (by omega)]
        have := hGstep 0 (by omega)
        simpa [G] using this
    | succ n hn ih =>
      intro hn36
      obtain ⟨p1, p2, p3, p4, -⟩ := ih (by omega)
      have hr := ScanState.run_ramp (pc n) (10 * n) (D n).toScanState.enter p1
        (by rw [p3]; push_cast; omega) 10 (by omega) (by omega)
      rw [← hramp n (by omega), ← hrun n (by omega)] at hr
      have hflag : (D (n + 1)).toScanState.has_scanned_ = false := by rw [hr]
      have he := ScanState.enter_of_not_ready _ hflag
      rw [he]
      refine ⟨hflag, by rw [hr]; exact p2, ?_, ?_, fun _ => rfl⟩
      · rw [hr]
        push_cast
        ring
      · rw [hr]
        show az (_ ++ _) = _
        have e1 : az ((D n).toScanState.enter.scan_pc_ ++ ((List.range 10).map (pc n)).flatten)
            = az (D n).toScanState.enter.scan_pc_ ++ az (((List.range 10).map (pc n)).flatten) :=
          List.map_append _ _ _
        rw [e1, p4, ← hGstep n (by omega)]
        congr 1
        exact flatten_block_azimuth (pc n) (raz n) 10 (hpc n (by omega))
  -- the last message
  obtain ⟨q1, q2, q3, q4, q5⟩ := hP 36 (by omega) (by omega)
  have hr36 : raz 36 0 = 50 := by
    rw [← specAzimuths_getD_360]
    exact (hf 36 (by omega)).2.2 0 (by omega) (by omega)
  have hr36' : raz 36 1 = 150 := by
    rw [← specAzimuths_getD_361]
    exact (hf 36 (by omega)).2.2 1 (by omega) (by omega)
  have hb36 : ¬ currentPhase (raz 36 0) 0 > (D 36).toScanState.enter.last_phase_ := by
    rw [hr36, q3]
    decide
  have hlastm := ScanState.run_boundary 0 (D 36).toScanState.enter (raz 36 0, pc 36 0)
    ((List.range' 1 9).map (fun i => (raz 36 i, pc 36 i))) hb36
  rw [← hsplit (fun i => (raz 36 i, pc 36 i)), ← hrun 36 (by omega)] at hlastm
  -- the first pass of a loop, as a step on the segmenter variables
  have hpass : ∀ n, n < 37 →
      (pandar40.Pandar40Decoder.unpackBlock pandar40.layout false
        (pandar40.Pandar40Decoder.parsePacket pandar40.layout (D n) (f n)).2 0).has_scanned_
      = (ScanState.step 0 (D n).toScanState (raz n 0, pc n 0)).has_scanned_ := by
    intro n hn
    obtain ⟨hs, hm, -⟩ := hf n hn
    have hscan := pandar40.Pandar40Decoder.p40_parsePacket_scan pandar40.layout (D n) (f n)
    have hsingle := pandar40.Pandar40Decoder.p40_unpack_single (D n) (f n) hs hm
    have hw := pandar40.Pandar40Decoder.p40_unpackBlock_withScanState pandar40.layout false
      (pandar40.Pandar40Decoder.parsePacket pandar40.layout (D n) (f n)).2
      (pandar40.Pandar40Decoder.parsePacket pandar40.layout (D n) (f n)).2.toScanState 0
    rw [pandar40.Pandar40Decoder.p40_withScanState_toScanState] at hw
    rw [hw, pandar40.Pandar40Decoder.p40_withScanState_has_scanned, hscan.1, hscan.2,
      hsp n (by omega)]
    have hin : pandar40.Pandar40Decoder.blockInput pandar40.layout false
        (pandar40.Pandar40Decoder.parsePacket pandar40.layout (D n) (f n)).2 0
        = (raz n 0, pc n 0) := by
      simp only [pandar40.Pandar40Decoder.blockInput, pandar40.Pandar40Decoder.blockPc,
        hsingle.2.2.2 0 (by omega)]
      rfl
    rw [hin]
  refine ⟨?_, ⟨hfirst.2.1, hfirst.2.2.1, ?_⟩, ?_, ?_, ⟨hlastm.2.1, ?_, ?_⟩⟩
  · rw [hpass 0 (by omega)]
    exact (ScanState.run_boundary 0 ScanState.init (raz 0 0, pc 0 0) [] hb0).1
  · show az (D 1).toScanState.overflow_pc_ = _
    rw [hfirst.2.2.2, specAzimuths_take_flatMap 10 (by omega)]
    show az ([] ++ _) = _
    rw [List.nil_append, hazs 0 (by omega)]
    have := hGstep 0 (by omega)
    simpa [G] using this
  · intro n hn2 hn36
    obtain ⟨p1, p2, -, p4, p5⟩ := hP n (by omega) hn36
    rw [p5 hn2] at p1 p2 p4
    exact ⟨p1, p2, by rw [specAzimuths_take_flatMap (10 * n) (by omega)]; exact p4⟩
  · rw [hpass 36 (by omega), ← q5 (by omega)]
    exact (ScanState.run_boundary 0 _ (raz 36 0, pc 36 0) [] hb36).1
  · show az (D 37).toScanState.scan_pc_ = _
    rw [hlastm.2.2.1, q4, specAzimuths_take_flatMap 360 (by omega)]
  · show (az (D 37).toScanState.overflow_pc_).take 80 = _
    rw [hlastm.2.2.2, q2, List.nil_append, hazs 36 (by omega),
      show (10 : Nat) = 2 + 8 from rfl, flatMap_range_add]
    have h2 : (List.range 2).flatMap (fun i => List.replicate 40 (raz 36 i))
        = List.replicate 40 50 ++ List.replicate 40 150 := by
      rw [show List.range 2 = [0, 1] from rfl]
      simp only [List.flatMap_cons, List.flatMap_nil, List.append_nil, hr36, hr36']
    rw [h2, List.take_left' (by simp)]
    rfl

theorem C2_synthetic_sequence_witness :
    (∀ p, p < 37 →
      ((pandar40.specRaw p).size = pandar40.layout.PACKET_SIZE
        ∨ (pandar40.specRaw p).size
            = pandar40.layout.PACKET_SIZE + pandar40.layout.SEQ_NUM_SIZE) ∧
      (pandar40.specRaw p).byte 1254 ≠ pandar40.layout.DUAL_RETURN ∧
      ∀ i, i < 10 → 10 * p + i < 362 →
        (pandar40.specRaw p).byte (124 * i + 2) + 256 * (pandar40.specRaw p).byte (124 * i + 3)
          = specAzimuths.getD (10 * p + i) 0) ∧
    (let D : Nat → pandar40.Pandar40Decoder := fun n =>
      ((List.range n).map pandar40.specRaw).foldl
        (pandar40.Pandar40Decoder.unpack pandar40.layout)
        (pandar40.Pandar40Decoder.init 0 (roundDouble (1 / 10)) pandar40.ReturnMode.STRONGEST
          specPacket)
    let az : List PointXYZIRADT → List Nat := fun pc => pc.map (fun q => q.block_azimuth)
    (pandar40.Pandar40Decoder.unpackBlock pandar40.layout false
        (pandar40.Pandar40Decoder.parsePacket pandar40.layout (D 0)
          (pandar40.specRaw 0)).2 0).has_scanned_
      = true ∧
    ((D 1).has_scanned_ = true ∧ (D 1).scan_pc_ = [] ∧
      az (D 1).overflow_pc_ = (specAzimuths.take 10).flatMap (List.replicate 40)) ∧
    (∀ n, 2 ≤ n → n ≤ 36 →
      (D n).has_scanned_ = false ∧ (D n).overflow_pc_ = [] ∧
      az (D n).scan_pc_ = (specAzimuths.take (10 * n)).flatMap (List.replicate 40)) ∧
    (pandar40.Pandar40Decoder.unpackBlock pandar40.layout false
        (pandar40.Pandar40Decoder.parsePacket pandar40.layout (D 36)
          (pandar40.specRaw 36)).2 0).has_scanned_
      = true ∧
    ((D 37).has_scanned_ = true ∧
      az (D 37).scan_pc_ = (specAzimuths.take 360).flatMap (List.replicate 40) ∧
      (az (D 37).overflow_pc_).take 80
        = (specAzimuths.drop 360).flatMap (List.replicate 40))) :=
  ⟨p40_specRaw_spec, C2_synthetic_sequence pandar40.specRaw (roundDouble (1 / 10))
    pandar40.ReturnMode.STRONGEST specPacket p40_specRaw_spec⟩

/-- C2 (as stated) fails: the first block of the sequence (azimuth 0) already
sets the ready flag and is appended to overflow, not to the current buffer;
after `unpack` of the first message the flag is set and the current buffer
is empty. -/
theorem C2_counterexample :
    (specDecoder.packet_.blocks.getD 0 default).azimuth = 0 ∧
    (pandar40.Pandar40Decoder.unpackBlock pandar40.layout false specDecoder 0).has_scanned_
      = true ∧
    (pandar40.Pandar40Decoder.unpackBlock pandar40.layout false specDecoder 0).scan_pc_ = [] ∧
    (pandar40.Pandar40Decoder.unpackBlock pandar40.layout false specDecoder 0).overflow_pc_
      = pandar40.Pandar40Decoder.convert pandar40.layout specDecoder 0 ∧
    (pandar40.Pandar40Decoder.convert pandar40.layout specDecoder 0).length = 40 ∧
    (pandar40.Pandar40Decoder.unpack pandar40.layout specDecoder
      (pandar40.specRaw 0)).has_scanned_ = true ∧
    (pandar40.Pandar40Decoder.unpack pandar40.layout specDecoder
      (pandar40.specRaw 0)).scan_pc_ = [] ∧
    (pandar40.Pandar40Decoder.unpack pandar40.layout specDecoder
      (pandar40.specRaw 0)).overflow_pc_.length = 400 := by
  refine ⟨rfl, ?_, ?_, ?_, ?_, ?_, ?_, ?_⟩
  · decide
  · decide
  · rfl
  · rfl
  · decide!
  · decide!
  · decide!

/-- C3. Lazy buffer swap, in both decoders: when the packet parses, `unpack`
is the block loop started from the entry state, which for a set ready flag
has the old overflow buffer as current buffer, an empty overflow buffer and
a cleared flag, and otherwise has both buffers as they were; with the flag
set the result does not depend on the old current buffer. -/
theorem C3_lazy_swap :
    (∀ (c : pandar40.Consts) (d : pandar40.Pandar40Decoder) (raw : PandarPacket),
      (pandar40.Pandar40Decoder.parsePacket c d raw).1 = true →
      let p := (pandar40.Pandar40Decoder.parsePacket c d raw).2
      let entry : ScanState :=
        if d.has_scanned_ then
          { scan_pc_ := d.overflow_pc_, overflow_pc_ := [], last_phase_ := d.last_phase_,
            has_scanned_ := false }
        else
          { scan_pc_ := d.scan_pc_, overflow_pc_ := d.overflow_pc_,
            last_phase_ := d.last_phase_, has_scanned_ := false }
      pandar40.Pandar40Decoder.unpack c d raw
        = p.withScanState (ScanState.run d.scan_phase_ entry
            (pandar40.Pandar40Decoder.loopInputs c p)) ∧
      (d.has_scanned_ = true → ∀ pc : List PointXYZIRADT,
        pandar40.Pandar40Decoder.unpack c { d with scan_pc_ := pc } raw
          = pandar40.Pandar40Decoder.unpack c d raw)) ∧
    (∀ (c : pandar_xtm.Consts) (d : pandar_xtm.PandarXTMDecoder) (raw : PandarPacket),
      (pandar_xtm.PandarXTMDecoder.parsePacket c d raw).1 = true →
      let p := (pandar_xtm.PandarXTMDecoder.parsePacket c d raw).2
      let entry : ScanState :=
        if d.has_scanned_ then
          { scan_pc_ := d.overflow_pc_, overflow_pc_ := [], last_phase_ := d.last_phase_,
            has_scanned_ := false }
        else
          { scan_pc_ := d.scan_pc_, overflow_pc_ := d.overflow_pc_,
            last_phase_ := d.last_phase_, has_scanned_ := false }
      pandar_xtm.PandarXTMDecoder.unpack c d raw
        = p.withScanState (ScanState.run d.scan_phase_ entry
            (pandar_xtm.PandarXTMDecoder.loopInputs c p)) ∧
      (d.has_scanned_ = true → ∀ pc : List PointXYZIRADT,
        pandar_xtm.PandarXTMDecoder.unpack c { d with scan_pc_ := pc } raw
          = pandar_xtm.PandarXTMDecoder.unpack c d raw)) := by
  constructor
  · intro c d raw h p entry
    have hentry : d.toScanState.enter = entry := by
      obtain ⟨rm, thr, pk, sc, ov, ph, lp, hs⟩ := d
      cases hs <;> rfl
    refine ⟨?_, ?_⟩
    · rw [pandar40.Pandar40Decoder.p40_unpack_accept c d raw h, hentry]
    · intro hs pc
      have h2 : (pandar40.Pandar40Decoder.parsePacket c { d with scan_pc_ := pc } raw).1
          = true := by
        rw [pandar40.Pandar40Decoder.p40_parsePacket_fst] at h ⊢
        exact h
      rw [pandar40.Pandar40Decoder.p40_unpack_accept c d raw h,
        pandar40.Pandar40Decoder.p40_unpack_accept c _ raw h2,
        pandar40.Pandar40Decoder.p40_parsePacket_accept c d raw h,
        pandar40.Pandar40Decoder.p40_parsePacket_accept c _ raw h2]
      simp only [pandar40.Pandar40Decoder.toScanState, ScanState.enter, hs, if_true]
      rfl
  · intro c d raw h p entry
    have hentry : d.toScanState.enter = entry := by
      obtain ⟨rm, pk, sc, ov, ph, lp, hs⟩ := d
      cases hs <;> rfl
    refine ⟨?_, ?_⟩
    · rw [pandar_xtm.PandarXTMDecoder.xtm_unpack_accept c d raw h, hentry]
    · intro hs pc
      have h2 : (pandar_xtm.PandarXTMDecoder.parsePacket c { d with scan_pc_ := pc } raw).1
          = true := by
        rw [pandar_xtm.PandarXTMDecoder.xtm_parsePacket_fst] at h ⊢
        exact h
      rw [pandar_xtm.PandarXTMDecoder.xtm_unpack_accept c d raw h,
        pandar_xtm.PandarXTMDecoder.xtm_unpack_accept c _ raw h2,
        pandar_xtm.PandarXTMDecoder.xtm_parsePacket_accept c d raw h,
        pandar_xtm.PandarXTMDecoder.xtm_parsePacket_accept c _ raw h2]
      simp only [pandar_xtm.PandarXTMDecoder.toScanState, ScanState.enter, hs, if_true]
      rfl

theorem C3_lazy_swap_witness :
    (pandar40.Pandar40Decoder.parsePacket pandar40.layout pandar40.readyDecoder
      pandar40.zeroRaw).1 = true ∧
    pandar40.readyDecoder.has_scanned_ = true ∧
    pandar40.Pandar40Decoder.unpack pandar40.layout
        { pandar40.readyDecoder with scan_pc_ := [] } pandar40.zeroRaw
      = pandar40.Pandar40Decoder.unpack pandar40.layout pandar40.readyDecoder
          pandar40.zeroRaw ∧
    (pandar_xtm.PandarXTMDecoder.parsePacket pandar_xtm.layout pandar_xtm.readyDecoder
      pandar_xtm.goodRaw).1 = true ∧
    pandar_xtm.PandarXTMDecoder.unpack pandar_xtm.layout
        { pandar_xtm.readyDecoder with scan_pc_ := [] } pandar_xtm.goodRaw
      = pandar_xtm.PandarXTMDecoder.unpack pandar_xtm.layout pandar_xtm.readyDecoder
          pandar_xtm.goodRaw :=
  ⟨by decide, rfl,
   (C3_lazy_swap.1 pandar40.layout pandar40.readyDecoder pandar40.zeroRaw (by decide)).2 rfl [],
   by decide,
   (C3_lazy_swap.2 pandar_xtm.layout pandar_xtm.readyDecoder pandar_xtm.goodRaw
      (by decide)).2 rfl []⟩


/-- C4. Completed scan is readable between boundary detection and the next
packet, in both decoders: when `unpack` of a packet that parses returns with
`hasScanned()` true there is a boundary block, at position `k` of the
processed blocks; `getPointcloud()` is the buffer carried into the call
followed by the points of the blocks before `k`, and the points of block
`k` and of all later blocks are in the overflow buffer. Rejected packets
afterwards change neither `getPointcloud()` nor `hasScanned()`. -/
theorem C4_scan_readable :
    (∀ (c : pandar40.Consts) (d : pandar40.Pandar40Decoder) (raw : PandarPacket),
      (pandar40.Pandar40Decoder.parsePacket c d raw).1 = true →
      (pandar40.Pandar40Decoder.unpack c d raw).hasScanned = true →
      let r := pandar40.Pandar40Decoder.unpack c d raw
      let entry := d.toScanState.enter
      let bs := pandar40.Pandar40Decoder.loopInputs c
        (pandar40.Pandar40Decoder.parsePacket c d raw).2
      ∃ k, k < bs.length ∧
        r.getPointcloud = entry.scan_pc_ ++ ((bs.take k).map Prod.snd).flatten ∧
        r.overflow_pc_ = entry.overflow_pc_ ++ ((bs.drop k).map Prod.snd).flatten ∧
        (ScanState.run d.scan_phase_ entry (bs.take k)).has_scanned_ = false ∧
        (ScanState.run d.scan_phase_ entry (bs.take (k + 1))).has_scanned_ = true) ∧
    (∀ (c : pandar40.Consts) (r : pandar40.Pandar40Decoder) (raws : List PandarPacket),
      (∀ raw ∈ raws, (pandar40.Pandar40Decoder.parsePacket c r raw).1 = false) →
      (raws.foldl (pandar40.Pandar40Decoder.unpack c) r).getPointcloud = r.getPointcloud ∧
      (raws.foldl (pandar40.Pandar40Decoder.unpack c) r).hasScanned = r.hasScanned) ∧
    (∀ (c : pandar_xtm.Consts) (d : pandar_xtm.PandarXTMDecoder) (raw : PandarPacket),
      (pandar_xtm.PandarXTMDecoder.parsePacket c d raw).1 = true →
      (pandar_xtm.PandarXTMDecoder.unpack c d raw).hasScanned = true →
      let r := pandar_xtm.PandarXTMDecoder.unpack c d raw
      let entry := d.toScanState.enter
      let bs := pandar_xtm.PandarXTMDecoder.loopInputs c
        (pandar_xtm.PandarXTMDecoder.parsePacket c d raw).2
      ∃ k, k < bs.length ∧
        r.getPointcloud = entry.scan_pc_ ++ ((bs.take k).map Prod.snd).flatten ∧
        r.overflow_pc_ = entry.overflow_pc_ ++ ((bs.drop k).map Prod.snd).flatten ∧
        (ScanState.run d.scan_phase_ entry (bs.take k)).has_scanned_ = false ∧
        (ScanState.run d.scan_phase_ entry (bs.take (k + 1))).has_scanned_ = true) ∧
    (∀ (c : pandar_xtm.Consts) (r : pandar_xtm.PandarXTMDecoder) (raws : List PandarPacket),
      (∀ raw ∈ raws, (pandar_xtm.PandarXTMDecoder.parsePacket c r raw).1 = false) →
      (raws.foldl (pandar_xtm.PandarXTMDecoder.unpack c) r).getPointcloud = r.getPointcloud ∧
      (raws.foldl (pandar_xtm.PandarXTMDecoder.unpack c) r).hasScanned = r.hasScanned) := by
  refine ⟨?_, ?_, ?_, ?_⟩
  · intro c d raw h hr r entry bs
    have hu := pandar40.Pandar40Decoder.p40_unpack_accept c d raw h
    obtain ⟨k, -, g1, g2, g3, g4, g5⟩ := ScanState.run_split d.scan_phase_ bs entry
    have he : entry.has_scanned_ = false := ScanState.enter_has_scanned _
    have hr2 : (ScanState.run d.scan_phase_ entry bs).has_scanned_ = true := by
      have : r.has_scanned_ = true := hr
      simpa [r, hu] using this
    have hk := g5 hr2 he
    refine ⟨k, hk, ?_, ?_, ?_, g4 hk⟩
    · show r.scan_pc_ = _
      simp only [r, hu, pandar40.Pandar40Decoder.p40_withScanState_scan_pc]
      exact g1
    · simp only [r, hu, pandar40.Pandar40Decoder.p40_withScanState_overflow_pc]
      exact g2
    · rw [g3, he]
  · intro c r raws h
    rw [pandar40.Pandar40Decoder.p40_foldl_unpack_reject c raws r h]
    exact ⟨rfl, rfl⟩
  · intro c d raw h hr r entry bs
    have hu := pandar_xtm.PandarXTMDecoder.xtm_unpack_accept c d raw h
    obtain ⟨k, -, g1, g2, g3, g4, g5⟩ := ScanState.run_split d.scan_phase_ bs entry
    have he : entry.has_scanned_ = false := ScanState.enter_has_scanned _
    have hr2 : (ScanState.run d.scan_phase_ entry bs).has_scanned_ = true := by
      have : r.has_scanned_ = true := hr
      simpa [r, hu] using this
    have hk := g5 hr2 he
    refine ⟨k, hk, ?_, ?_, ?_, g4 hk⟩
    · show r.scan_pc_ = _
      simp only [r, hu, pandar_xtm.PandarXTMDecoder.xtm_withScanState_scan_pc]
      exact g1
    · simp only [r, hu, pandar_xtm.PandarXTMDecoder.xtm_withScanState_overflow_pc]
      exact g2
    · rw [g3, he]
  · intro c r raws h
    have := pandar_xtm.PandarXTMDecoder.xtm_foldl_unpack_reject c raws r h
    exact ⟨congrArg ScanState.scan_pc_ this, congrArg ScanState.has_scanned_ this⟩


theorem C4_scan_readable_witness :
    (pandar40.Pandar40Decoder.parsePacket pandar40.layout pandar40.readyDecoder
      pandar40.zeroRaw).1 = true ∧
    (pandar40.Pandar40Decoder.unpack pandar40.layout pandar40.readyDecoder
      pandar40.zeroRaw).hasScanned = true ∧
    (∃ k, k < (pandar40.Pandar40Decoder.loopInputs pandar40.layout
          (pandar40.Pandar40Decoder.parsePacket pandar40.layout pandar40.readyDecoder
            pandar40.zeroRaw).2).length ∧
      (pandar40.Pandar40Decoder.unpack pandar40.layout pandar40.readyDecoder
          pandar40.zeroRaw).getPointcloud
        = pandar40.readyDecoder.toScanState.enter.scan_pc_
          ++ (((pandar40.Pandar40Decoder.loopInputs pandar40.layout
            (pandar40.Pandar40Decoder.parsePacket pandar40.layout pandar40.readyDecoder
              pandar40.zeroRaw).2).take k).map Prod.snd).flatten) ∧
    (pandar_xtm.PandarXTMDecoder.parsePacket pandar_xtm.layout pandar_xtm.readyDecoder
      pandar_xtm.shortRaw).1 = false ∧
    ([pandar_xtm.shortRaw].foldl (pandar_xtm.PandarXTMDecoder.unpack pandar_xtm.layout)
      pandar_xtm.readyDecoder).getPointcloud = pandar_xtm.readyDecoder.getPointcloud :=
  have h1 : (pandar40.Pandar40Decoder.parsePacket pandar40.layout pandar40.readyDecoder
      pandar40.zeroRaw).1 = true := by decide
  have h2 : (pandar40.Pandar40Decoder.unpack pandar40.layout pandar40.readyDecoder
      pandar40.zeroRaw).hasScanned = true := by decide!
  have h3 : (pandar_xtm.PandarXTMDecoder.parsePacket pandar_xtm.layout pandar_xtm.readyDecoder
      pandar_xtm.shortRaw).1 = false := by decide
  ⟨h1, h2,
   (C4_scan_readable.1 pandar40.layout pandar40.readyDecoder pandar40.zeroRaw h1 h2).imp
     (fun _ hk => ⟨hk.1, hk.2.1⟩),
   h3,
   (C4_scan_readable.2.2.2 pandar_xtm.layout pandar_xtm.readyDecoder [pandar_xtm.shortRaw]
     (by intro raw hraw; rw [List.mem_singleton.mp hraw]; exact h3)).1⟩

/-- C5. Parse failure is not a scan event, in both decoders: when
`parsePacket` returns false, `unpack` leaves `last_phase_`, the ready flag,
the current buffer and the overflow buffer as they were. -/
theorem C5_parse_failure_keeps_scan_state :
    (∀ (c : pandar40.Consts) (d : pandar40.Pandar40Decoder) (raw : PandarPacket),
      (pandar40.Pandar40Decoder.parsePacket c d raw).1 = false →
      (pandar40.Pandar40Decoder.unpack c d raw).last_phase_ = d.last_phase_ ∧
      (pandar40.Pandar40Decoder.unpack c d raw).has_scanned_ = d.has_scanned_ ∧
      (pandar40.Pandar40Decoder.unpack c d raw).scan_pc_ = d.scan_pc_ ∧
      (pandar40.Pandar40Decoder.unpack c d raw).overflow_pc_ = d.overflow_pc_) ∧
    (∀ (c : pandar_xtm.Consts) (d : pandar_xtm.PandarXTMDecoder) (raw : PandarPacket),
      (pandar_xtm.PandarXTMDecoder.parsePacket c d raw).1 = false →
      (pandar_xtm.PandarXTMDecoder.unpack c d raw).last_phase_ = d.last_phase_ ∧
      (pandar_xtm.PandarXTMDecoder.unpack c d raw).has_scanned_ = d.has_scanned_ ∧
      (pandar_xtm.PandarXTMDecoder.unpack c d raw).scan_pc_ = d.scan_pc_ ∧
      (pandar_xtm.PandarXTMDecoder.unpack c d raw).overflow_pc_ = d.overflow_pc_) := by
  constructor
  · intro c d raw h
    rw [pandar40.Pandar40Decoder.p40_unpack_reject c d raw h]
    exact ⟨rfl, rfl, rfl, rfl⟩
  · intro c d raw h
    rw [pandar_xtm.PandarXTMDecoder.xtm_unpack_reject c d raw h]
    have hs := (pandar_xtm.PandarXTMDecoder.xtm_parsePacket_scan c d raw).1
    exact ⟨congrArg ScanState.last_phase_ hs, congrArg ScanState.has_scanned_ hs,
      congrArg ScanState.scan_pc_ hs, congrArg ScanState.overflow_pc_ hs⟩

theorem C5_parse_failure_keeps_scan_state_witness :
    (pandar40.Pandar40Decoder.parsePacket pandar40.layout pandar40.readyDecoder
      pandar40.shortRaw).1 = false ∧
    (pandar40.Pandar40Decoder.unpack pandar40.layout pandar40.readyDecoder
      pandar40.shortRaw).scan_pc_ = pandar40.readyDecoder.scan_pc_ ∧
    (pandar_xtm.PandarXTMDecoder.parsePacket pandar_xtm.layout pandar_xtm.readyDecoder
      pandar_xtm.badMagicRaw).1 = false ∧
    (pandar_xtm.PandarXTMDecoder.unpack pandar_xtm.layout pandar_xtm.readyDecoder
      pandar_xtm.badMagicRaw).has_scanned_ = pandar_xtm.readyDecoder.has_scanned_ :=
  have h1 : (pandar40.Pandar40Decoder.parsePacket pandar40.layout pandar40.readyDecoder
      pandar40.shortRaw).1 = false := by decide
  have h2 : (pandar_xtm.PandarXTMDecoder.parsePacket pandar_xtm.layout pandar_xtm.readyDecoder
      pandar_xtm.badMagicRaw).1 = false := by decide
  ⟨h1, (C5_parse_failure_keeps_scan_state.1 pandar40.layout pandar40.readyDecoder
      pandar40.shortRaw h1).2.2.1,
   h2, (C5_parse_failure_keeps_scan_state.2 pandar_xtm.layout pandar_xtm.readyDecoder
      pandar_xtm.badMagicRaw h2).2.1⟩


/-- C6 (as amended). A packet rejected for its length changes no field of
either decoder. A PandarXTM packet of the right length rejected for its
start marker overwrites the header fields of the stored packet with the
header bytes of the message and changes nothing else. -/
theorem C6_rejected_packet_state :
    (∀ (c : pandar40.Consts) (d : pandar40.Pandar40Decoder) (raw : PandarPacket),
      (pandar40.Pandar40Decoder.parsePacket c d raw).1 = false →
      (pandar40.Pandar40Decoder.parsePacket c d raw).2 = d ∧
      pandar40.Pandar40Decoder.unpack c d raw = d) ∧
    (∀ (c : pandar_xtm.Consts) (d : pandar_xtm.PandarXTMDecoder) (raw : PandarPacket),
      raw.size ≠ c.PACKET_SIZE →
      pandar_xtm.PandarXTMDecoder.parsePacket c d raw = (false, d) ∧
      pandar_xtm.PandarXTMDecoder.unpack c d raw = d) ∧
    (∀ (c : pandar_xtm.Consts) (d : pandar_xtm.PandarXTMDecoder) (raw : PandarPacket),
      raw.size = c.PACKET_SIZE → (raw.byte 0 ≠ 0xEE ∨ raw.byte 1 ≠ 0xFF) →
      pandar_xtm.PandarXTMDecoder.parsePacket c d raw
        = (false, { d with packet_ :=
            { d.packet_ with header := pandar_xtm.PandarXTMDecoder.parseHeader raw } }) ∧
      pandar_xtm.PandarXTMDecoder.unpack c d raw
        = { d with packet_ :=
            { d.packet_ with header := pandar_xtm.PandarXTMDecoder.parseHeader raw } }) := by
  refine ⟨?_, ?_, ?_⟩
  · intro c d raw h
    exact ⟨pandar40.Pandar40Decoder.p40_parsePacket_reject c d raw h,
      pandar40.Pandar40Decoder.p40_unpack_reject c d raw h⟩
  · intro c d raw h
    have hp : pandar_xtm.PandarXTMDecoder.parsePacket c d raw = (false, d) := by
      rw [pandar_xtm.PandarXTMDecoder.xtm_parsePacket_cases, if_pos h]
    refine ⟨hp, ?_⟩
    rw [pandar_xtm.PandarXTMDecoder.xtm_unpack_reject c d raw (by rw [hp]), hp]
  · intro c d raw h hm
    have hsob : (pandar_xtm.PandarXTMDecoder.parseHeader raw).sob ≠ 0xEEFF := by
      rw [pandar_xtm.PandarXTMDecoder.xtm_parseHeader_sob]
      have h0 := raw.byte_lt 0
      have h1 := raw.byte_lt 1
      omega
    have hp : pandar_xtm.PandarXTMDecoder.parsePacket c d raw
        = (false, { d with packet_ :=
            { d.packet_ with header := pandar_xtm.PandarXTMDecoder.parseHeader raw } }) := by
      rw [pandar_xtm.PandarXTMDecoder.xtm_parsePacket_cases, if_neg (by simpa using h),
        if_pos hsob]
    refine ⟨hp, ?_⟩
    rw [pandar_xtm.PandarXTMDecoder.xtm_unpack_reject c d raw (by rw [hp]), hp]

theorem C6_rejected_packet_state_witness :
    (pandar40.Pandar40Decoder.parsePacket pandar40.layout pandar40.readyDecoder
      pandar40.shortRaw).1 = false ∧
    pandar40.Pandar40Decoder.unpack pandar40.layout pandar40.readyDecoder pandar40.shortRaw
      = pandar40.readyDecoder ∧
    pandar_xtm.shortRaw.size ≠ pandar_xtm.layout.PACKET_SIZE ∧
    pandar_xtm.PandarXTMDecoder.unpack pandar_xtm.layout pandar_xtm.readyDecoder
      pandar_xtm.shortRaw = pandar_xtm.readyDecoder ∧
    pandar_xtm.badMagicRaw.size = pandar_xtm.layout.PACKET_SIZE ∧
    (pandar_xtm.badMagicRaw.byte 0 ≠ 0xEE ∨ pandar_xtm.badMagicRaw.byte 1 ≠ 0xFF) ∧
    pandar_xtm.PandarXTMDecoder.unpack pandar_xtm.layout pandar_xtm.readyDecoder
        pandar_xtm.badMagicRaw
      = { pandar_xtm.readyDecoder with packet_ :=
          { pandar_xtm.readyDecoder.packet_ with
            header := pandar_xtm.PandarXTMDecoder.parseHeader pandar_xtm.badMagicRaw } } :=
  have h1 : (pandar40.Pandar40Decoder.parsePacket pandar40.layout pandar40.readyDecoder
      pandar40.shortRaw).1 = false := by decide
  have h2 : pandar_xtm.shortRaw.size ≠ pandar_xtm.layout.PACKET_SIZE := by decide
  have h3 : pandar_xtm.badMagicRaw.size = pandar_xtm.layout.PACKET_SIZE := by decide
  have h4 : pandar_xtm.badMagicRaw.byte 0 ≠ 0xEE ∨ pandar_xtm.badMagicRaw.byte 1 ≠ 0xFF :=
    Or.inl (by decide)
  ⟨h1, (C6_rejected_packet_state.1 pandar40.layout pandar40.readyDecoder pandar40.shortRaw
      h1).2,
   h2, (C6_rejected_packet_state.2.1 pandar_xtm.layout pandar_xtm.readyDecoder
      pandar_xtm.shortRaw h2).2,
   h3, h4, (C6_rejected_packet_state.2.2 pandar_xtm.layout pandar_xtm.readyDecoder
      pandar_xtm.badMagicRaw h3 h4).2⟩

/-- C6 (as stated) fails: a PandarXTM message of the right length with the
first bytes `0x12 0x34` is rejected, yet the stored header is overwritten
(`sob` changes from 0 to `0x1234`), so the decoder is not as it was. -/
theorem C6_counterexample :
    (pandar_xtm.PandarXTMDecoder.parsePacket pandar_xtm.layout pandar_xtm.readyDecoder
      pandar_xtm.badMagicRaw).1 = false ∧
    pandar_xtm.readyDecoder.packet_.header.sob = 0 ∧
    (pandar_xtm.PandarXTMDecoder.parsePacket pandar_xtm.layout pandar_xtm.readyDecoder
      pandar_xtm.badMagicRaw).2.packet_.header.sob = 0x1234 ∧
    (pandar_xtm.PandarXTMDecoder.unpack pandar_xtm.layout pandar_xtm.readyDecoder
      pandar_xtm.badMagicRaw).packet_.header.chLaserNumber = 32 ∧
    pandar_xtm.PandarXTMDecoder.unpack pandar_xtm.layout pandar_xtm.readyDecoder
      pandar_xtm.badMagicRaw ≠ pandar_xtm.readyDecoder := by
  refine ⟨by decide, rfl, by decide, by decide, ?_⟩
  intro h
  have h2 := congrArg (fun d => d.packet_.header.sob) h
  revert h2
  decide

/-- C7. Pandar40 length validation: `parsePacket` returns false if and only
if the size is neither `PACKET_SIZE` nor `PACKET_SIZE + SEQ_NUM_SIZE`; for
both accepted sizes it returns true whatever the bytes are. -/
theorem C7_pandar40_length_validation (c : pandar40.Consts) (d : pandar40.Pandar40Decoder) :
    (∀ raw : PandarPacket,
      (pandar40.Pandar40Decoder.parsePacket c d raw).1 = false ↔
        (raw.size ≠ c.PACKET_SIZE ∧ raw.size ≠ c.PACKET_SIZE + c.SEQ_NUM_SIZE)) ∧
    (∀ data : List (Fin 256),
      (pandar40.Pandar40Decoder.parsePacket c d { data := data, size := c.PACKET_SIZE }).1
        = true ∧
      (pandar40.Pandar40Decoder.parsePacket c d
        { data := data, size := c.PACKET_SIZE + c.SEQ_NUM_SIZE }).1 = true) := by
  refine ⟨?_, ?_⟩
  · intro raw
    rw [pandar40.Pandar40Decoder.p40_parsePacket_fst, decide_eq_false_iff_not]
    constructor
    · intro h
      exact ⟨fun h1 => h (Or.inl h1), fun h2 => h (Or.inr h2)⟩
    · rintro ⟨h1, h2⟩ (h | h)
      · exact h1 h
      · exact h2 h
  · intro data
    constructor
    · rw [pandar40.Pandar40Decoder.p40_parsePacket_fst]
      exact decide_eq_true (Or.inl rfl)
    · rw [pandar40.Pandar40Decoder.p40_parsePacket_fst]
      exact decide_eq_true (Or.inr rfl)

/-- C8. PandarXTM length and start marker validation: `parsePacket` returns
true if and only if the size equals `PACKET_SIZE` and the first two bytes
are `0xEE` and `0xFF`; otherwise it returns false. -/
theorem C8_xtm_length_and_magic_validation (c : pandar_xtm.Consts)
    (d : pandar_xtm.PandarXTMDecoder) (raw : PandarPacket) :
    ((pandar_xtm.PandarXTMDecoder.parsePacket c d raw).1 = true ↔
      (raw.size = c.PACKET_SIZE ∧ raw.byte 0 = 0xEE ∧ raw.byte 1 = 0xFF)) ∧
    ((pandar_xtm.PandarXTMDecoder.parsePacket c d raw).1 = false ↔
      ¬ (raw.size = c.PACKET_SIZE ∧ raw.byte 0 = 0xEE ∧ raw.byte 1 = 0xFF)) ∧
    (pandar_xtm.PandarXTMDecoder.parseHeader raw).sob = 256 * raw.byte 0 + raw.byte 1 := by
  have h0 := raw.byte_lt 0
  have h1 := raw.byte_lt 1
  have hsob := pandar_xtm.PandarXTMDecoder.xtm_parseHeader_sob raw
  have key : (raw.size = c.PACKET_SIZE ∧ (pandar_xtm.PandarXTMDecoder.parseHeader raw).sob
      = 0xEEFF) ↔ (raw.size = c.PACKET_SIZE ∧ raw.byte 0 = 0xEE ∧ raw.byte 1 = 0xFF) := by
    rw [hsob]
    constructor
    · rintro ⟨hs, hm⟩
      exact ⟨hs, by omega, by omega⟩
    · rintro ⟨hs, ha, hb⟩
      exact ⟨hs, by omega⟩
  refine ⟨?_, ?_, hsob⟩
  · rw [pandar_xtm.PandarXTMDecoder.xtm_parsePacket_fst, decide_eq_true_iff]
    exact key
  · rw [pandar_xtm.PandarXTMDecoder.xtm_parsePacket_fst, decide_eq_false_iff_not]
    exact not_congr key


/-- C9, the code at the failing input. The block loops of `parsePacket` run
to the counts in header bytes 7 and 6 without any bound. A message of
`PACKET_SIZE` bytes with the start marker and both header bytes 255 is
accepted; the parser then stores 255 blocks where `BLOCK_NUM = 8` are
declared, 255 units in a block where `UNIT_NUM = 32` are declared, and its
read index runs to 260622, far past `PACKET_SIZE = 1080`. -/
theorem C9_header_counts_overrun :
    (∀ (c : pandar_xtm.Consts) (raw : PandarPacket) (blocks : List pandar_xtm.Block),
      (pandar_xtm.PandarXTMDecoder.parseBody c raw
        (pandar_xtm.PandarXTMDecoder.parseHeader raw) blocks).2.length
        = max blocks.length (raw.byte 7) ∧
      (pandar_xtm.PandarXTMDecoder.parseBody c raw
        (pandar_xtm.PandarXTMDecoder.parseHeader raw) blocks).1
        = c.HEAD_SIZE + raw.byte 7 * (c.BLOCK_HEADER_AZIMUTH + raw.byte 6 * c.UNIT_SIZE)) ∧
    (pandar_xtm.PandarXTMDecoder.parsePacket pandar_xtm.layout pandar_xtm.readyDecoder
      pandar_xtm.overrunRaw).1 = true ∧
    pandar_xtm.readyDecoder.packet_.blocks.length = pandar_xtm.layout.BLOCK_NUM ∧
    (pandar_xtm.PandarXTMDecoder.parsePacket pandar_xtm.layout pandar_xtm.readyDecoder
      pandar_xtm.overrunRaw).2.packet_.blocks.length = 255 ∧
    pandar_xtm.layout.BLOCK_NUM = 8 ∧
    (((pandar_xtm.PandarXTMDecoder.parsePacket pandar_xtm.layout pandar_xtm.readyDecoder
      pandar_xtm.overrunRaw).2.packet_.blocks.getD 0 default).units.length = 255) ∧
    pandar_xtm.layout.UNIT_NUM = 32 ∧
    (pandar_xtm.PandarXTMDecoder.parseBody pandar_xtm.layout pandar_xtm.overrunRaw
      (pandar_xtm.PandarXTMDecoder.parseHeader pandar_xtm.overrunRaw)
      pandar_xtm.readyDecoder.packet_.blocks).1 = 260622 ∧
    pandar_xtm.layout.PACKET_SIZE = 1080 := by
  have hacc : (pandar_xtm.PandarXTMDecoder.parsePacket pandar_xtm.layout
      pandar_xtm.readyDecoder pandar_xtm.overrunRaw).1 = true := by decide
  have hblocks := pandar_xtm.PandarXTMDecoder.xtm_parsePacket_blocks pandar_xtm.layout
    pandar_xtm.readyDecoder pandar_xtm.overrunRaw hacc
  have hb : (pandar_xtm.PandarXTMDecoder.parseHeader pandar_xtm.overrunRaw).chBlockNumber
      = 255 := by decide
  have hl : (pandar_xtm.PandarXTMDecoder.parseHeader pandar_xtm.overrunRaw).chLaserNumber
      = 255 := by decide
  have hlen : pandar_xtm.readyDecoder.packet_.blocks.length = 8 := by decide
  have hu0 : (pandar_xtm.readyDecoder.packet_.blocks.getD 0 default).units.length = 32 := by
    decide
  obtain ⟨g1, g2, g3, -⟩ := pandar_xtm.PandarXTMDecoder.xtm_block_loop pandar_xtm.layout
    pandar_xtm.overrunRaw (pandar_xtm.PandarXTMDecoder.parseHeader pandar_xtm.overrunRaw)
    pandar_xtm.layout.HEAD_SIZE pandar_xtm.readyDecoder.packet_.blocks 255
  have g3' := g3 0 (by omega)
  rw [hl, hu0] at g3'
  rw [hlen] at g2
  rw [hl] at g1
  refine ⟨?_, hacc, hlen, ?_, rfl, ?_, rfl, ?_, rfl⟩
  · intro c raw blocks
    obtain ⟨k1, k2, -, -⟩ := pandar_xtm.PandarXTMDecoder.xtm_block_loop c raw
      (pandar_xtm.PandarXTMDecoder.parseHeader raw) c.HEAD_SIZE blocks
      (pandar_xtm.PandarXTMDecoder.parseHeader raw).chBlockNumber
    have hc := pandar_xtm.PandarXTMDecoder.xtm_parseHeader_counts raw
    constructor
    · rw [pandar_xtm.PandarXTMDecoder.parseBody, k2, hc.2]
    · rw [pandar_xtm.PandarXTMDecoder.parseBody, k1, hc.1, hc.2]
  · rw [hblocks, pandar_xtm.PandarXTMDecoder.parseBody, hb, g2]
    decide
  · rw [hblocks, pandar_xtm.PandarXTMDecoder.parseBody, hb, g3']
    decide
  · rw [pandar_xtm.PandarXTMDecoder.parseBody, hb, g1]
    decide

/-- C10, the code at the failing input. `convert` pushes one point for every
entry of `firing_order_`, whatever the distance of the unit. On a message of
`PACKET_SIZE` zero bytes (a single-return packet whose units all have
distance 0) `convert` emits 40 points with distance 0 for block 0, and
`unpack` emits 400 points for the 400 invalid units of the packet. -/
theorem C10_convert_emits_invalid_units :
    (∀ (c : pandar40.Consts) (d : pandar40.Pandar40Decoder) (block_id : Nat),
      (pandar40.Pandar40Decoder.convert c d block_id).map (fun p => p.ring)
        = pandar40.firing_order_ ∧
      (pandar40.Pandar40Decoder.convert c d block_id).map (fun p => p.distance)
        = pandar40.firing_order_.map (fun unit_id =>
            ((d.packet_.blocks.getD block_id default).units.getD unit_id default).distance)) ∧
    (pandar40.Pandar40Decoder.parsePacket pandar40.layout specDecoder pandar40.zeroRaw).1
      = true ∧
    (pandar40.Pandar40Decoder.parsePacket pandar40.layout specDecoder
      pandar40.zeroRaw).2.packet_.return_mode ≠ pandar40.layout.DUAL_RETURN ∧
    (pandar40.Pandar40Decoder.convert pandar40.layout
      (pandar40.Pandar40Decoder.parsePacket pandar40.layout specDecoder
        pandar40.zeroRaw).2 0).map (fun p => p.distance) = List.replicate 40 0 ∧
    (pandar40.Pandar40Decoder.convert pandar40.layout
      (pandar40.Pandar40Decoder.parsePacket pandar40.layout specDecoder
        pandar40.zeroRaw).2 0).map (fun p => p.return_type)
      = List.replicate 40 (some ReturnType.SINGLE_LAST) ∧
    ((pandar40.Pandar40Decoder.unpack pandar40.layout specDecoder pandar40.zeroRaw).scan_pc_
      ++ (pandar40.Pandar40Decoder.unpack pandar40.layout specDecoder
        pandar40.zeroRaw).overflow_pc_).length = 400 := by
  have h1 : (pandar40.Pandar40Decoder.parsePacket pandar40.layout specDecoder
      pandar40.zeroRaw).1 = true := by decide
  have h2 : (pandar40.Pandar40Decoder.parsePacket pandar40.layout specDecoder
      pandar40.zeroRaw).2.packet_.return_mode ≠ pandar40.layout.DUAL_RETURN := by decide!
  have h3 : (pandar40.Pandar40Decoder.convert pandar40.layout
      (pandar40.Pandar40Decoder.parsePacket pandar40.layout specDecoder
        pandar40.zeroRaw).2 0).map (fun p => p.distance) = List.replicate 40 0 := by decide!
  have h4 : (pandar40.Pandar40Decoder.convert pandar40.layout
      (pandar40.Pandar40Decoder.parsePacket pandar40.layout specDecoder
        pandar40.zeroRaw).2 0).map (fun p => p.return_type)
      = List.replicate 40 (some ReturnType.SINGLE_LAST) := by decide!
  have h5 : ((pandar40.Pandar40Decoder.unpack pandar40.layout specDecoder
      pandar40.zeroRaw).scan_pc_
      ++ (pandar40.Pandar40Decoder.unpack pandar40.layout specDecoder
        pandar40.zeroRaw).overflow_pc_).length = 400 := by decide!
  refine ⟨?_, h1, h2, h3, h4, h5⟩
  intro c d block_id
  constructor
  · simp [pandar40.Pandar40Decoder.convert, pandar40.Pandar40Decoder.build_point,
      Function.comp_def]
  · simp [pandar40.Pandar40Decoder.convert, pandar40.Pandar40Decoder.build_point,
      Function.comp_def]

/-- C11 (as amended). DUAL mode coincidence rule of Pandar40 `convert_dual`:
for every channel of an even/odd block pair a point tagged DUAL_ONLY is
emitted if and only if the even unit is valid and
`|even.distance - odd.distance| < dual_return_distance_threshold_`, the
difference being the `double` difference the source computes (the odd unit
need not be valid); it is then the only point of the channel and it is
built from the even block. -/
theorem C11_dual_only_rule (c : pandar40.Consts) (d : pandar40.Pandar40Decoder)
    (block_id unit_id : Nat) (hmode : d.return_mode_ = pandar40.ReturnMode.DUAL)
    (hu : unit_id ∈ pandar40.firing_order_) :
    let even_unit := (d.packet_.blocks.getD block_id default).units.getD unit_id default
    let odd_unit := (d.packet_.blocks.getD (block_id + 1) default).units.getD unit_id default
    let channel := channelPoints (pandar40.Pandar40Decoder.convert_dual c d block_id) unit_id
    let coincident : Prop :=
      validDistance even_unit.distance ∧
      |roundDouble (even_unit.distance - odd_unit.distance)|
        < d.dual_return_distance_threshold_
    ((∃ p ∈ channel, p.return_type = some ReturnType.DUAL_ONLY) ↔ coincident) ∧
    (coincident → channel
      = [pandar40.Pandar40Decoder.build_point c d block_id unit_id ReturnType.DUAL_ONLY]) := by
  intro even_unit odd_unit channel coincident
  have hch : channel = pandar40.Pandar40Decoder.convert_dual_unit c d block_id unit_id :=
    pandar40.Pandar40Decoder.p40_convert_dual_channel c d block_id unit_id hu
  rw [hch, pandar40.Pandar40Decoder.p40_convert_dual_unit_eq]
  simp only [hmode, reduceCtorEq, if_false]
  by_cases hco : coincident
  · have hco' : |roundDouble (even_unit.distance - odd_unit.distance)|
          < d.dual_return_distance_threshold_
        ∧ validDistance even_unit.distance := ⟨hco.2, hco.1⟩
    rw [if_pos hco']
    refine ⟨⟨fun _ => hco, fun _ => ⟨_, List.mem_singleton_self _, rfl⟩⟩, fun _ => rfl⟩
  · have hco' : ¬ (|roundDouble (even_unit.distance - odd_unit.distance)|
          < d.dual_return_distance_threshold_
        ∧ validDistance even_unit.distance) := fun h => hco ⟨h.2, h.1⟩
    rw [if_neg hco']
    refine ⟨⟨?_, fun h => absurd h hco⟩, fun h => absurd h hco⟩
    rintro ⟨p, hp, htag⟩
    exfalso
    split_ifs at hp <;> simp [pandar40.Pandar40Decoder.build_point] at hp <;>
      (rcases hp with rfl | rfl <;> simp at htag)

theorem C11_dual_only_rule_witness :
    (pandar40.Pandar40Decoder.parsePacket pandar40.layout
      (pandar40.pairDecoder pandar40.ReturnMode.DUAL default default) pandar40.nearRaw).1
      = true ∧
    pandar40.nearDecoder.return_mode_ = pandar40.ReturnMode.DUAL ∧
    0 ∈ pandar40.firing_order_ ∧
    ((pandar40.nearDecoder.packet_.blocks.getD 0 default).units.getD 0 default).distance
      = roundDouble (75 * pandar40.layout.LASER_RETURN_TO_DISTANCE_RATE) ∧
    ((pandar40.nearDecoder.packet_.blocks.getD 1 default).units.getD 0 default).distance
      = roundDouble (50 * pandar40.layout.LASER_RETURN_TO_DISTANCE_RATE) ∧
    roundDouble (roundDouble (75 * pandar40.layout.LASER_RETURN_TO_DISTANCE_RATE)
        - roundDouble (50 * pandar40.layout.LASER_RETURN_TO_DISTANCE_RATE))
      = 900719925474099 / 9007199254740992 ∧
    pandar40.nearDecoder.dual_return_distance_threshold_
      = 3602879701896397 / 36028797018963968 ∧
    channelPoints (pandar40.Pandar40Decoder.convert_dual pandar40.layout
        pandar40.nearDecoder 0) 0
      = [pandar40.Pandar40Decoder.build_point pandar40.layout pandar40.nearDecoder 0 0
          ReturnType.DUAL_ONLY] :=
  have hco : validDistance
        ((pandar40.nearDecoder.packet_.blocks.getD 0 default).units.getD 0 default).distance ∧
      |roundDouble
          (((pandar40.nearDecoder.packet_.blocks.getD 0 default).units.getD 0 default).distance
          - ((pandar40.nearDecoder.packet_.blocks.getD (0 + 1) default).units.getD 0
              default).distance)|
        < pandar40.nearDecoder.dual_return_distance_threshold_ := by decide!
  ⟨by decide, by decide!, by decide, by decide!, by decide!, by decide!, by decide!,
   (C11_dual_only_rule pandar40.layout pandar40.nearDecoder 0 0 (by decide!)
      (by decide)).2 hco⟩

/-- C11 (as stated) fails: with the even unit at 0.152 m (valid) and the odd
unit at 0.08 m (not valid), 0.072 m apart (all three as `double` values),
`convert_dual` in DUAL mode emits the DUAL_ONLY point although not both
units are valid. -/
theorem C11_counterexample :
    pandar40.Pandar40Decoder.convert_dual pandar40.layout
        (pandar40.pairDecoder pandar40.ReturnMode.DUAL
          { distance := 19 / 125, intensity := 10 } { distance := 2 / 25, intensity := 20 }) 0
      = [{ block := 0, ring := 0, distance := roundDouble (19 / 125), intensity := 10,
           block_azimuth := 100, return_type := some ReturnType.DUAL_ONLY, time_block := 0 }] ∧
    validDistance (roundDouble (19 / 125)) ∧
    ¬ validDistance (roundDouble (2 / 25)) ∧
    |roundDouble (roundDouble (19 / 125) - roundDouble (2 / 25))| < roundDouble (1 / 10) := by
  refine ⟨by decide!, by decide!, by decide!, by decide!⟩

/-- C12. DUAL mode tagging of Pandar40 `convert_dual` when the echoes are
not coincident: with `|even.distance - odd.distance| >= threshold` (the
`double` difference the source computes), if
`even.intensity >= odd.intensity` the channel is the odd point tagged
DUAL_WEAK_FIRST (if the odd unit is valid) followed by the even point tagged
DUAL_STRONGEST_LAST (if the even unit is valid); otherwise it is the odd
point tagged DUAL_STRONGEST_FIRST followed by the even point tagged
DUAL_WEAK_LAST, each under the same condition; nothing else is emitted. -/
theorem C12_dual_tagging (c : pandar40.Consts) (d : pandar40.Pandar40Decoder)
    (block_id unit_id : Nat) (hmode : d.return_mode_ = pandar40.ReturnMode.DUAL)
    (hu : unit_id ∈ pandar40.firing_order_)
    (hfar : d.dual_return_distance_threshold_ ≤
      |roundDouble
        (((d.packet_.blocks.getD block_id default).units.getD unit_id default).distance
        - ((d.packet_.blocks.getD (block_id + 1) default).units.getD unit_id
            default).distance)|) :
    let even_unit := (d.packet_.blocks.getD block_id default).units.getD unit_id default
    let odd_unit := (d.packet_.blocks.getD (block_id + 1) default).units.getD unit_id default
    channelPoints (pandar40.Pandar40Decoder.convert_dual c d block_id) unit_id
      = if even_unit.intensity ≥ odd_unit.intensity then
          (if validDistance odd_unit.distance then
             [pandar40.Pandar40Decoder.build_point c d (block_id + 1) unit_id
               ReturnType.DUAL_WEAK_FIRST]
           else []) ++
          (if validDistance even_unit.distance then
             [pandar40.Pandar40Decoder.build_point c d block_id unit_id
               ReturnType.DUAL_STRONGEST_LAST]
           else [])
        else
          (if validDistance odd_unit.distance then
             [pandar40.Pandar40Decoder.build_point c d (block_id + 1) unit_id
               ReturnType.DUAL_STRONGEST_FIRST]
           else []) ++
          (if validDistance even_unit.distance then
             [pandar40.Pandar40Decoder.build_point c d block_id unit_id
               ReturnType.DUAL_WEAK_LAST]
           else []) := by
  intro even_unit odd_unit
  rw [pandar40.Pandar40Decoder.p40_convert_dual_channel c d block_id unit_id hu,
    pandar40.Pandar40Decoder.p40_convert_dual_unit_eq]
  simp only [hmode, reduceCtorEq, if_false]
  have hco : ¬ (|roundDouble (even_unit.distance - odd_unit.distance)|
        < d.dual_return_distance_threshold_
      ∧ validDistance even_unit.distance) := fun h => absurd h.1 (not_lt.mpr hfar)
  rw [if_neg hco]

theorem C12_dual_tagging_witness :
    (pandar40.Pandar40Decoder.parsePacket pandar40.layout
      (pandar40.pairDecoder pandar40.ReturnMode.DUAL default default) pandar40.apartRaw).1
      = true ∧
    pandar40.apartDecoder.return_mode_ = pandar40.ReturnMode.DUAL ∧
    0 ∈ pandar40.firing_order_ ∧
    ((pandar40.apartDecoder.packet_.blocks.getD 0 default).units.getD 0 default).distance
      = roundDouble (75 * pandar40.layout.LASER_RETURN_TO_DISTANCE_RATE) ∧
    ((pandar40.apartDecoder.packet_.blocks.getD 1 default).units.getD 0 default).distance
      = roundDouble (49 * pandar40.layout.LASER_RETURN_TO_DISTANCE_RATE) ∧
    channelPoints (pandar40.Pandar40Decoder.convert_dual pandar40.layout
        pandar40.apartDecoder 0) 0
      = [pandar40.Pandar40Decoder.build_point pandar40.layout pandar40.apartDecoder 1 0
          ReturnType.DUAL_STRONGEST_FIRST,
         pandar40.Pandar40Decoder.build_point pandar40.layout pandar40.apartDecoder 0 0
          ReturnType.DUAL_WEAK_LAST] :=
  have hfar : pandar40.apartDecoder.dual_return_distance_threshold_ ≤
      |roundDouble
        (((pandar40.apartDecoder.packet_.blocks.getD 0 default).units.getD 0 default).distance
        - ((pandar40.apartDecoder.packet_.blocks.getD (0 + 1) default).units.getD 0
            default).distance)| := by decide!
  ⟨by decide, by decide!, by decide, by decide!, by decide!,
   (C12_dual_tagging pandar40.layout pandar40.apartDecoder 0 0 (by decide!) (by decide)
      hfar).trans (by decide!)⟩

/-- C13 (as amended). STRONGEST mode of Pandar40 `convert_dual`: for every
channel at most one point is emitted, tagged SINGLE_STRONGEST. The unit is
chosen by intensity alone, the even unit when
`even.intensity >= odd.intensity` and the odd unit otherwise; the point is
emitted exactly when the chosen unit is valid, and nothing is emitted when
the chosen unit is not valid, also when the other unit is. -/
theorem C13_strongest_on_dual (c : pandar40.Consts) (d : pandar40.Pandar40Decoder)
    (block_id unit_id : Nat) (hmode : d.return_mode_ = pandar40.ReturnMode.STRONGEST)
    (hu : unit_id ∈ pandar40.firing_order_) :
    let even_unit := (d.packet_.blocks.getD block_id default).units.getD unit_id default
    let odd_unit := (d.packet_.blocks.getD (block_id + 1) default).units.getD unit_id default
    let channel := channelPoints (pandar40.Pandar40Decoder.convert_dual c d block_id) unit_id
    channel
      = (if even_unit.intensity ≥ odd_unit.intensity then
          (if validDistance even_unit.distance then
             [pandar40.Pandar40Decoder.build_point c d block_id unit_id
               ReturnType.SINGLE_STRONGEST]
           else [])
        else
          (if validDistance odd_unit.distance then
             [pandar40.Pandar40Decoder.build_point c d (block_id + 1) unit_id
               ReturnType.SINGLE_STRONGEST]
           else [])) ∧
    channel.length ≤ 1 ∧
    channel.map (fun p => p.return_type)
      = List.replicate channel.length (some ReturnType.SINGLE_STRONGEST) := by
  intro even_unit odd_unit channel
  have hch : channel
      = (if even_unit.intensity ≥ odd_unit.intensity then
          (if validDistance even_unit.distance then
             [pandar40.Pandar40Decoder.build_point c d block_id unit_id
               ReturnType.SINGLE_STRONGEST]
           else [])
        else
          (if validDistance odd_unit.distance then
             [pandar40.Pandar40Decoder.build_point c d (block_id + 1) unit_id
               ReturnType.SINGLE_STRONGEST]
           else [])) := by
    show channelPoints (pandar40.Pandar40Decoder.convert_dual c d block_id) unit_id = _
    rw [pandar40.Pandar40Decoder.p40_convert_dual_channel c d block_id unit_id hu,
      pandar40.Pandar40Decoder.p40_convert_dual_unit_eq]
    simp only [hmode, if_true]
  refine ⟨hch, ?_, ?_⟩
  · rw [hch]; split_ifs <;> simp
  · rw [hch]; split_ifs <;> simp [pandar40.Pandar40Decoder.build_point]

theorem C13_strongest_on_dual_witness :
    (pandar40.pairDecoder pandar40.ReturnMode.STRONGEST
      { distance := 5, intensity := 10 } { distance := 7, intensity := 10 }).return_mode_
      = pandar40.ReturnMode.STRONGEST ∧
    0 ∈ pandar40.firing_order_ ∧
    (channelPoints (pandar40.Pandar40Decoder.convert_dual pandar40.layout
        (pandar40.pairDecoder pandar40.ReturnMode.STRONGEST
          { distance := 5, intensity := 10 } { distance := 7, intensity := 10 }) 0) 0).length
      ≤ 1 :=
  ⟨rfl, by decide,
   (C13_strongest_on_dual pandar40.layout
      (pandar40.pairDecoder pandar40.ReturnMode.STRONGEST
        { distance := 5, intensity := 10 } { distance := 7, intensity := 10 }) 0 0 rfl
      (by decide)).2.1⟩

/-- C13 (as stated) fails: with the even unit at intensity 10 and distance 0
(not valid) and the odd unit at intensity 5 and distance 5 m (valid),
`convert_dual` in STRONGEST mode emits no point, although one of the two
units is valid. -/
theorem C13_counterexample :
    pandar40.Pandar40Decoder.convert_dual pandar40.layout
        (pandar40.pairDecoder pandar40.ReturnMode.STRONGEST
          { distance := 0, intensity := 10 } { distance := 5, intensity := 5 }) 0 = [] ∧
    validDistance (5 : ℚ) ∧ ¬ validDistance (0 : ℚ) := by
  refine ⟨by decide!, by decide!, by decide!⟩

/-- C14, the code at the failing input. The parser replaces a reading by
zeros exactly when the distance in metres exceeds 100000 (the constant
`200 * 1000 / 2` of the source), not when it exceeds 200. On a message whose
unit 0 of block 0 has raw range 60000 and intensity 7, with 4 mm per count,
the stored unit has distance 240 and intensity 7. -/
theorem C14_out_of_range_not_zeroed :
    (∀ (c : pandar40.Consts) (raw : PandarPacket) (index : Nat),
      pandar40.Pandar40Decoder.parseUnit c raw index =
        if roundDouble (((raw.byte index + 256 * raw.byte (index + 1) : Nat) : ℚ)
            * c.LASER_RETURN_TO_DISTANCE_RATE) > 100000 then
          { distance := 0, intensity := 0 }
        else
          { distance := roundDouble (((raw.byte index + 256 * raw.byte (index + 1) : Nat) : ℚ)
              * c.LASER_RETURN_TO_DISTANCE_RATE)
            intensity := raw.byte (index + 2) }) ∧
    (pandar40.Pandar40Decoder.parsePacket pandar40.layout specDecoder pandar40.farRaw).1
      = true ∧
    pandar40.farRaw.byte 4 + 256 * pandar40.farRaw.byte 5 = 60000 ∧
    (roundDouble ((60000 : ℚ) * pandar40.layout.LASER_RETURN_TO_DISTANCE_RATE) = 240
      ∧ (240 : ℚ) > 200) ∧
    ((pandar40.Pandar40Decoder.parsePacket pandar40.layout specDecoder
        pandar40.farRaw).2.packet_.blocks.getD 0 default).units.getD 0 default
      = { distance := 240, intensity := 7 } := by
  refine ⟨fun c raw index => pandar40.Pandar40Decoder.p40_parseUnit_eq c raw index,
    by decide, by decide, by decide!, by decide!⟩

/-- C15 (as amended). Year-field normalization, identical in both parsers:
for the raw year byte `b` of an accepted message the stored `tm_year` is
`b + 100` when `b + 100 < 200` and `b` otherwise; byte 0 gives 100 (year
2000) and byte 150 gives 150 (year 2050); the stored value lies in
100..255, and in 100..199 exactly when `b <= 199`. -/
theorem C15_year_normalization :
    (∀ (c : pandar40.Consts) (d : pandar40.Pandar40Decoder) (raw : PandarPacket),
      (pandar40.Pandar40Decoder.parsePacket c d raw).1 = true →
      let b := raw.byte (c.BLOCKS_PER_PACKET
          * (c.SOB_ANGLE_SIZE + c.LASER_COUNT * c.RAW_MEASURE_SIZE)
        + c.RESERVE_SIZE + c.REVOLUTION_SIZE + c.TIMESTAMP_SIZE
        + (c.FACTORY_INFO_SIZE + c.RETURN_SIZE))
      let y := (pandar40.Pandar40Decoder.parsePacket c d raw).2.packet_.t.tm_year
      y = (if b + 100 < 200 then ((b + 100 : Nat) : Int) else (b : Int)) ∧
      (b = 0 → y = 100) ∧ (b = 150 → y = 150) ∧
      100 ≤ y ∧ y ≤ 255 ∧ (y ≤ 199 ↔ b ≤ 199)) ∧
    (∀ (c : pandar_xtm.Consts) (d : pandar_xtm.PandarXTMDecoder) (raw : PandarPacket),
      (pandar_xtm.PandarXTMDecoder.parsePacket c d raw).1 = true →
      let b := raw.byte (c.HEAD_SIZE + raw.byte 7
          * (c.BLOCK_HEADER_AZIMUTH + raw.byte 6 * c.UNIT_SIZE)
        + c.RESERVED_SIZE + c.RETURN_SIZE + c.ENGINE_VELOCITY)
      let y := (pandar_xtm.PandarXTMDecoder.parsePacket c d raw).2.packet_.t.tm_year
      y = (if b + 100 < 200 then ((b + 100 : Nat) : Int) else (b : Int)) ∧
      (b = 0 → y = 100) ∧ (b = 150 → y = 150) ∧
      100 ≤ y ∧ y ≤ 255 ∧ (y ≤ 199 ↔ b ≤ 199)) := by
  have key : ∀ (b : Nat) (y : Int), b < 256 →
      y = (if (b : Int) + 100 ≥ 200 then (b : Int) + 100 - 100 else (b : Int) + 100) →
      y = (if b + 100 < 200 then ((b + 100 : Nat) : Int) else (b : Int)) ∧
      (b = 0 → y = 100) ∧ (b = 150 → y = 150) ∧
      100 ≤ y ∧ y ≤ 255 ∧ (y ≤ 199 ↔ b ≤ 199) := by
    intro b y hb hy
    by_cases h : (b : Int) + 100 ≥ 200
    · rw [if_pos h] at hy
      have h' : ¬ b + 100 < 200 := by omega
      rw [if_neg h']
      refine ⟨by omega, by omega, by omega, by omega, by omega, by omega⟩
    · rw [if_neg h] at hy
      have h' : b + 100 < 200 := by omega
      rw [if_pos h']
      refine ⟨by omega, by omega, by omega, by omega, by omega, by omega⟩
  constructor
  · intro c d raw hacc b y
    apply key b y (raw.byte_lt _)
    show (pandar40.Pandar40Decoder.parsePacket c d raw).2.packet_.t.tm_year = _
    rw [pandar40.Pandar40Decoder.p40_parsePacket_packet c d raw hacc,
      pandar40.Pandar40Decoder.p40_parseFields_tm_year]
  · intro c d raw hacc b y
    apply key b y (raw.byte_lt _)
    show (pandar_xtm.PandarXTMDecoder.parsePacket c d raw).2.packet_.t.tm_year = _
    have hc := pandar_xtm.PandarXTMDecoder.xtm_parseHeader_counts raw
    rw [pandar_xtm.PandarXTMDecoder.xtm_parsePacket_packet c d raw hacc,
      pandar_xtm.PandarXTMDecoder.xtm_parseFields_tm_year]
    simp only [hc.1, hc.2]

theorem C15_year_normalization_witness :
    (pandar40.Pandar40Decoder.parsePacket pandar40.layout specDecoder pandar40.zeroRaw).1
      = true ∧
    (100 : Int) ≤ (pandar40.Pandar40Decoder.parsePacket pandar40.layout specDecoder
      pandar40.zeroRaw).2.packet_.t.tm_year ∧
    (pandar_xtm.PandarXTMDecoder.parsePacket pandar_xtm.layout pandar_xtm.freshDecoder
      pandar_xtm.goodRaw).1 = true ∧
    (pandar_xtm.PandarXTMDecoder.parsePacket pandar_xtm.layout pandar_xtm.freshDecoder
      pandar_xtm.goodRaw).2.packet_.t.tm_year ≤ 255 :=
  have h1 : (pandar40.Pandar40Decoder.parsePacket pandar40.layout specDecoder
      pandar40.zeroRaw).1 = true := by decide
  have h2 : (pandar_xtm.PandarXTMDecoder.parsePacket pandar_xtm.layout
      pandar_xtm.freshDecoder pandar_xtm.goodRaw).1 = true := by decide
  ⟨h1, (C15_year_normalization.1 pandar40.layout specDecoder pandar40.zeroRaw h1).2.2.2.1,
   h2, (C15_year_normalization.2 pandar_xtm.layout pandar_xtm.freshDecoder
      pandar_xtm.goodRaw h2).2.2.2.2.1⟩

/-- C15 (as stated) fails: for the raw year byte 250 both parsers store
`tm_year = 250`, which is not in 100..199. -/
theorem C15_counterexample :
    (pandar40.Pandar40Decoder.parsePacket pandar40.layout specDecoder
      pandar40.lateYearRaw).1 = true ∧
    pandar40.lateYearRaw.byte 1256 = 250 ∧
    (pandar40.Pandar40Decoder.parsePacket pandar40.layout specDecoder
      pandar40.lateYearRaw).2.packet_.t.tm_year = 250 ∧
    (pandar_xtm.PandarXTMDecoder.parsePacket pandar_xtm.layout pandar_xtm.freshDecoder
      pandar_xtm.lateYearRaw).1 = true ∧
    pandar_xtm.lateYearRaw.byte 1065 = 250 ∧
    (pandar_xtm.PandarXTMDecoder.parsePacket pandar_xtm.layout pandar_xtm.freshDecoder
      pandar_xtm.lateYearRaw).2.packet_.t.tm_year = 250 ∧
    ¬ ((250 : Int) ≤ 199) := by
  refine ⟨by decide, by decide!, by decide!, by decide, by decide!, by decide!, by decide⟩

/-- C16 (as amended). Parsing and decoder state (PandarXTM): for an accepted
message and two decoder states, the stored header, return mode, UTC time
and microseconds are equal, and so are the azimuth of every block below the
block count of the header and every unit of such a block below the laser
count of the header. Blocks from the header block count on, and units from
the header laser count on, keep the values stored before the call. -/
theorem C16_parse_state_dependence (c : pandar_xtm.Consts)
    (d1 d2 : pandar_xtm.PandarXTMDecoder) (raw : PandarPacket)
    (hacc : (pandar_xtm.PandarXTMDecoder.parsePacket c d1 raw).1 = true) :
    let p1 := (pandar_xtm.PandarXTMDecoder.parsePacket c d1 raw).2.packet_
    let p2 := (pandar_xtm.PandarXTMDecoder.parsePacket c d2 raw).2.packet_
    (p1.header = p2.header ∧ p1.return_mode = p2.return_mode ∧ p1.t = p2.t ∧
      p1.usec = p2.usec) ∧
    (∀ b, b < raw.byte 7 →
      (p1.blocks.getD b default).azimuth = (p2.blocks.getD b default).azimuth ∧
      (∀ j, j < raw.byte 6 →
        (p1.blocks.getD b default).units.getD j default
          = (p2.blocks.getD b default).units.getD j default) ∧
      (∀ j, raw.byte 6 ≤ j →
        (p1.blocks.getD b default).units.getD j default
          = (d1.packet_.blocks.getD b default).units.getD j default)) ∧
    (∀ b, raw.byte 7 ≤ b → p1.blocks.getD b default = d1.packet_.blocks.getD b default) := by
  intro p1 p2
  have hacc2 : (pandar_xtm.PandarXTMDecoder.parsePacket c d2 raw).1 = true := by
    rw [pandar_xtm.PandarXTMDecoder.xtm_parsePacket_fst] at hacc ⊢
    exact hacc
  have hp1 : p1 = pandar_xtm.PandarXTMDecoder.parseFields c raw
      { d1.packet_ with header := pandar_xtm.PandarXTMDecoder.parseHeader raw } :=
    pandar_xtm.PandarXTMDecoder.xtm_parsePacket_packet c d1 raw hacc
  have hp2 : p2 = pandar_xtm.PandarXTMDecoder.parseFields c raw
      { d2.packet_ with header := pandar_xtm.PandarXTMDecoder.parseHeader raw } :=
    pandar_xtm.PandarXTMDecoder.xtm_parsePacket_packet c d2 raw hacc2
  have hc := pandar_xtm.PandarXTMDecoder.xtm_parseHeader_counts raw
  have hb1 : p1.blocks = ((List.range (raw.byte 7)).foldl
      (pandar_xtm.PandarXTMDecoder.parseBlockStep c raw
        (pandar_xtm.PandarXTMDecoder.parseHeader raw)) (c.HEAD_SIZE, d1.packet_.blocks)).2 := by
    rw [hp1, ← hc.2]; rfl
  have hb2 : p2.blocks = ((List.range (raw.byte 7)).foldl
      (pandar_xtm.PandarXTMDecoder.parseBlockStep c raw
        (pandar_xtm.PandarXTMDecoder.parseHeader raw)) (c.HEAD_SIZE, d2.packet_.blocks)).2 := by
    rw [hp2, ← hc.2]; rfl
  have g1 := pandar_xtm.PandarXTMDecoder.xtm_block_loop_get c raw
    (pandar_xtm.PandarXTMDecoder.parseHeader raw) c.HEAD_SIZE d1.packet_.blocks (raw.byte 7)
  have g2 := pandar_xtm.PandarXTMDecoder.xtm_block_loop_get c raw
    (pandar_xtm.PandarXTMDecoder.parseHeader raw) c.HEAD_SIZE d2.packet_.blocks (raw.byte 7)
  rw [hc.1] at g1 g2
  refine ⟨?_, ?_, ?_⟩
  · rw [hp1, hp2]
    exact pandar_xtm.PandarXTMDecoder.xtm_parseFields_tail c raw
      (pandar_xtm.PandarXTMDecoder.parseHeader raw) d1.packet_.t d2.packet_.t
      d1.packet_.usec d2.packet_.usec d1.packet_.return_mode d2.packet_.return_mode
      d1.packet_.blocks d2.packet_.blocks
  · intro b hb
    rw [hb1, hb2]
    obtain ⟨a1, u1, s1⟩ := g1.1 b hb
    obtain ⟨a2, u2, -⟩ := g2.1 b hb
    refine ⟨by rw [a1, a2], fun j hj => by rw [u1 j hj, u2 j hj], fun j hj => s1 j hj⟩
  · intro b hb
    rw [hb1]
    exact g1.2 b hb

theorem C16_parse_state_dependence_witness :
    (pandar_xtm.PandarXTMDecoder.parsePacket pandar_xtm.layout pandar_xtm.freshDecoder
      pandar_xtm.sixBlockRaw).1 = true ∧
    (pandar_xtm.PandarXTMDecoder.parsePacket pandar_xtm.layout pandar_xtm.freshDecoder
        pandar_xtm.sixBlockRaw).2.packet_.t
      = (pandar_xtm.PandarXTMDecoder.parsePacket pandar_xtm.layout pandar_xtm.staleDecoder
        pandar_xtm.sixBlockRaw).2.packet_.t :=
  have h1 : (pandar_xtm.PandarXTMDecoder.parsePacket pandar_xtm.layout
      pandar_xtm.freshDecoder pandar_xtm.sixBlockRaw).1 = true := by decide
  ⟨h1, (C16_parse_state_dependence pandar_xtm.layout pandar_xtm.freshDecoder
      pandar_xtm.staleDecoder pandar_xtm.sixBlockRaw h1).1.2.2.1⟩

/-- C16 (as stated) fails: a message of the right size and start marker
whose header declares 6 blocks is accepted from both states, and block 7 of
the stored packet keeps the azimuth it had before the call, 0 in one state
and 77 in the other. -/
theorem C16_counterexample :
    (pandar_xtm.PandarXTMDecoder.parsePacket pandar_xtm.layout pandar_xtm.freshDecoder
      pandar_xtm.sixBlockRaw).1 = true ∧
    (pandar_xtm.PandarXTMDecoder.parsePacket pandar_xtm.layout pandar_xtm.staleDecoder
      pandar_xtm.sixBlockRaw).1 = true ∧
    7 < pandar_xtm.layout.BLOCK_NUM ∧
    (((pandar_xtm.PandarXTMDecoder.parsePacket pandar_xtm.layout pandar_xtm.freshDecoder
      pandar_xtm.sixBlockRaw).2.packet_.blocks.getD 7 default).azimuth = 0) ∧
    (((pandar_xtm.PandarXTMDecoder.parsePacket pandar_xtm.layout pandar_xtm.staleDecoder
      pandar_xtm.sixBlockRaw).2.packet_.blocks.getD 7 default).azimuth = 77) ∧
    (pandar_xtm.PandarXTMDecoder.parsePacket pandar_xtm.layout pandar_xtm.freshDecoder
        pandar_xtm.sixBlockRaw).2.packet_
      ≠ (pandar_xtm.PandarXTMDecoder.parsePacket pandar_xtm.layout pandar_xtm.staleDecoder
        pandar_xtm.sixBlockRaw).2.packet_ := by
  have h0 : ((pandar_xtm.PandarXTMDecoder.parsePacket pandar_xtm.layout
      pandar_xtm.freshDecoder pandar_xtm.sixBlockRaw).2.packet_.blocks.getD 7 default).azimuth
      = 0 := by decide!
  have h77 : ((pandar_xtm.PandarXTMDecoder.parsePacket pandar_xtm.layout
      pandar_xtm.staleDecoder pandar_xtm.sixBlockRaw).2.packet_.blocks.getD 7 default).azimuth
      = 77 := by decide!
  refine ⟨by decide, by decide, by decide, h0, h77, ?_⟩
  intro h
  rw [h, h77] at h0
  exact absurd h0 (by decide)

/-- C17. Little-endian block extraction of the Pandar40 parser: for an
accepted message, a block `i < BLOCKS_PER_PACKET` and a unit
`j < LASER_COUNT`, with `o` the offset of the block and `u` the offset of
the unit, the stored azimuth of block `i` is `buf[o+2] + 256 * buf[o+3]`,
unit `j` is computed from the raw range `buf[u] + 256 * buf[u+1]` (times
the rate, in `double`) and the intensity `buf[u+2]`, and the stored microsecond field is the little-endian
group of four bytes after the blocks, the reserve and the revolution
fields, reduced modulo 1000000. -/
theorem C17_little_endian_extraction (c : pandar40.Consts) (d : pandar40.Pandar40Decoder)
    (raw : PandarPacket) (i j : Nat)
    (hacc : (pandar40.Pandar40Decoder.parsePacket c d raw).1 = true)
    (hi : i < c.BLOCKS_PER_PACKET) (hj : j < c.LASER_COUNT) :
    let o := i * (c.SOB_ANGLE_SIZE + c.LASER_COUNT * c.RAW_MEASURE_SIZE)
    let u := o + c.SOB_ANGLE_SIZE + j * c.RAW_MEASURE_SIZE
    let s := c.BLOCKS_PER_PACKET * (c.SOB_ANGLE_SIZE + c.LASER_COUNT * c.RAW_MEASURE_SIZE)
      + c.RESERVE_SIZE + c.REVOLUTION_SIZE
    let range := raw.byte u + 256 * raw.byte (u + 1)
    let p := (pandar40.Pandar40Decoder.parsePacket c d raw).2.packet_
    (p.blocks.getD i default).azimuth = raw.byte (o + 2) + 256 * raw.byte (o + 3) ∧
    (p.blocks.getD i default).units.getD j default
      = (if roundDouble ((range : ℚ) * c.LASER_RETURN_TO_DISTANCE_RATE) > 100000 then
          { distance := 0, intensity := 0 }
        else
          { distance := roundDouble ((range : ℚ) * c.LASER_RETURN_TO_DISTANCE_RATE)
            intensity := raw.byte (u + 2) }) ∧
    p.usec = (raw.byte s + 256 * raw.byte (s + 1) + 65536 * raw.byte (s + 2)
      + 16777216 * raw.byte (s + 3)) % 1000000 := by
  intro o u s range p
  have hp : p = pandar40.Pandar40Decoder.parseFields c raw d.packet_ :=
    pandar40.Pandar40Decoder.p40_parsePacket_packet c d raw hacc
  have hloop := (pandar40.Pandar40Decoder.p40_block_loop c raw 0 d.packet_.blocks
    c.BLOCKS_PER_PACKET).2.1 i hi
  simp only [Nat.zero_add] at hloop
  rw [hp, pandar40.Pandar40Decoder.p40_parseFields_blocks]
  refine ⟨hloop.1, ?_, ?_⟩
  · rw [hloop.2 j hj, pandar40.Pandar40Decoder.p40_parseUnit_eq]
  · exact pandar40.Pandar40Decoder.p40_parseFields_usec c raw d.packet_

theorem C17_little_endian_extraction_witness :
    (pandar40.Pandar40Decoder.parsePacket pandar40.layout specDecoder pandar40.farRaw).1
      = true ∧
    0 < pandar40.layout.BLOCKS_PER_PACKET ∧ 0 < pandar40.layout.LASER_COUNT ∧
    (((pandar40.Pandar40Decoder.parsePacket pandar40.layout specDecoder
        pandar40.farRaw).2.packet_.blocks.getD 0 default).azimuth
      = pandar40.farRaw.byte (0 * (pandar40.layout.SOB_ANGLE_SIZE
            + pandar40.layout.LASER_COUNT * pandar40.layout.RAW_MEASURE_SIZE) + 2)
        + 256 * pandar40.farRaw.byte (0 * (pandar40.layout.SOB_ANGLE_SIZE
            + pandar40.layout.LASER_COUNT * pandar40.layout.RAW_MEASURE_SIZE) + 3)) :=
  have h1 : (pandar40.Pandar40Decoder.parsePacket pandar40.layout specDecoder
      pandar40.farRaw).1 = true := by decide
  have h2 : 0 < pandar40.layout.BLOCKS_PER_PACKET := by decide
  have h3 : 0 < pandar40.layout.LASER_COUNT := by decide
  ⟨h1, h2, h3,
   (C17_little_endian_extraction pandar40.layout specDecoder pandar40.farRaw 0 0 h1 h2 h3).1⟩

/-- C20. Reachable-state invariant of both decoders: in every state reached
from the constructed state by a sequence of `unpack` calls, of accepted or
rejected messages, the overflow buffer is empty whenever the ready flag
`has_scanned_` is false. -/
theorem C20_overflow_empty_unless_ready :
    (∀ (c : pandar40.Consts) (scan_phase_ : Nat) (thr : ℚ) (mode : pandar40.ReturnMode)
        (packet_ : pandar40.Packet) (raws : List PandarPacket),
      (raws.foldl (pandar40.Pandar40Decoder.unpack c)
          (pandar40.Pandar40Decoder.init scan_phase_ thr mode packet_)).has_scanned_ = true ∨
      (raws.foldl (pandar40.Pandar40Decoder.unpack c)
          (pandar40.Pandar40Decoder.init scan_phase_ thr mode packet_)).overflow_pc_ = []) ∧
    (∀ (c : pandar_xtm.Consts) (scan_phase_ : Nat) (mode : pandar_xtm.ReturnMode)
        (packet_ : pandar_xtm.Packet) (raws : List PandarPacket),
      (raws.foldl (pandar_xtm.PandarXTMDecoder.unpack c)
          (pandar_xtm.PandarXTMDecoder.init scan_phase_ mode packet_)).has_scanned_ = true ∨
      (raws.foldl (pandar_xtm.PandarXTMDecoder.unpack c)
          (pandar_xtm.PandarXTMDecoder.init scan_phase_ mode packet_)).overflow_pc_ = []) := by
  constructor
  · intro c scan_phase_ thr mode packet_ raws
    exact pandar40.Pandar40Decoder.p40_foldl_unpack_invariant c raws _ (Or.inr rfl)
  · intro c scan_phase_ mode packet_ raws
    exact pandar_xtm.PandarXTMDecoder.xtm_foldl_unpack_invariant c raws _ (Or.inr rfl)

/-- C21. No point is lost, duplicated or reordered by segmentation, in both
decoders: in a state reached from the constructed state by `unpack` calls,
after `unpack` of a packet that parses the current buffer followed by the
overflow buffer is the carried buffer (the old overflow buffer when the
ready flag was set, the old current buffer otherwise) followed by the point
lists of the blocks 0, `step`, `2 * step`, ... below the block count, each
converted by the conversion the loop selects, in block order; the list of
blocks is split at one position, the blocks before it going to the current
buffer and all blocks from it on to the overflow buffer. -/
theorem C21_points_conserved :
    (∀ (c : pandar40.Consts) (scan_phase_ : Nat) (thr : ℚ) (mode : pandar40.ReturnMode)
        (packet_ : pandar40.Packet) (raws : List PandarPacket) (raw : PandarPacket),
      let d := raws.foldl (pandar40.Pandar40Decoder.unpack c)
        (pandar40.Pandar40Decoder.init scan_phase_ thr mode packet_)
      (pandar40.Pandar40Decoder.parsePacket c d raw).1 = true →
      let p := (pandar40.Pandar40Decoder.parsePacket c d raw).2
      let r := pandar40.Pandar40Decoder.unpack c d raw
      let carried := if d.has_scanned_ then d.overflow_pc_ else d.scan_pc_
      let step := if p.packet_.return_mode = c.DUAL_RETURN then 2 else 1
      let pcs := (List.range ((c.BLOCKS_PER_PACKET + step - 1) / step)).map (fun j =>
        if p.packet_.return_mode = c.DUAL_RETURN then
          pandar40.Pandar40Decoder.convert_dual c p (j * step)
        else pandar40.Pandar40Decoder.convert c p (j * step))
      r.scan_pc_ ++ r.overflow_pc_ = carried ++ pcs.flatten ∧
      ∃ k, k ≤ pcs.length ∧
        r.scan_pc_ = carried ++ (pcs.take k).flatten ∧
        r.overflow_pc_ = (pcs.drop k).flatten) ∧
    (∀ (c : pandar_xtm.Consts) (scan_phase_ : Nat) (mode : pandar_xtm.ReturnMode)
        (packet_ : pandar_xtm.Packet) (raws : List PandarPacket) (raw : PandarPacket),
      let d := raws.foldl (pandar_xtm.PandarXTMDecoder.unpack c)
        (pandar_xtm.PandarXTMDecoder.init scan_phase_ mode packet_)
      (pandar_xtm.PandarXTMDecoder.parsePacket c d raw).1 = true →
      let p := (pandar_xtm.PandarXTMDecoder.parsePacket c d raw).2
      let r := pandar_xtm.PandarXTMDecoder.unpack c d raw
      let carried := if d.has_scanned_ then d.overflow_pc_ else d.scan_pc_
      let step := pandar_xtm.PandarXTMDecoder.stepOf c p.packet_.return_mode
      let pcs := (List.range ((c.BLOCK_NUM + step - 1) / step)).map (fun j =>
        if step = 1 then pandar_xtm.PandarXTMDecoder.convert c p (j * step)
        else if step = 2 then pandar_xtm.PandarXTMDecoder.convert_dual c p (j * step)
        else pandar_xtm.PandarXTMDecoder.convert_triple c p (j * step))
      r.scan_pc_ ++ r.overflow_pc_ = carried ++ pcs.flatten ∧
      ∃ k, k ≤ pcs.length ∧
        r.scan_pc_ = carried ++ (pcs.take k).flatten ∧
        r.overflow_pc_ = (pcs.drop k).flatten) := by
  constructor
  · intro c scan_phase_ thr mode packet_ raws raw d hacc p r carried step pcs
    have hinv : d.has_scanned_ = true ∨ d.overflow_pc_ = [] :=
      pandar40.Pandar40Decoder.p40_foldl_unpack_invariant c raws _ (Or.inr rfl)
    obtain ⟨k, hk, g1, g2, g3⟩ := ScanState.enter_run_concat d.scan_phase_ d.toScanState
      (pandar40.Pandar40Decoder.loopInputs c p) hinv
    have hr : r = p.withScanState (ScanState.run d.scan_phase_ d.toScanState.enter
        (pandar40.Pandar40Decoder.loopInputs c p)) :=
      pandar40.Pandar40Decoder.p40_unpack_accept c d raw hacc
    have hpcs : (pandar40.Pandar40Decoder.loopInputs c p).map Prod.snd = pcs :=
      pandar40.Pandar40Decoder.p40_loopInputs_snd c p
    rw [List.map_take, hpcs] at g1
    rw [List.map_drop, hpcs] at g2
    rw [hpcs] at g3
    have hlen : (pandar40.Pandar40Decoder.loopInputs c p).length = pcs.length := by
      rw [← hpcs, List.length_map]
    rw [hr]
    exact ⟨g3, k, hlen ▸ hk, g1, g2⟩
  · intro c scan_phase_ mode packet_ raws raw d hacc p r carried step pcs
    have hinv : d.has_scanned_ = true ∨ d.overflow_pc_ = [] :=
      pandar_xtm.PandarXTMDecoder.xtm_foldl_unpack_invariant c raws _ (Or.inr rfl)
    obtain ⟨k, hk, g1, g2, g3⟩ := ScanState.enter_run_concat d.scan_phase_ d.toScanState
      (pandar_xtm.PandarXTMDecoder.loopInputs c p) hinv
    have hr : r = p.withScanState (ScanState.run d.scan_phase_ d.toScanState.enter
        (pandar_xtm.PandarXTMDecoder.loopInputs c p)) :=
      pandar_xtm.PandarXTMDecoder.xtm_unpack_accept c d raw hacc
    have hpcs : (pandar_xtm.PandarXTMDecoder.loopInputs c p).map Prod.snd = pcs :=
      pandar_xtm.PandarXTMDecoder.xtm_loopInputs_snd c p
    rw [List.map_take, hpcs] at g1
    rw [List.map_drop, hpcs] at g2
    rw [hpcs] at g3
    have hlen : (pandar_xtm.PandarXTMDecoder.loopInputs c p).length = pcs.length := by
      rw [← hpcs, List.length_map]
    rw [hr]
    exact ⟨g3, k, hlen ▸ hk, g1, g2⟩

theorem C21_points_conserved_witness :
    ((pandar40.Pandar40Decoder.parsePacket pandar40.layout
        ([pandar40.zeroRaw, pandar40.farRaw].foldl
          (pandar40.Pandar40Decoder.unpack pandar40.layout)
          (pandar40.Pandar40Decoder.init 0 (roundDouble (1 / 10))
            pandar40.ReturnMode.STRONGEST specPacket))
        pandar40.zeroRaw).1 = true ∧
      (let p := (pandar40.Pandar40Decoder.parsePacket pandar40.layout
          ([pandar40.zeroRaw, pandar40.farRaw].foldl
            (pandar40.Pandar40Decoder.unpack pandar40.layout)
            (pandar40.Pandar40Decoder.init 0 (roundDouble (1 / 10))
              pandar40.ReturnMode.STRONGEST specPacket))
          pandar40.zeroRaw).2
       let r := pandar40.Pandar40Decoder.unpack pandar40.layout
          ([pandar40.zeroRaw, pandar40.farRaw].foldl
            (pandar40.Pandar40Decoder.unpack pandar40.layout)
            (pandar40.Pandar40Decoder.init 0 (roundDouble (1 / 10))
              pandar40.ReturnMode.STRONGEST specPacket))
          pandar40.zeroRaw
       let carried :=
          if ([pandar40.zeroRaw, pandar40.farRaw].foldl
              (pandar40.Pandar40Decoder.unpack pandar40.layout)
              (pandar40.Pandar40Decoder.init 0 (roundDouble (1 / 10))
                pandar40.ReturnMode.STRONGEST specPacket)).has_scanned_
          then ([pandar40.zeroRaw, pandar40.farRaw].foldl
              (pandar40.Pandar40Decoder.unpack pandar40.layout)
              (pandar40.Pandar40Decoder.init 0 (roundDouble (1 / 10))
                pandar40.ReturnMode.STRONGEST specPacket)).overflow_pc_
          else ([pandar40.zeroRaw, pandar40.farRaw].foldl
              (pandar40.Pandar40Decoder.unpack pandar40.layout)
              (pandar40.Pandar40Decoder.init 0 (roundDouble (1 / 10))
                pandar40.ReturnMode.STRONGEST specPacket)).scan_pc_
       let step := if p.packet_.return_mode = pandar40.layout.DUAL_RETURN then 2 else 1
       let pcs := (List.range ((pandar40.layout.BLOCKS_PER_PACKET + step - 1) / step)).map
        (fun j =>
          if p.packet_.return_mode = pandar40.layout.DUAL_RETURN then
            pandar40.Pandar40Decoder.convert_dual pandar40.layout p (j * step)
          else pandar40.Pandar40Decoder.convert pandar40.layout p (j * step))
       r.scan_pc_ ++ r.overflow_pc_ = carried ++ pcs.flatten)) ∧
    ((pandar_xtm.PandarXTMDecoder.parsePacket pandar_xtm.layout
        ([pandar_xtm.goodRaw].foldl (pandar_xtm.PandarXTMDecoder.unpack pandar_xtm.layout)
          (pandar_xtm.PandarXTMDecoder.init 0 pandar_xtm.ReturnMode.DUAL
            pandar_xtm.zeroPacket))
        pandar_xtm.goodRaw).1 = true ∧
      (let p := (pandar_xtm.PandarXTMDecoder.parsePacket pandar_xtm.layout
          ([pandar_xtm.goodRaw].foldl (pandar_xtm.PandarXTMDecoder.unpack pandar_xtm.layout)
            (pandar_xtm.PandarXTMDecoder.init 0 pandar_xtm.ReturnMode.DUAL
              pandar_xtm.zeroPacket))
          pandar_xtm.goodRaw).2
       let r := pandar_xtm.PandarXTMDecoder.unpack pandar_xtm.layout
          ([pandar_xtm.goodRaw].foldl (pandar_xtm.PandarXTMDecoder.unpack pandar_xtm.layout)
            (pandar_xtm.PandarXTMDecoder.init 0 pandar_xtm.ReturnMode.DUAL
              pandar_xtm.zeroPacket))
          pandar_xtm.goodRaw
       let carried :=
          if ([pandar_xtm.goodRaw].foldl
              (pandar_xtm.PandarXTMDecoder.unpack pandar_xtm.layout)
              (pandar_xtm.PandarXTMDecoder.init 0 pandar_xtm.ReturnMode.DUAL
                pandar_xtm.zeroPacket)).has_scanned_
          then ([pandar_xtm.goodRaw].foldl
              (pandar_xtm.PandarXTMDecoder.unpack pandar_xtm.layout)
              (pandar_xtm.PandarXTMDecoder.init 0 pandar_xtm.ReturnMode.DUAL
                pandar_xtm.zeroPacket)).overflow_pc_
          else ([pandar_xtm.goodRaw].foldl
              (pandar_xtm.PandarXTMDecoder.unpack pandar_xtm.layout)
              (pandar_xtm.PandarXTMDecoder.init 0 pandar_xtm.ReturnMode.DUAL
                pandar_xtm.zeroPacket)).scan_pc_
       let step := pandar_xtm.PandarXTMDecoder.stepOf pandar_xtm.layout p.packet_.return_mode
       let pcs := (List.range ((pandar_xtm.layout.BLOCK_NUM + step - 1) / step)).map (fun j =>
        if step = 1 then pandar_xtm.PandarXTMDecoder.convert pandar_xtm.layout p (j * step)
        else if step = 2 then
          pandar_xtm.PandarXTMDecoder.convert_dual pandar_xtm.layout p (j * step)
        else pandar_xtm.PandarXTMDecoder.convert_triple pandar_xtm.layout p (j * step))
       r.scan_pc_ ++ r.overflow_pc_ = carried ++ pcs.flatten)) :=
  have h1 : (pandar40.Pandar40Decoder.parsePacket pandar40.layout
      ([pandar40.zeroRaw, pandar40.farRaw].foldl
        (pandar40.Pandar40Decoder.unpack pandar40.layout)
        (pandar40.Pandar40Decoder.init 0 (roundDouble (1 / 10)) pandar40.ReturnMode.STRONGEST
          specPacket))
      pandar40.zeroRaw).1 = true := by decide
  have h2 : (pandar_xtm.PandarXTMDecoder.parsePacket pandar_xtm.layout
      ([pandar_xtm.goodRaw].foldl (pandar_xtm.PandarXTMDecoder.unpack pandar_xtm.layout)
        (pandar_xtm.PandarXTMDecoder.init 0 pandar_xtm.ReturnMode.DUAL pandar_xtm.zeroPacket))
      pandar_xtm.goodRaw).1 = true := by decide
  ⟨⟨h1, (C21_points_conserved.1 pandar40.layout 0 (roundDouble (1 / 10))
      pandar40.ReturnMode.STRONGEST specPacket [pandar40.zeroRaw, pandar40.farRaw]
      pandar40.zeroRaw h1).1⟩,
   ⟨h2, (C21_points_conserved.2 pandar_xtm.layout 0 pandar_xtm.ReturnMode.DUAL
      pandar_xtm.zeroPacket [pandar_xtm.goodRaw] pandar_xtm.goodRaw h2).1⟩⟩

/-- C22. Phase range invariant: for a 16-bit block azimuth and a scan phase
of at most 36000 the computed phase
`(azimuth - scan_phase_ + 36000) % 36000`, with the truncating remainder of
C++, lies in 0..35999; hence in every state reached from the constructed
state of such a decoder by `unpack` calls `last_phase_` is in 0..35999
(the block azimuths of the packet held at construction being 16-bit
values, as their type says). -/
theorem C22_phase_range :
    (∀ azimuth scan_phase_ : Nat, azimuth ≤ 65535 → scan_phase_ ≤ 36000 →
      0 ≤ currentPhase azimuth scan_phase_ ∧ currentPhase azimuth scan_phase_ < 36000) ∧
    (∀ (c : pandar40.Consts) (scan_phase_ : Nat) (thr : ℚ) (mode : pandar40.ReturnMode)
        (packet_ : pandar40.Packet) (raws : List PandarPacket),
      scan_phase_ ≤ 36000 → (∀ b ∈ packet_.blocks, b.azimuth ≤ 65535) →
      0 ≤ (raws.foldl (pandar40.Pandar40Decoder.unpack c)
          (pandar40.Pandar40Decoder.init scan_phase_ thr mode packet_)).last_phase_ ∧
      (raws.foldl (pandar40.Pandar40Decoder.unpack c)
          (pandar40.Pandar40Decoder.init scan_phase_ thr mode packet_)).last_phase_ < 36000) ∧
    (∀ (c : pandar_xtm.Consts) (scan_phase_ : Nat) (mode : pandar_xtm.ReturnMode)
        (packet_ : pandar_xtm.Packet) (raws : List PandarPacket),
      scan_phase_ ≤ 36000 → (∀ b ∈ packet_.blocks, b.azimuth ≤ 65535) →
      0 ≤ (raws.foldl (pandar_xtm.PandarXTMDecoder.unpack c)
          (pandar_xtm.PandarXTMDecoder.init scan_phase_ mode packet_)).last_phase_ ∧
      (raws.foldl (pandar_xtm.PandarXTMDecoder.unpack c)
          (pandar_xtm.PandarXTMDecoder.init scan_phase_ mode packet_)).last_phase_ < 36000) := by
  refine ⟨currentPhase_range, ?_, ?_⟩
  · intro c scan_phase_ thr mode packet_ raws hsp hb
    apply pandar40.Pandar40Decoder.p40_foldl_unpack_phase_invariant c raws _ _ hsp
      ⟨le_refl _, show (0 : Int) < 36000 by decide⟩
    intro i
    exact getD_azimuth_bound default (fun b : pandar40.Block => b.azimuth) (by decide)
      packet_.blocks hb i
  · intro c scan_phase_ mode packet_ raws hsp hb
    apply pandar_xtm.PandarXTMDecoder.xtm_foldl_unpack_phase_invariant c raws _ _ hsp
      ⟨le_refl _, show (0 : Int) < 36000 by decide⟩
    intro i
    exact getD_azimuth_bound default (fun b : pandar_xtm.Block => b.azimuth) (by decide)
      packet_.blocks hb i

theorem C22_phase_range_witness :
    (65535 : Nat) ≤ 65535 ∧ (36000 : Nat) ≤ 36000 ∧
    (0 ≤ currentPhase 65535 36000 ∧ currentPhase 65535 36000 < 36000) ∧
    (∀ b ∈ specPacket.blocks, b.azimuth ≤ 65535) ∧
    (([pandar40.zeroRaw, pandar40.farRaw].foldl
        (pandar40.Pandar40Decoder.unpack pandar40.layout)
        (pandar40.Pandar40Decoder.init 36000 (roundDouble (1 / 10))
          pandar40.ReturnMode.STRONGEST
          specPacket)).last_phase_ < 36000) ∧
    (∀ b ∈ pandar_xtm.zeroPacket.blocks, b.azimuth ≤ 65535) ∧
    (0 ≤ ([pandar_xtm.goodRaw].foldl (pandar_xtm.PandarXTMDecoder.unpack pandar_xtm.layout)
        (pandar_xtm.PandarXTMDecoder.init 36000 pandar_xtm.ReturnMode.DUAL
          pandar_xtm.zeroPacket)).last_phase_) :=
  have hp : ∀ b ∈ specPacket.blocks, b.azimuth ≤ 65535 := by decide!
  have hx : ∀ b ∈ pandar_xtm.zeroPacket.blocks, b.azimuth ≤ 65535 := by decide
  ⟨le_refl _, le_refl _, C22_phase_range.1 65535 36000 (le_refl _) (le_refl _), hp,
   (C22_phase_range.2.1 pandar40.layout 36000 (roundDouble (1 / 10))
      pandar40.ReturnMode.STRONGEST
      specPacket [pandar40.zeroRaw, pandar40.farRaw] (le_refl _) hp).2,
   hx,
   (C22_phase_range.2.2 pandar_xtm.layout 36000 pandar_xtm.ReturnMode.DUAL
      pandar_xtm.zeroPacket [pandar_xtm.goodRaw] (le_refl _) hx).1⟩

end pandar_pointcloud
